import Mathlib

/-!
OpenDungeons: tile claim rules (`entities/Tile.cpp`, `game/Seat.cpp`)

A shallow embedding of the tile and seat code that decides claim status,
diggability and wall claiming, colours the flood fill, tracks the vision of
each seat, keeps its research lists and goals, and writes and reads a seat in
the wire and the text format, followed by the properties proved about it.

Conventions of the embedding

* A finite `double` is the exact rational it stands for. The members
  `mFullness` and `mClaimedPercentage` are only compared with the constants
  `0.0` and `1.0`, and these comparisons are exact on every finite double. The
  product in `Tile::scaleDigRate` is the exact product rounded to the nearest
  `double`, a tie to the even significand.
* Pointers are explicit: a nullable `Seat*` is an `Option Seat` holding the
  state of the seat pointed to, and the tiles behind `mNeighbors` are handed to
  the functions that walk over them as a list of tile states.
* A function that would dereference a null pointer, or index a vector out of
  its range, returns `none`.
* The `seat` argument of a query is a seat, never `nullptr`.
* `OD_ASSERT_TRUE_MSG` only writes to the log and lets execution continue, so
  it leaves no trace in the embedding.
* A loop that may run for ever takes a number of rounds and returns `none`
  when it is still running after them.
* Text streams are lists of characters; the formatted input and output of
  numbers, which the standard library does, is a parameter.
-/

/-! ## Data model -/

/-- Terrain kind of a tile (`TileType`). The five named enumerators are the
ones the sources switch on; `other` is any further value of the enum, which
the `default:` labels of the sources handle. -/
inductive TileType where
  | dirt
  | rock
  | gold
  | water
  | lava
  | other
  deriving DecidableEq, Repr

/-- Derived look of a tile (`TileVisual`), with the enumerators listed by
`Tile::tileVisualToString`; `other` is any further value of the enum. -/
inductive TileVisual where
  | nullTileVisual
  | dirtGround
  | dirtFull
  | rockGround
  | rockFull
  | goldGround
  | goldFull
  | waterGround
  | lavaGround
  | claimedGround
  | claimedFull
  | other
  deriving DecidableEq, Repr

/-- The part of `GameMap` the tile and seat code reads: whether the map is the
authoritative server map or a client copy, and whether it is open in the
editor. -/
structure GameMap where
  isServerGameMap : Bool
  isInEditorMode : Bool := false
  deriving DecidableEq, Repr

/-- The part of `Player` the seat reads: whether a human controls it
(`getIsHuman`). -/
structure Player where
  mIsHuman : Bool
  deriving DecidableEq, Repr

/-- A value of the enum `ResearchType`, by its ordinal. The enum is declared
outside the sources at hand; see `ResearchConfig`. -/
abbrev ResearchType := Nat

/-- Modelled from the spec: the class `Research` is declared outside the
sources at hand. A research of the catalog has a type, the number of research
points it needs and the researches it depends on. -/
structure Research where
  mType : ResearchType
  mNeededResearchPoints : Int
  mDependencies : List ResearchType := []
  deriving DecidableEq, Repr

/-- What the seat code takes from declarations outside the sources at hand:
the ordinal of `ResearchType::nullResearchType`, the number of enumerators
`ResearchType::countResearch`, the names given by
`Research::researchTypeToString`, and the research catalog
`ConfigManager::getResearches()`. -/
structure ResearchConfig where
  nullResearchType : ResearchType
  countResearch : Nat
  researchTypeToString : ResearchType → String
  researches : List Research

/-- A `Goal*`: the goals of a seat are told apart by their identity. -/
abbrev GoalPtr := Nat

/-- The part of `Seat` the embedded code reads and writes: identity, team,
the map the seat belongs to, the player on the seat (`none` is `nullptr`), the
vision table, the members that are saved and sent, the research state and
the three vectors of goals. `mTilesVision[x][y]` is the pair of the flags
(previous, current) of the tile at (x, y). The defaults are the values the
constructor `Seat::Seat` gives; strings and vectors start empty. -/
structure Seat where
  mId : Int := -1
  mTeamId : Int := -1
  mGameMap : GameMap := { isServerGameMap := true }
  mPlayer : Option Player := none
  mTilesVision : List (List (Bool × Bool)) := []
  mAvailableTeamIds : List Int := []
  mPlayerType : String := ""
  mFaction : String := ""
  mStartingX : Int := 0
  mStartingY : Int := 0
  mColorId : String := ""
  mGold : Int := 0
  mGoldMined : Int := 0
  mMana : ℚ := 1000
  mManaDelta : ℚ := 0
  mNumClaimedTiles : Nat := 0
  mHasGoalsChanged : Bool := true
  mNbTreasuries : Int := 0
  mResearchPoints : Int := 0
  mCurrentResearch : Option Research := none
  mResearchDone : List ResearchType := []
  mResearchPending : List ResearchType := []
  mResearchNotAllowed : List ResearchType := []
  mNeedRefreshGuiResearchDone : Bool := false
  mNeedRefreshGuiResearchPending : Bool := false
  mUncompleteGoals : List GoalPtr := []
  mCompletedGoals : List GoalPtr := []
  mFailedGoals : List GoalPtr := []
  deriving DecidableEq, Repr

/-- A `Seat*` where the identity of the seat matters: `std::find` over seat
pointers and the links between allied seats, which may form cycles. -/
abbrev SeatPtr := Nat

/-- Modelled from the spec: the enum `FloodFillType` is declared outside the
sources at hand. Its enumerators are the four connectivity categories, in the
order the specification lists them, followed by the count `nbValues`. -/
inductive FloodFillType where
  | ground
  | groundWater
  | groundLava
  | groundWaterLava
  | nbValues
  deriving DecidableEq, Repr

/-- A `Player*`: the players that mark a tile are told apart by their
identity. -/
abbrev PlayerPtr := Nat

/-- State of a `Tile`. `mSeat` is the owning-seat pointer (`none` is
`nullptr`); `mFloodFillColor` has one entry per flood-fill category;
`mSeatsWithVision` lists the seats that were notified of vision on the tile;
`mTileChangedForSeats` pairs each seat with the flag "changed since the seat
was last told"; `mPlayersMarkingTile` lists the players that marked the tile
for digging. The members that only the renderer reads (selection, scale,
refund prices, covering building) are left out. -/
structure Tile where
  mGameMap : GameMap
  mX : Int
  mY : Int
  mType : TileType
  mTileVisual : TileVisual
  mFullness : ℚ
  mClaimedPercentage : ℚ
  mSeat : Option Seat
  mFloodFillColor : List Int
  mSeatsWithVision : List SeatPtr := []
  mLocalPlayerHasVision : Bool := false
  mTileChangedForSeats : List (SeatPtr × Bool) := []
  mPlayersMarkingTile : List PlayerPtr := []
  deriving DecidableEq

/-! ## `game/Seat.cpp` -/

/-- `Seat::getTeamId`. -/
def Seat.getTeamId (s : Seat) : Int := s.mTeamId

/-- `Seat::isAlliedSeat`: same team id. -/
def Seat.isAlliedSeat (self seat : Seat) : Bool :=
  self.getTeamId == seat.getTeamId

/-- `Seat::canOwnedTileBeClaimedBy`: `true` exactly on the branch taken when the
two team ids differ. -/
def Seat.canOwnedTileBeClaimedBy (self seat : Seat) : Bool :=
  if self.getTeamId != seat.getTeamId then true else false

/-! ## `entities/Tile.cpp` -/

/-- `Tile::getFullness`. -/
def Tile.getFullness (t : Tile) : ℚ := t.mFullness

/-- `Tile::getType`. -/
def Tile.getType (t : Tile) : TileType := t.mType

/-- `Tile::getSeat`. -/
def Tile.getSeat (t : Tile) : Option Seat := t.mSeat

/-- Modelled from the spec: the body of `setSeat`, which the tile inherits, is
not part of `Tile.cpp`; it stores the owning-seat reference. -/
def Tile.setSeat (t : Tile) (seat : Option Seat) : Tile :=
  { t with mSeat := seat }

/-- `Tile::isClaimed`. On a client map the claim status is read back from the
visual; on the server map it needs an owner and a claimed percentage that is
not below `1.0`. -/
def Tile.isClaimed (t : Tile) : Bool :=
  if !t.mGameMap.isServerGameMap then
    (t.mTileVisual == TileVisual.claimedGround) || (t.mTileVisual == TileVisual.claimedFull)
  else if t.getSeat == none then false
  else if t.mClaimedPercentage < 1 then false
  else true

/-- `Tile::computeTileVisual`: recompute `mTileVisual` from claim status, type
and fullness. -/
def Tile.computeTileVisual (t : Tile) : Tile :=
  if t.isClaimed then
    if t.mFullness > 0 then { t with mTileVisual := TileVisual.claimedFull }
    else { t with mTileVisual := TileVisual.claimedGround }
  else
    match t.getType with
    | TileType.dirt =>
      if t.mFullness > 0 then { t with mTileVisual := TileVisual.dirtFull }
      else { t with mTileVisual := TileVisual.dirtGround }
    | TileType.rock =>
      if t.mFullness > 0 then { t with mTileVisual := TileVisual.rockFull }
      else { t with mTileVisual := TileVisual.rockGround }
    | TileType.gold =>
      if t.mFullness > 0 then { t with mTileVisual := TileVisual.goldFull }
      else { t with mTileVisual := TileVisual.goldGround }
    | TileType.water => { t with mTileVisual := TileVisual.waterGround }
    | TileType.lava => { t with mTileVisual := TileVisual.lavaGround }
    | TileType.other => { t with mTileVisual := TileVisual.nullTileVisual }

/-- Number of flood-fill categories (`FloodFillType::nbValues`): ground,
ground+water, ground+lava, ground+water+lava. -/
def floodFillNbValues : Nat := 4

/-- `Tile::Tile`: member initialisers, then `setSeat(nullptr)` and
`computeTileVisual()`. -/
def Tile.construct (gameMap : GameMap) (x y : Int) (type : TileType) (fullness : ℚ) : Tile :=
  let init : Tile :=
    { mGameMap := gameMap
      mX := x
      mY := y
      mType := type
      mTileVisual := TileVisual.nullTileVisual
      mFullness := fullness
      mClaimedPercentage := 0
      mSeat := none
      mFloodFillColor := List.replicate floodFillNbValues (-1) }
  (init.setSeat none).computeTileVisual

/-- `Tile::isClaimedForSeat`: the tile is claimed and its owner's team cannot
claim against `seat`. A claimed tile without owner makes the code call
`canOwnedTileBeClaimedBy` through a null pointer: `none`. -/
def Tile.isClaimedForSeat (t : Tile) (seat : Seat) : Option Bool :=
  if !t.isClaimed then some false
  else
    match t.getSeat with
    | none => none
    | some tileSeat =>
      if tileSeat.canOwnedTileBeClaimedBy seat then some false
      else some true

/-- `Tile::isDiggable`. The switch on the visual settles the unclaimed
visuals; every other visual falls through to the claim test. -/
def Tile.isDiggable (t : Tile) (seat : Seat) : Option Bool :=
  match t.mTileVisual with
  | TileVisual.claimedGround => some false
  | TileVisual.dirtGround => some false
  | TileVisual.goldGround => some false
  | TileVisual.lavaGround => some false
  | TileVisual.waterGround => some false
  | TileVisual.rockGround => some false
  | TileVisual.rockFull => some false
  | TileVisual.goldFull => some true
  | TileVisual.dirtFull => some true
  | _ =>
    if !t.isClaimed then some true
    else
      match t.isClaimedForSeat seat with
      | none => none
      | some true => some true
      | some false => some false

/-- The neighbour loop of `Tile::isWallClaimable`, which the function runs
once for the requesting seat and once for the owner: walk `mNeighbors` in
order, skip the neighbours with `getFullness() > 0.0` and those not claimed for
`seat`, and stop with `true` at the first one left. -/
def Tile.foundClaimedGroundTile (mNeighbors : List Tile) (seat : Seat) : Option Bool :=
  match mNeighbors with
  | [] => some false
  | tile :: rest =>
    if tile.getFullness > 0 then Tile.foundClaimedGroundTile rest seat
    else
      match tile.isClaimedForSeat seat with
      | none => none
      | some false => Tile.foundClaimedGroundTile rest seat
      | some true => some true

/-- `Tile::isWallClaimable`; `mNeighbors` is the state of the tiles the
member of that name points to. -/
def Tile.isWallClaimable (t : Tile) (mNeighbors : List Tile) (seat : Seat) : Option Bool :=
  if t.getFullness = 0 then some false
  else if t.mType = TileType.lava ∨ t.mType = TileType.water ∨ t.mType = TileType.rock
      ∨ t.mType = TileType.gold then some false
  else
    match Tile.foundClaimedGroundTile mNeighbors seat with
    | none => none
    | some false => some false
    | some true =>
      if !t.isClaimed then some true
      else
        match t.isClaimedForSeat seat with
        | none => none
        | some true => some false
        | some false =>
          match t.getSeat with
          | none => some true
          | some tileSeat =>
            match Tile.foundClaimedGroundTile mNeighbors tileSeat with
            | none => none
            | some true => some false
            | some false => some true

/-- `Tile::isWallClaimedForSeat`. -/
def Tile.isWallClaimedForSeat (t : Tile) (seat : Seat) : Bool :=
  if t.getFullness = 0 then false
  else if t.mClaimedPercentage < 1 then false
  else
    match t.getSeat with
    | none => false
    | some tileSeat =>
      if tileSeat.canOwnedTileBeClaimedBy seat then false
      else true

/-- `Tile::nextTileFullness`: the switch over the fullness ladder. -/
def Tile.nextTileFullness (f : Int) : Int :=
  if f = 0 then 25
  else if f = 25 then 50
  else if f = 50 then 75
  else if f = 75 then 100
  else if f = 100 then 0
  else 0

/-- Round a rational to the nearest integer, a tie to the even one. -/
def roundHalfEven (q : ℚ) : ℤ :=
  if q - ⌊q⌋ < 1 / 2 then ⌊q⌋
  else if 1 / 2 < q - ⌊q⌋ then ⌊q⌋ + 1
  else if ⌊q⌋ % 2 = 0 then ⌊q⌋
  else ⌊q⌋ + 1

/-- The exponent of the last place of the `double` nearest to `q`: 52 places
below the leading binary digit of `q`, and never below -1074, the exponent of
the subnormal values. -/
def binary64Exponent (q : ℚ) : ℤ :=
  max (Int.log 2 |q| - 52) (-1074)

/-- The value of the C++ type `double` (IEEE 754 binary64, 53 bits of
significand) nearest to the rational `q`, a tie going to the even significand:
the rounding of a decimal literal and of the exact result of an arithmetic
operation. A finite `double` is the rational it stands for. The exponent is
not bounded above; the product of `0.2` with a finite `double` is not larger
than that `double`, so `Tile::scaleDigRate` does not reach the overflow. -/
def binary64 (q : ℚ) : ℚ :=
  roundHalfEven (q / 2 ^ binary64Exponent q) * 2 ^ binary64Exponent q

/-- The product `x * y` of two `double` values: the exact product, rounded to
the nearest `double`. -/
def binary64Mul (x y : ℚ) : ℚ :=
  binary64 (x * y)

/-- `Tile::scaleDigRate`. The literal `0.2` is the `double` nearest to one
fifth and the product is the product of the type `double`. -/
def Tile.scaleDigRate (t : Tile) (digRate : ℚ) : ℚ :=
  if !t.isClaimed then digRate
  else binary64Mul (binary64 0.2) digRate

/-- Modelled from the spec: `toUInt32`, the ordinal of a flood-fill category,
is declared outside the sources at hand. The categories are numbered from 0 in
the order of the enum. -/
def toUInt32 : FloodFillType → Nat
  | FloodFillType.ground => 0
  | FloodFillType.groundWater => 1
  | FloodFillType.groundLava => 2
  | FloodFillType.groundWaterLava => 3
  | FloodFillType.nbValues => 4

/-- The chain `(mFloodFillColor[i] != -1) && (mFloodFillColor[j] != -1) && ...`
of `Tile::isFloodFillFilled`, evaluated from left to right and cut short at the
first colour that is `-1`. Reading past the end of the vector gives `none`. -/
def Tile.allColored (colors : List Int) : List FloodFillType → Option Bool
  | [] => some true
  | type :: rest =>
    match colors[toUInt32 type]? with
    | none => none
    | some color => if color != -1 then Tile.allColored colors rest else some false

/-- `Tile::isFloodFillFilled`. -/
def Tile.isFloodFillFilled (t : Tile) : Option Bool :=
  if t.getFullness > 0 then some true
  else
    match t.getType with
    | TileType.dirt | TileType.gold | TileType.rock =>
      Tile.allColored t.mFloodFillColor
        [FloodFillType.ground, FloodFillType.groundWater, FloodFillType.groundLava,
          FloodFillType.groundWaterLava]
    | TileType.water =>
      Tile.allColored t.mFloodFillColor
        [FloodFillType.groundWater, FloodFillType.groundWaterLava]
    | TileType.lava =>
      Tile.allColored t.mFloodFillColor
        [FloodFillType.groundLava, FloodFillType.groundWaterLava]
    | TileType.other => some true

/-- `Tile::resetFloodFill`: every entry of the colour vector becomes `-1`. -/
def Tile.resetFloodFill (t : Tile) : Tile :=
  { t with mFloodFillColor := t.mFloodFillColor.map fun _ => -1 }

/-- `Tile::floodFillValue`: the colour of a category, `-1` when the ordinal is
not below the size of the vector. -/
def Tile.floodFillValue (t : Tile) (type : FloodFillType) : Int :=
  if h : toUInt32 type < t.mFloodFillColor.length then t.mFloodFillColor[toUInt32 type]
  else -1

/-- `Tile::updateFloodFillFromTile`: the returned flag and the receiving tile
after the call. The source tile `tile` is only read. The assignment indexes
both vectors without a check. -/
def Tile.updateFloodFillFromTile (t : Tile) (type : FloodFillType) (tile : Tile) :
    Option (Bool × Tile) :=
  if t.floodFillValue type != -1 || tile.floodFillValue type == -1 then some (false, t)
  else
    match tile.mFloodFillColor[toUInt32 type]? with
    | none => none
    | some color =>
      if toUInt32 type < t.mFloodFillColor.length then
        some (true, { t with mFloodFillColor := t.mFloodFillColor.set (toUInt32 type) color })
      else none

/-- One call `grid[receiver]->updateFloodFillFromTile(type, grid[source])` among
the tiles of a map. -/
structure FloodFillCall where
  type : FloodFillType
  receiver : Nat
  source : Nat
  deriving DecidableEq, Repr

/-- The tiles of a map after one `updateFloodFillFromTile` call; tiles are
addressed by a number. -/
def applyFloodFillCall (grid : Nat → Tile) (call : FloodFillCall) : Option (Nat → Tile) :=
  match (grid call.receiver).updateFloodFillFromTile call.type (grid call.source) with
  | none => none
  | some (_, receiver) => some (Function.update grid call.receiver receiver)

/-- The tiles of a map after a sequence of `updateFloodFillFromTile` calls. -/
def applyFloodFillCalls (grid : Nat → Tile) : List FloodFillCall → Option (Nat → Tile)
  | [] => some grid
  | call :: rest =>
    match applyFloodFillCall grid call with
    | none => none
    | some grid1 => applyFloodFillCalls grid1 rest

/-- `Seat::clearTilesWithVision`: for a human seat every pair (previous,
current) becomes (current, false); other seats return at once. -/
def Seat.clearTilesWithVision (s : Seat) : Seat :=
  match s.mPlayer with
  | none => s
  | some player =>
    if !player.mIsHuman then s
    else
      { s with mTilesVision := s.mTilesVision.map fun vec => vec.map fun p => (p.2, false) }

/-- `Seat::notifyVisionOnTile`: for a human seat the current flag of the pair
at the coordinates of the tile becomes true. The two assertions only log;
coordinates outside the table make the indexing undefined. -/
def Seat.notifyVisionOnTile (s : Seat) (tile : Tile) : Option Seat :=
  match s.mPlayer with
  | none => some s
  | some player =>
    if !player.mIsHuman then some s
    else if tile.mX < 0 ∨ tile.mY < 0 then none
    else
      match s.mTilesVision[tile.mX.toNat]? with
      | none => none
      | some vec =>
        match vec[tile.mY.toNat]? with
        | none => none
        | some p =>
          some { s with
            mTilesVision := s.mTilesVision.set tile.mX.toNat (vec.set tile.mY.toNat (p.1, true)) }

/-- Content of the `refreshVisibleTiles` notification that
`Seat::sendVisibleTiles` queues: the tiles on which vision was gained and those
on which it was lost, in the order they are written to the packet. -/
structure RefreshVisibleTiles (τ : Type) where
  tilesVisionGained : List τ
  tilesVisionLost : List τ

/-- The inner loop of `Seat::sendVisibleTiles` over `mTilesVision[xxx]`, from
index `yyy` on. `getTile` is `GameMap::getTile`, which is not part of the
sources at hand. -/
def Seat.sendVisibleTilesRow {τ : Type} (getTile : Nat → Nat → τ) (xxx : Nat) :
    List (Bool × Bool) → Nat → List τ × List τ → List τ × List τ
  | [], _, lists => lists
  | p :: rest, yyy, (tilesVisionGained, tilesVisionLost) =>
    if p.2 == p.1 then
      Seat.sendVisibleTilesRow getTile xxx rest (yyy + 1) (tilesVisionGained, tilesVisionLost)
    else if p.2 then
      Seat.sendVisibleTilesRow getTile xxx rest (yyy + 1)
        (tilesVisionGained ++ [getTile xxx yyy], tilesVisionLost)
    else
      Seat.sendVisibleTilesRow getTile xxx rest (yyy + 1)
        (tilesVisionGained, tilesVisionLost ++ [getTile xxx yyy])

/-- The outer loop of `Seat::sendVisibleTiles` over `mTilesVision`, from index
`xxx` on. -/
def Seat.sendVisibleTilesRows {τ : Type} (getTile : Nat → Nat → τ) :
    List (List (Bool × Bool)) → Nat → List τ × List τ → List τ × List τ
  | [], _, lists => lists
  | vec :: rest, xxx, lists =>
    Seat.sendVisibleTilesRows getTile rest (xxx + 1)
      (Seat.sendVisibleTilesRow getTile xxx vec 0 lists)

/-- `Seat::sendVisibleTiles`: the seat after the call and the notification
queued, if any. The function writes no member of the seat. -/
def Seat.sendVisibleTiles {τ : Type} (s : Seat) (getTile : Nat → Nat → τ) :
    Seat × Option (RefreshVisibleTiles τ) :=
  if !s.mGameMap.isServerGameMap then (s, none)
  else
    match s.mPlayer with
    | none => (s, none)
    | some player =>
      if !player.mIsHuman then (s, none)
      else
        let lists := Seat.sendVisibleTilesRows getTile s.mTilesVision 0 ([], [])
        (s, some { tilesVisionGained := lists.1, tilesVisionLost := lists.2 })

/-- `Tile::clearVision`. -/
def Tile.clearVision (t : Tile) : Tile :=
  { t with mSeatsWithVision := [] }

/-- `Tile::notifyVision`. The state is the tile together with the list of the
seats on which `notifyVisionOnTile(this)` was called, in call order;
`getAlliedSeats` gives the allied-seat vector of each seat. The recursion of
the source is bounded by `fuel`, the depth allowed to the call stack: `none`
means the depth was used up. -/
def Tile.notifyVision (getAlliedSeats : SeatPtr → List SeatPtr) :
    Nat → Tile × List SeatPtr → SeatPtr → Option (Tile × List SeatPtr)
  | 0, _, _ => none
  | fuel + 1, (t, notified), seat =>
    if seat ∈ t.mSeatsWithVision then some (t, notified)
    else
      (getAlliedSeats seat).foldlM
        (fun state alliedSeat => Tile.notifyVision getAlliedSeats fuel state alliedSeat)
        ({ t with mSeatsWithVision := t.mSeatsWithVision ++ [seat] }, notified ++ [seat])

/-- `Seat::setMapSize`: a human seat gets a table of `x` columns of `y` pairs
(false, false); other seats return at once. A negative size makes the
construction of the vector fail. -/
def Seat.setMapSize (s : Seat) (x y : Int) : Option Seat :=
  match s.mPlayer with
  | none => some s
  | some player =>
    if !player.mIsHuman then some s
    else if x < 0 then none
    else if 0 < x ∧ y < 0 then none
    else
      some { s with
        mTilesVision := List.replicate x.toNat (List.replicate y.toNat (false, false)) }

/-- `Seat::hasVisionOnTile`. `thisIsLocalSeat` is the outcome of the pointer
test `this != mGameMap->getLocalPlayer()->getSeat()` of the client branch,
whose operands lie outside the sources at hand. The two assertions only log;
coordinates outside the table make the indexing undefined. -/
def Seat.hasVisionOnTile (s : Seat) (thisIsLocalSeat : Bool) (tile : Tile) : Option Bool :=
  if !s.mGameMap.isServerGameMap then
    if !thisIsLocalSeat then some false
    else some tile.mLocalPlayerHasVision
  else
    match s.mPlayer with
    | none => some true
    | some player =>
      if !player.mIsHuman then some true
      else if tile.mX < 0 ∨ tile.mY < 0 then none
      else
        match s.mTilesVision[tile.mX.toNat]? with
        | none => none
        | some vec =>
          match vec[tile.mY.toNat]? with
          | none => none
          | some p => some p.2

/-- The loop of `Tile::hasChangedForSeat`: the flag of the first pair of the
seat, `false` when the seat has no pair (the assertion only logs). -/
def Tile.hasChangedForSeatLoop : List (SeatPtr × Bool) → SeatPtr → Bool
  | [], _ => false
  | seatChanged :: rest, seat =>
    if seatChanged.1 != seat then Tile.hasChangedForSeatLoop rest seat
    else seatChanged.2

/-- `Tile::hasChangedForSeat`. -/
def Tile.hasChangedForSeat (t : Tile) (seat : SeatPtr) : Bool :=
  Tile.hasChangedForSeatLoop t.mTileChangedForSeats seat

/-- The loop of `Tile::changeNotifiedForSeat`: the flag of the first pair of
the seat becomes false. -/
def Tile.changeNotifiedForSeatLoop : List (SeatPtr × Bool) → SeatPtr → List (SeatPtr × Bool)
  | [], _ => []
  | seatChanged :: rest, seat =>
    if seatChanged.1 != seat then seatChanged :: Tile.changeNotifiedForSeatLoop rest seat
    else (seatChanged.1, false) :: rest

/-- `Tile::changeNotifiedForSeat`. -/
def Tile.changeNotifiedForSeat (t : Tile) (seat : SeatPtr) : Tile :=
  { t with mTileChangedForSeats := Tile.changeNotifiedForSeatLoop t.mTileChangedForSeats seat }

/-- `Tile::setSeats`: every seat of the list gets a pair with the flag true. -/
def Tile.setSeats (t : Tile) (seats : List SeatPtr) : Tile :=
  { t with mTileChangedForSeats := seats.map fun seat => (seat, true) }

/-- The inner loop of `Seat::notifyChangedVisibleTiles` over
`mTilesVision[xxx]`, from index `yyy` on. `this` is the pointer to the seat;
`tiles c` is the state of the tile `mGameMap->getTile(c.1, c.2)`, which the
loop updates, and `tilesToNotify` lists the tiles by their coordinates. -/
def Seat.notifyChangedVisibleTilesRow (this : SeatPtr) (xxx : Nat) :
    List (Bool × Bool) → Nat → (Nat × Nat → Tile) × List (Nat × Nat) →
      (Nat × Nat → Tile) × List (Nat × Nat)
  | [], _, state => state
  | p :: rest, yyy, (tiles, tilesToNotify) =>
    if !p.2 then
      Seat.notifyChangedVisibleTilesRow this xxx rest (yyy + 1) (tiles, tilesToNotify)
    else if !(tiles (xxx, yyy)).hasChangedForSeat this then
      Seat.notifyChangedVisibleTilesRow this xxx rest (yyy + 1) (tiles, tilesToNotify)
    else
      Seat.notifyChangedVisibleTilesRow this xxx rest (yyy + 1)
        (Function.update tiles (xxx, yyy) ((tiles (xxx, yyy)).changeNotifiedForSeat this),
          tilesToNotify ++ [(xxx, yyy)])

/-- The outer loop of `Seat::notifyChangedVisibleTiles` over `mTilesVision`,
from index `xxx` on. -/
def Seat.notifyChangedVisibleTilesRows (this : SeatPtr) :
    List (List (Bool × Bool)) → Nat → (Nat × Nat → Tile) × List (Nat × Nat) →
      (Nat × Nat → Tile) × List (Nat × Nat)
  | [], _, state => state
  | vec :: rest, xxx, state =>
    Seat.notifyChangedVisibleTilesRows this rest (xxx + 1)
      (Seat.notifyChangedVisibleTilesRow this xxx vec 0 state)

/-- `Seat::notifyChangedVisibleTiles`: the tiles of the map after the call and
the content of the `refreshTiles` notification queued, if any: the tiles to
refresh, by their coordinates, in the order they are written to the packet.
The seat itself is not written. -/
def Seat.notifyChangedVisibleTiles (s : Seat) (this : SeatPtr) (tiles : Nat × Nat → Tile) :
    (Nat × Nat → Tile) × Option (List (Nat × Nat)) :=
  match s.mPlayer with
  | none => (tiles, none)
  | some player =>
    if !player.mIsHuman then (tiles, none)
    else
      let state := Seat.notifyChangedVisibleTilesRows this s.mTilesVision 0 (tiles, [])
      if state.2.isEmpty then (state.1, none)
      else (state.1, some state.2)

/-- Modelled from the spec: `Research::canBeResearched` is declared outside
the sources at hand. A research can be researched once every research it
depends on is among the researches done. -/
def Research.canBeResearched (research : Research) (researchesDone : List ResearchType) : Bool :=
  research.mDependencies.all fun dependency => decide (dependency ∈ researchesDone)

/-- Kinds of rendered entities the seat code tells apart
(`GameEntityType`). -/
inductive GameEntityType where
  | researchEntity
  | other
  deriving DecidableEq, Repr

/-- The part of a `RenderedMovableEntity` that `Seat::setNextResearch` reads:
its kind, the seat it belongs to and, for a research entity, the research it
carries. -/
structure RenderedMovableEntity where
  mObjectType : GameEntityType
  mSeat : Option SeatPtr
  mResearchType : ResearchType
  deriving DecidableEq, Repr

/-- Content of the notifications the research functions queue for the
client. -/
inductive ServerNotification where
  | researchesDone (researches : List ResearchType)
  | researchTree (researches : List ResearchType)
  deriving DecidableEq, Repr

/-- A value of an `int32_t` computation: `none` when it leaves the range of
the type, where the signed arithmetic of the source is undefined. -/
def int32 (v : Int) : Option Int :=
  if -2147483648 ≤ v ∧ v ≤ 2147483647 then some v else none

/-- The catalog search used by `Seat::setNextResearch` and
`Seat::setResearchTree`: the first research of the list with the type asked
for. -/
def Seat.findResearch : List Research → ResearchType → Option Research
  | [], _ => none
  | research :: rest, researchType =>
    if research.mType != researchType then Seat.findResearch rest researchType
    else some research

/-- The loop of `Seat::setNextResearch` over the rendered entities, for one
pending research: `nullResearchType` when the seat owns a research entity of
that research, the value of `researchType` otherwise. -/
def Seat.setNextResearchEntities (cfg : ResearchConfig) (this : SeatPtr)
    (pending : ResearchType) : List RenderedMovableEntity → ResearchType → ResearchType
  | [], researchType => researchType
  | renderable :: rest, researchType =>
    if renderable.mObjectType != GameEntityType.researchEntity then
      Seat.setNextResearchEntities cfg this pending rest researchType
    else if renderable.mSeat != some this then
      Seat.setNextResearchEntities cfg this pending rest researchType
    else if renderable.mResearchType != pending then
      Seat.setNextResearchEntities cfg this pending rest researchType
    else cfg.nullResearchType

/-- The loop of `Seat::setNextResearch` over the pending researches, with the
current value of the local `researchType`. -/
def Seat.setNextResearchPending (cfg : ResearchConfig) (this : SeatPtr)
    (renderables : List RenderedMovableEntity) (researchedType : ResearchType) :
    List ResearchType → ResearchType → ResearchType
  | [], researchType => researchType
  | pending :: rest, researchType =>
    if pending == researchedType then
      Seat.setNextResearchPending cfg this renderables researchedType rest researchType
    else
      let found := Seat.setNextResearchEntities cfg this pending renderables pending
      if found != cfg.nullResearchType then found
      else Seat.setNextResearchPending cfg this renderables researchedType rest found

/-- `Seat::setNextResearch`. `this` is the pointer to the seat and
`renderables` the list `mGameMap->getRenderedMovableEntities()`. -/
def Seat.setNextResearch (s : Seat) (cfg : ResearchConfig) (this : SeatPtr)
    (renderables : List RenderedMovableEntity) (researchedType : ResearchType) : Seat :=
  if s.mResearchPending.isEmpty then { s with mCurrentResearch := none }
  else
    let researchType :=
      Seat.setNextResearchPending cfg this renderables researchedType s.mResearchPending
        cfg.nullResearchType
    if researchType == cfg.nullResearchType then { s with mCurrentResearch := none }
    else { s with mCurrentResearch := Seat.findResearch cfg.researches researchType }

/-- `Seat::addResearchPoints`: the research returned (`none` is `nullptr`) and
the seat after the call. The whole result is `none` when the `int32_t`
arithmetic overflows. -/
def Seat.addResearchPoints (s : Seat) (cfg : ResearchConfig) (this : SeatPtr)
    (renderables : List RenderedMovableEntity) (points : Int) :
    Option (Option Research × Seat) :=
  match s.mCurrentResearch with
  | none => some (none, s)
  | some current =>
    match int32 (s.mResearchPoints + points) with
    | none => none
    | some sum =>
      if sum < current.mNeededResearchPoints then some (none, { s with mResearchPoints := sum })
      else
        match int32 (sum - current.mNeededResearchPoints) with
        | none => none
        | some left =>
          some (some current,
            Seat.setNextResearch { s with mResearchPoints := left } cfg this renderables
              current.mType)

/-- `Seat::isResearchDone`. -/
def Seat.isResearchDone (s : Seat) (type : ResearchType) : Bool :=
  s.mResearchDone.any fun researchDone => researchDone == type

/-- `Seat::setResearchesDone`: the seat after the call and the notifications
queued. Each research of the new done list is erased once from the pending
list. -/
def Seat.setResearchesDone (s : Seat) (researches : List ResearchType) :
    Seat × List ServerNotification :=
  let s1 : Seat :=
    { s with
      mResearchDone := researches
      mResearchPending := researches.foldl (fun pending type => pending.erase type)
        s.mResearchPending }
  if s.mGameMap.isServerGameMap then
    match s.mPlayer with
    | none => (s1, [])
    | some player =>
      if player.mIsHuman then (s1, [ServerNotification.researchesDone s1.mResearchDone])
      else (s1, [])
  else ({ s1 with mNeedRefreshGuiResearchDone := true }, [])

/-- `Seat::addResearch`: the flag returned, the seat after the call and the
notifications queued. -/
def Seat.addResearch (s : Seat) (type : ResearchType) : Bool × Seat × List ServerNotification :=
  if type ∈ s.mResearchDone then (false, s, [])
  else
    let result := s.setResearchesDone (s.mResearchDone ++ [type])
    (true, result.1, result.2)

/-- The validation loop of `Seat::setResearchTree` on the server map:
`false` where the source returns without updating, `true` when the loop runs
to its end. `researchesDoneInTree` grows by each research accepted. -/
def Seat.researchTreeAllowed (cfg : ResearchConfig) (notAllowed : List ResearchType) :
    List ResearchType → List ResearchType → Bool
  | [], _ => true
  | researchType :: rest, researchesDoneInTree =>
    if researchType ∈ notAllowed then false
    else
      match Seat.findResearch cfg.researches researchType with
      | none => false
      | some research =>
        if !research.canBeResearched researchesDoneInTree then false
        else Seat.researchTreeAllowed cfg notAllowed rest (researchesDoneInTree ++ [researchType])

/-- `Seat::setResearchTree`: the seat after the call and the notifications
queued. -/
def Seat.setResearchTree (s : Seat) (cfg : ResearchConfig) (this : SeatPtr)
    (renderables : List RenderedMovableEntity) (researches : List ResearchType) :
    Seat × List ServerNotification :=
  if s.mGameMap.isServerGameMap then
    if !Seat.researchTreeAllowed cfg s.mResearchNotAllowed researches s.mResearchDone then (s, [])
    else
      let s1 : Seat := { s with mResearchPending := researches }
      let notifications :=
        match s.mPlayer with
        | none => []
        | some player =>
          if player.mIsHuman then [ServerNotification.researchTree researches] else []
      (s1.setNextResearch cfg this renderables cfg.nullResearchType, notifications)
  else
    ({ s with mResearchPending := researches, mNeedRefreshGuiResearchPending := true }, [])

/-- `Seat::initSeat`, as far as the research lists go: both lists are emptied
and handed back to `setResearchesDone` and `setResearchTree`. The spawn pool
and the default worker class are members outside the embedding. -/
def Seat.initSeat (s : Seat) (cfg : ResearchConfig) (this : SeatPtr)
    (renderables : List RenderedMovableEntity) : Seat × List ServerNotification :=
  match s.mPlayer with
  | none => (s, [])
  | some _ =>
    let done := Seat.setResearchesDone { s with mResearchDone := [] } s.mResearchDone
    let tree :=
      Seat.setResearchTree { done.1 with mResearchPending := [] } cfg this renderables
        done.1.mResearchPending
    (tree.1, done.2 ++ tree.2)

/-- `Seat::Seat(GameMap*)`: the seat as the constructor leaves it. The
strings and the lists start empty. -/
def Seat.construct (gameMap : GameMap) : Seat :=
  { mGameMap := gameMap
    mPlayer := none
    mTeamId := -1
    mMana := 1000
    mManaDelta := 0
    mStartingX := 0
    mStartingY := 0
    mGoldMined := 0
    mNumClaimedTiles := 0
    mHasGoalsChanged := true
    mGold := 0
    mId := -1
    mNbTreasuries := 0
    mResearchPoints := 0
    mCurrentResearch := none
    mNeedRefreshGuiResearchDone := false
    mNeedRefreshGuiResearchPending := false }

/-- One value written to an `ODPacket`, tagged with the type it was written
as. -/
inductive PacketField where
  | int32 (value : Int)
  | uint32 (value : Nat)
  | string (value : String)
  | double (value : ℚ)
  | bool (value : Bool)
  deriving DecidableEq, Repr

/-- Modelled from the spec: `ODPacket` is declared outside the sources at
hand. A packet holds the values written to it and not yet read, in the order
of writing; a value is written at the end and read from the front. -/
structure ODPacket where
  fields : List PacketField
  deriving DecidableEq, Repr

/-- Modelled from the spec: `ODPacket << int`. -/
def ODPacket.writeInt32 (os : ODPacket) (value : Int) : ODPacket :=
  { fields := os.fields ++ [PacketField.int32 value] }

/-- Modelled from the spec: `ODPacket << uint32_t`. -/
def ODPacket.writeUInt32 (os : ODPacket) (value : Nat) : ODPacket :=
  { fields := os.fields ++ [PacketField.uint32 value] }

/-- Modelled from the spec: `ODPacket << std::string`. -/
def ODPacket.writeString (os : ODPacket) (value : String) : ODPacket :=
  { fields := os.fields ++ [PacketField.string value] }

/-- Modelled from the spec: `ODPacket << double`. -/
def ODPacket.writeDouble (os : ODPacket) (value : ℚ) : ODPacket :=
  { fields := os.fields ++ [PacketField.double value] }

/-- Modelled from the spec: `ODPacket << bool`. -/
def ODPacket.writeBool (os : ODPacket) (value : Bool) : ODPacket :=
  { fields := os.fields ++ [PacketField.bool value] }

/-- Modelled from the spec: `ODPacket >> int`; `none` when the packet does not
hold an `int` next. -/
def ODPacket.readInt32 (is : ODPacket) : Option (Int × ODPacket) :=
  match is.fields with
  | PacketField.int32 value :: rest => some (value, { fields := rest })
  | _ => none

/-- Modelled from the spec: `ODPacket >> uint32_t`; `none` when the packet
does not hold a `uint32_t` next. -/
def ODPacket.readUInt32 (is : ODPacket) : Option (Nat × ODPacket) :=
  match is.fields with
  | PacketField.uint32 value :: rest => some (value, { fields := rest })
  | _ => none

/-- Modelled from the spec: `ODPacket >> std::string`; `none` when the packet
does not hold a string next. -/
def ODPacket.readString (is : ODPacket) : Option (String × ODPacket) :=
  match is.fields with
  | PacketField.string value :: rest => some (value, { fields := rest })
  | _ => none

/-- Modelled from the spec: `ODPacket >> double`; `none` when the packet does
not hold a `double` next. -/
def ODPacket.readDouble (is : ODPacket) : Option (ℚ × ODPacket) :=
  match is.fields with
  | PacketField.double value :: rest => some (value, { fields := rest })
  | _ => none

/-- Modelled from the spec: `ODPacket >> bool`; `none` when the packet does
not hold a `bool` next. -/
def ODPacket.readBool (is : ODPacket) : Option (Bool × ODPacket) :=
  match is.fields with
  | PacketField.bool value :: rest => some (value, { fields := rest })
  | _ => none

/-- The loop of `operator<<(ODPacket&, Seat*)` over the available team
ids. -/
def Seat.writeTeamIds (os : ODPacket) : List Int → ODPacket
  | [] => os
  | teamId :: rest => Seat.writeTeamIds (os.writeInt32 teamId) rest

/-- `operator<<(ODPacket&, Seat*)`. The count `nb` is a `uint32_t` taken from
the size of the vector. -/
def Seat.writeToPacket (os : ODPacket) (s : Seat) : ODPacket :=
  let os := os.writeInt32 s.mId
  let os := os.writeInt32 s.mTeamId
  let os := os.writeString s.mPlayerType
  let os := os.writeString s.mFaction
  let os := os.writeInt32 s.mStartingX
  let os := os.writeInt32 s.mStartingY
  let os := os.writeString s.mColorId
  let os := os.writeInt32 s.mGold
  let os := os.writeDouble s.mMana
  let os := os.writeDouble s.mManaDelta
  let os := os.writeUInt32 s.mNumClaimedTiles
  let os := os.writeBool s.mHasGoalsChanged
  let os := os.writeInt32 s.mNbTreasuries
  let nb := s.mAvailableTeamIds.length % 4294967296
  let os := os.writeUInt32 nb
  Seat.writeTeamIds os s.mAvailableTeamIds

/-- The loop `while(nb > 0)` of `operator>>(ODPacket&, Seat*)`: each round
reads a team id and pushes it to the list. -/
def Seat.readTeamIds : Nat → ODPacket → List Int → Option (List Int × ODPacket)
  | 0, is, availableTeamIds => some (availableTeamIds, is)
  | nb + 1, is, availableTeamIds =>
    match is.readInt32 with
    | none => none
    | some (teamId, is) => Seat.readTeamIds nb is (availableTeamIds ++ [teamId])

/-- `operator>>(ODPacket&, Seat*)`: the packet left and the seat read into,
`none` when a read fails. The colour value looked up from the colour id is a
member outside the embedding. -/
def Seat.readFromPacket (is : ODPacket) (s : Seat) : Option (ODPacket × Seat) :=
  match is.readInt32 with
  | none => none
  | some (mId, is) =>
  match is.readInt32 with
  | none => none
  | some (mTeamId, is) =>
  match is.readString with
  | none => none
  | some (mPlayerType, is) =>
  match is.readString with
  | none => none
  | some (mFaction, is) =>
  match is.readInt32 with
  | none => none
  | some (mStartingX, is) =>
  match is.readInt32 with
  | none => none
  | some (mStartingY, is) =>
  match is.readString with
  | none => none
  | some (mColorId, is) =>
  match is.readInt32 with
  | none => none
  | some (mGold, is) =>
  match is.readDouble with
  | none => none
  | some (mMana, is) =>
  match is.readDouble with
  | none => none
  | some (mManaDelta, is) =>
  match is.readUInt32 with
  | none => none
  | some (mNumClaimedTiles, is) =>
  match is.readBool with
  | none => none
  | some (mHasGoalsChanged, is) =>
  match is.readInt32 with
  | none => none
  | some (mNbTreasuries, is) =>
  match is.readUInt32 with
  | none => none
  | some (nb, is) =>
  match Seat.readTeamIds nb is s.mAvailableTeamIds with
  | none => none
  | some (mAvailableTeamIds, is) =>
    some (is,
      { s with
        mId := mId
        mTeamId := mTeamId
        mPlayerType := mPlayerType
        mFaction := mFaction
        mStartingX := mStartingX
        mStartingY := mStartingY
        mColorId := mColorId
        mGold := mGold
        mMana := mMana
        mManaDelta := mManaDelta
        mNumClaimedTiles := mNumClaimedTiles
        mHasGoalsChanged := mHasGoalsChanged
        mNbTreasuries := mNbTreasuries
        mAvailableTeamIds := mAvailableTeamIds })

/-- The horizontal tab written after each keyword of the text format. -/
def tabChar : Char := Char.ofNat 9

/-- The line end written by `std::endl`. -/
def endlChar : Char := Char.ofNat 10

/-- The slash that separates the team ids of the text format. -/
def slashChar : Char := Char.ofNat 47

/-- `std::isspace` in the "C" locale: space, tab, line feed, vertical tab,
form feed and carriage return. -/
def isSpace (c : Char) : Bool :=
  c.toNat = 32 || c.toNat = 9 || c.toNat = 10 || c.toNat = 11 || c.toNat = 12 || c.toNat = 13

/-- The library code the text format relies on and that is outside the
sources at hand: the formatted output and input of numbers by the standard
streams, and `Helper::split` and `Helper::toInt`.
`parseInt` and `parseDouble` are applied to the text left after the white
space was skipped; they return the number read and the text that follows it,
or `none` when the text does not start with a number. -/
structure StreamLibrary where
  writeInt : Int → List Char
  parseInt : List Char → Option (Int × List Char)
  writeDouble : ℚ → List Char
  parseDouble : List Char → Option (ℚ × List Char)
  split : String → Char → List String
  toInt : String → Int

/-- An input stream: the text not read yet and the fail bit. -/
structure IStream where
  text : List Char
  failed : Bool := false
  deriving DecidableEq, Repr

/-- `is >> str` for a `std::string`: the stream after the read and the value
of `str`. A stream that has failed, or holds white space only, leaves `str`
as it was. -/
def IStream.readString (is : IStream) (str : String) : IStream × String :=
  if is.failed then (is, str)
  else
    let text := is.text.dropWhile isSpace
    if text.isEmpty then ({ text := [], failed := true }, str)
    else
      ({ text := text.dropWhile fun c => !isSpace c },
        String.mk (text.takeWhile fun c => !isSpace c))

/-- `is >> value` for an `int`: a stream that has failed, or holds white space
only, leaves the value as it was; text that is no number sets the fail bit
and stores 0. -/
def IStream.readInt (lib : StreamLibrary) (is : IStream) (value : Int) : IStream × Int :=
  if is.failed then (is, value)
  else
    let text := is.text.dropWhile isSpace
    if text.isEmpty then ({ text := [], failed := true }, value)
    else
      match lib.parseInt text with
      | none => ({ text := text, failed := true }, 0)
      | some (read, rest) => ({ text := rest }, read)

/-- `is >> value` for a `double`, as `IStream.readInt`. -/
def IStream.readDouble (lib : StreamLibrary) (is : IStream) (value : ℚ) : IStream × ℚ :=
  if is.failed then (is, value)
  else
    let text := is.text.dropWhile isSpace
    if text.isEmpty then ({ text := [], failed := true }, value)
    else
      match lib.parseDouble text with
      | none => ({ text := text, failed := true }, 0)
      | some (read, rest) => ({ text := rest }, read)

/-- The loop of `Seat::importSeatFromStream` over the team ids split from the
token read: a team id of 0 is skipped, any other is pushed to the list. -/
def Seat.importTeamIds (lib : StreamLibrary) : List String → List Int → List Int
  | [], availableTeamIds => availableTeamIds
  | strTeamId :: rest, availableTeamIds =>
    let teamId := lib.toInt strTeamId
    if teamId == 0 then Seat.importTeamIds lib rest availableTeamIds
    else Seat.importTeamIds lib rest (availableTeamIds ++ [teamId])

/-- The `for` loop of the `[ResearchDone]` section over the ordinals still to
try, for the token `str`: the done list after the loop. -/
def Seat.importResearchDoneFor (cfg : ResearchConfig) (str : String) :
    List Nat → List ResearchType → List ResearchType
  | [], researchDone => researchDone
  | i :: rest, researchDone =>
    if i == cfg.nullResearchType then Seat.importResearchDoneFor cfg str rest researchDone
    else if str != cfg.researchTypeToString i then
      Seat.importResearchDoneFor cfg str rest researchDone
    else if i ∈ researchDone then researchDone
    else researchDone ++ [i]

/-- The `for` loop of the `[ResearchNotAllowed]` section: the not allowed list
after the loop. -/
def Seat.importResearchNotAllowedFor (cfg : ResearchConfig) (str : String)
    (researchDone : List ResearchType) : List Nat → List ResearchType → List ResearchType
  | [], researchNotAllowed => researchNotAllowed
  | i :: rest, researchNotAllowed =>
    if i == cfg.nullResearchType then
      Seat.importResearchNotAllowedFor cfg str researchDone rest researchNotAllowed
    else if str != cfg.researchTypeToString i then
      Seat.importResearchNotAllowedFor cfg str researchDone rest researchNotAllowed
    else if i ∈ researchDone then researchNotAllowed
    else if i ∈ researchNotAllowed then researchNotAllowed
    else researchNotAllowed ++ [i]

/-- The `for` loop of the `[ResearchPending]` section: the pending list after
the loop. This loop goes on after a research was pushed. -/
def Seat.importResearchPendingFor (cfg : ResearchConfig) (str : String)
    (researchDone researchNotAllowed : List ResearchType) :
    List Nat → List ResearchType → List ResearchType
  | [], researchPending => researchPending
  | i :: rest, researchPending =>
    if i == cfg.nullResearchType then
      Seat.importResearchPendingFor cfg str researchDone researchNotAllowed rest researchPending
    else if str != cfg.researchTypeToString i then
      Seat.importResearchPendingFor cfg str researchDone researchNotAllowed rest researchPending
    else if i ∈ researchDone then researchPending
    else if i ∈ researchNotAllowed then researchPending
    else if i ∈ researchPending then researchPending
    else
      Seat.importResearchPendingFor cfg str researchDone researchNotAllowed rest
        (researchPending ++ [i])

/-- The `while(true)` loop of the `[ResearchDone]` section, for at most `fuel`
rounds: the stream, the token and the done list when the closing tag was
read, `none` when the loop is still running after `fuel` rounds. -/
def Seat.importResearchDoneLoop (cfg : ResearchConfig) :
    Nat → IStream → String → List ResearchType →
      Option (IStream × String × List ResearchType)
  | 0, _, _, _ => none
  | fuel + 1, is, str, researchDone =>
    let read := is.readString str
    if read.2 == "[/ResearchDone]" then some (read.1, read.2, researchDone)
    else
      Seat.importResearchDoneLoop cfg fuel read.1 read.2
        (Seat.importResearchDoneFor cfg read.2 (List.range cfg.countResearch) researchDone)

/-- The `while(true)` loop of the `[ResearchNotAllowed]` section, as
`Seat.importResearchDoneLoop`. -/
def Seat.importResearchNotAllowedLoop (cfg : ResearchConfig)
    (researchDone : List ResearchType) :
    Nat → IStream → String → List ResearchType →
      Option (IStream × String × List ResearchType)
  | 0, _, _, _ => none
  | fuel + 1, is, str, researchNotAllowed =>
    let read := is.readString str
    if read.2 == "[/ResearchNotAllowed]" then some (read.1, read.2, researchNotAllowed)
    else
      Seat.importResearchNotAllowedLoop cfg researchDone fuel read.1 read.2
        (Seat.importResearchNotAllowedFor cfg read.2 researchDone
          (List.range cfg.countResearch) researchNotAllowed)

/-- The `while(true)` loop of the `[ResearchPending]` section, as
`Seat.importResearchDoneLoop`. -/
def Seat.importResearchPendingLoop (cfg : ResearchConfig)
    (researchDone researchNotAllowed : List ResearchType) :
    Nat → IStream → String → List ResearchType →
      Option (IStream × String × List ResearchType)
  | 0, _, _, _ => none
  | fuel + 1, is, str, researchPending =>
    let read := is.readString str
    if read.2 == "[/ResearchPending]" then some (read.1, read.2, researchPending)
    else
      Seat.importResearchPendingLoop cfg researchDone researchNotAllowed fuel read.1 read.2
        (Seat.importResearchPendingFor cfg read.2 researchDone researchNotAllowed
          (List.range cfg.countResearch) researchPending)

/-- The three research sections of `Seat::importSeatFromStream`, from the read
of `[ResearchDone]` on. -/
def Seat.importResearchSections (cfg : ResearchConfig) (fuel : Nat) (s : Seat) (is : IStream)
    (str : String) : Option (Bool × Seat × IStream) :=
  let tag := is.readString str
  if tag.2 != "[ResearchDone]" then some (false, s, tag.1)
  else
    match Seat.importResearchDoneLoop cfg fuel tag.1 tag.2 s.mResearchDone with
    | none => none
    | some (is, str, researchDone) =>
      let s := { s with mResearchDone := researchDone }
      let tag := is.readString str
      if tag.2 != "[ResearchNotAllowed]" then some (false, s, tag.1)
      else
        match Seat.importResearchNotAllowedLoop cfg s.mResearchDone fuel tag.1 tag.2
            s.mResearchNotAllowed with
        | none => none
        | some (is, str, researchNotAllowed) =>
          let s := { s with mResearchNotAllowed := researchNotAllowed }
          let tag := is.readString str
          if tag.2 != "[ResearchPending]" then some (false, s, tag.1)
          else
            match Seat.importResearchPendingLoop cfg s.mResearchDone s.mResearchNotAllowed fuel
                tag.1 tag.2 s.mResearchPending with
            | none => none
            | some (is, _, researchPending) =>
              some (true, { s with mResearchPending := researchPending }, is)

/-- `Seat::importSeatFromStream`: the flag returned, the seat after the call
and the stream left; `none` when one of the `while(true)` loops is still
running after `fuel` rounds. `OD_ASSERT_TRUE` only logs. The colour value
looked up from the colour id is a member outside the embedding. -/
def Seat.importSeatFromStream (lib : StreamLibrary) (cfg : ResearchConfig) (fuel : Nat)
    (s : Seat) (is : IStream) : Option (Bool × Seat × IStream) :=
  let key := is.readString ""
  if key.2 != "seatId" then some (false, s, key.1)
  else
    let mId := key.1.readInt lib s.mId
    let s := { s with mId := mId.2 }
    if mId.2 == 0 then some (false, s, mId.1)
    else
      let key := mId.1.readString key.2
      if key.2 != "teamId" then some (false, s, key.1)
      else
        let teams := key.1.readString key.2
        let s :=
          { s with
            mAvailableTeamIds :=
              Seat.importTeamIds lib (lib.split teams.2 slashChar) s.mAvailableTeamIds }
        let key := teams.1.readString teams.2
        if key.2 != "player" then some (false, s, key.1)
        else
          let mPlayerType := key.1.readString s.mPlayerType
          let s := { s with mPlayerType := mPlayerType.2 }
          let key := mPlayerType.1.readString key.2
          if key.2 != "faction" then some (false, s, key.1)
          else
            let mFaction := key.1.readString s.mFaction
            let s := { s with mFaction := mFaction.2 }
            let key := mFaction.1.readString key.2
            if key.2 != "startingX" then some (false, s, key.1)
            else
              let mStartingX := key.1.readInt lib s.mStartingX
              let s := { s with mStartingX := mStartingX.2 }
              let key := mStartingX.1.readString key.2
              if key.2 != "startingY" then some (false, s, key.1)
              else
                let mStartingY := key.1.readInt lib s.mStartingY
                let s := { s with mStartingY := mStartingY.2 }
                let key := mStartingY.1.readString key.2
                if key.2 != "colorId" then some (false, s, key.1)
                else
                  let mColorId := key.1.readString s.mColorId
                  let s := { s with mColorId := mColorId.2 }
                  let key := mColorId.1.readString key.2
                  if key.2 != "gold" then some (false, s, key.1)
                  else
                    let mGold := key.1.readInt lib s.mGold
                    let s := { s with mGold := mGold.2 }
                    let key := mGold.1.readString key.2
                    if key.2 != "goldMined" then some (false, s, key.1)
                    else
                      let mGoldMined := key.1.readInt lib s.mGoldMined
                      let s := { s with mGoldMined := mGoldMined.2 }
                      let key := mGoldMined.1.readString key.2
                      if key.2 != "mana" then some (false, s, key.1)
                      else
                        let mMana := key.1.readDouble lib s.mMana
                        let s := { s with mMana := mMana.2 }
                        Seat.importResearchSections cfg fuel s mMana.1 key.2

/-- The loop of `Seat::exportSeatToStream` over the available team ids, with
the counter `cpt`. -/
def Seat.exportTeamIds (lib : StreamLibrary) : List Int → Nat → List Char → List Char
  | [], _, os => os
  | teamId :: rest, cpt, os =>
    let os := if cpt > 0 then os ++ [slashChar] else os
    Seat.exportTeamIds lib rest (cpt + 1) (os ++ lib.writeInt teamId)

/-- The loops of `Seat::exportSeatToStream` over a research list: one line
for each research. -/
def Seat.exportResearches (cfg : ResearchConfig) : List ResearchType → List Char → List Char
  | [], os => os
  | type :: rest, os =>
    Seat.exportResearches cfg rest (os ++ (cfg.researchTypeToString type).toList ++ [endlChar])

/-- `Seat::exportSeatToStream`: the flag returned and the content of the
output stream `os` after the call. -/
def Seat.exportSeatToStream (lib : StreamLibrary) (cfg : ResearchConfig) (s : Seat)
    (os : List Char) : Bool × List Char :=
  let os := os ++ "seatId".toList ++ [tabChar]
  let os := os ++ lib.writeInt s.mId
  let os := os ++ [endlChar]
  let os := os ++ "teamId".toList ++ [tabChar]
  let os := if s.mTeamId != -1 then os ++ lib.writeInt s.mTeamId
    else Seat.exportTeamIds lib s.mAvailableTeamIds 0 os
  let os := os ++ [endlChar]
  let os :=
    if s.mGameMap.isInEditorMode || s.mPlayer.isNone then
      os ++ "player".toList ++ [tabChar] ++ s.mPlayerType.toList ++ [endlChar]
    else
      os ++ "player".toList ++ [tabChar] ++
        (if s.mPlayer.any (fun player => player.mIsHuman) then "Human".toList else "AI".toList) ++
        [endlChar]
  let os := os ++ "faction".toList ++ [tabChar] ++ s.mFaction.toList ++ [endlChar]
  let os := os ++ "startingX".toList ++ [tabChar] ++ lib.writeInt s.mStartingX ++ [endlChar]
  let os := os ++ "startingY".toList ++ [tabChar] ++ lib.writeInt s.mStartingY ++ [endlChar]
  let os := os ++ "colorId".toList ++ [tabChar] ++ s.mColorId.toList ++ [endlChar]
  let os := os ++ "gold".toList ++ [tabChar] ++ lib.writeInt s.mGold ++ [endlChar]
  let os := os ++ "goldMined".toList ++ [tabChar] ++ lib.writeInt s.mGoldMined ++ [endlChar]
  let os := os ++ "mana".toList ++ [tabChar] ++ lib.writeDouble s.mMana ++ [endlChar]
  let os := os ++ "[ResearchDone]".toList ++ [endlChar]
  let os := Seat.exportResearches cfg s.mResearchDone os
  let os := os ++ "[/ResearchDone]".toList ++ [endlChar]
  let os := os ++ "[ResearchNotAllowed]".toList ++ [endlChar]
  let os := Seat.exportResearches cfg s.mResearchNotAllowed os
  let os := os ++ "[/ResearchNotAllowed]".toList ++ [endlChar]
  let os := os ++ "[ResearchPending]".toList ++ [endlChar]
  let os := Seat.exportResearches cfg s.mResearchPending os
  let os := os ++ "[/ResearchPending]".toList ++ [endlChar]
  (true, os)

/-- The cast `static_cast<TileType>(intType)` for the ordinals the
enumerators have; the enum is declared outside the sources at hand, so the
ordinals are the parameter `ordinal`. A value that is the ordinal of none of
the five named enumerators is kept by the cast as a further value of the
enum. -/
def TileType.ofUInt32 (ordinal : TileType → Nat) (intType : Nat) : TileType :=
  if intType = ordinal TileType.dirt then TileType.dirt
  else if intType = ordinal TileType.rock then TileType.rock
  else if intType = ordinal TileType.gold then TileType.gold
  else if intType = ordinal TileType.water then TileType.water
  else if intType = ordinal TileType.lava then TileType.lava
  else TileType.other

/-- `operator<<(ODPacket&, const TileType&)`: the ordinal goes to the packet
as a `uint32_t`. -/
def TileType.writeToPacket (ordinal : TileType → Nat) (os : ODPacket) (type : TileType) :
    ODPacket :=
  let intType := ordinal type % 4294967296
  os.writeUInt32 intType

/-- `operator>>(ODPacket&, TileType&)`: the `uint32_t` read is cast to the
enum without a test; `none` only when the packet holds no `uint32_t`. -/
def TileType.readFromPacket (ordinal : TileType → Nat) (is : ODPacket) :
    Option (TileType × ODPacket) :=
  match is.readUInt32 with
  | none => none
  | some (intType, is) => some (TileType.ofUInt32 ordinal intType, is)

/-- The cast `static_cast<TileVisual>(intType)`, as `TileType.ofUInt32`. -/
def TileVisual.ofUInt32 (ordinal : TileVisual → Nat) (intType : Nat) : TileVisual :=
  if intType = ordinal TileVisual.nullTileVisual then TileVisual.nullTileVisual
  else if intType = ordinal TileVisual.dirtGround then TileVisual.dirtGround
  else if intType = ordinal TileVisual.dirtFull then TileVisual.dirtFull
  else if intType = ordinal TileVisual.rockGround then TileVisual.rockGround
  else if intType = ordinal TileVisual.rockFull then TileVisual.rockFull
  else if intType = ordinal TileVisual.goldGround then TileVisual.goldGround
  else if intType = ordinal TileVisual.goldFull then TileVisual.goldFull
  else if intType = ordinal TileVisual.waterGround then TileVisual.waterGround
  else if intType = ordinal TileVisual.lavaGround then TileVisual.lavaGround
  else if intType = ordinal TileVisual.claimedGround then TileVisual.claimedGround
  else if intType = ordinal TileVisual.claimedFull then TileVisual.claimedFull
  else TileVisual.other

/-- `operator<<(ODPacket&, const TileVisual&)`. -/
def TileVisual.writeToPacket (ordinal : TileVisual → Nat) (os : ODPacket)
    (type : TileVisual) : ODPacket :=
  let intType := ordinal type % 4294967296
  os.writeUInt32 intType

/-- `operator>>(ODPacket&, TileVisual&)`. -/
def TileVisual.readFromPacket (ordinal : TileVisual → Nat) (is : ODPacket) :
    Option (TileVisual × ODPacket) :=
  match is.readUInt32 with
  | none => none
  | some (intType, is) => some (TileVisual.ofUInt32 ordinal intType, is)

/-- `Tile::isSameFloodFill`: both colour vectors are indexed without a check,
`none` when the ordinal is not below the size of one of them. -/
def Tile.isSameFloodFill (t : Tile) (type : FloodFillType) (tile : Tile) : Option Bool :=
  match t.mFloodFillColor[toUInt32 type]?, tile.mFloodFillColor[toUInt32 type]? with
  | some mine, some other => some (mine == other)
  | _, _ => none

/-- `Tile::getMarkedForDigging`. -/
def Tile.getMarkedForDigging (t : Tile) (p : PlayerPtr) : Bool :=
  if p ∈ t.mPlayersMarkingTile then true else false

/-- `Tile::addPlayerMarkingTile`. -/
def Tile.addPlayerMarkingTile (t : Tile) (p : PlayerPtr) : Tile :=
  { t with mPlayersMarkingTile := t.mPlayersMarkingTile ++ [p] }

/-- `Tile::removePlayerMarkingTile`: the first entry of the player is erased,
if there is one. -/
def Tile.removePlayerMarkingTile (t : Tile) (p : PlayerPtr) : Tile :=
  if p ∉ t.mPlayersMarkingTile then t
  else { t with mPlayersMarkingTile := t.mPlayersMarkingTile.erase p }

/-- `Tile::isMarkedForDiggingByAnySeat`. -/
def Tile.isMarkedForDiggingByAnySeat (t : Tile) : Bool :=
  !t.mPlayersMarkingTile.isEmpty

/-- `Tile::setMarkedForDigging`. `getSeat pp` is the seat `pp->getSeat()` of
the player; the result is `none` when `isDiggable` is. `isDiggable` is only
asked when `ss` is true; `marked` is the part of the function after that
test. -/
def Tile.setMarkedForDigging (t : Tile) (getSeat : PlayerPtr → Seat) (ss : Bool)
    (pp : PlayerPtr) : Option Tile :=
  let marked : Option Tile :=
    if t.getMarkedForDigging pp == ss then some t
    else if ss then some (t.addPlayerMarkingTile pp)
    else some (t.removePlayerMarkingTile pp)
  if ss then
    match t.isDiggable (getSeat pp) with
    | none => none
    | some diggable => if !diggable then some t else marked
  else marked

/-- The part of a `Goal` that `Seat::checkAllGoals` asks for, for the seat
that checks: whether each goal is met, whether it is failed, and the sub-goals
it releases when met and when failed. The class is declared outside the
sources at hand. -/
structure GoalOracle where
  isMet : GoalPtr → Bool
  isFailed : GoalPtr → Bool
  successSubGoals : GoalPtr → List GoalPtr
  failureSubGoals : GoalPtr → List GoalPtr

/-- `Seat::numUncompleteGoals`: the size of the vector as an
`unsigned int`. -/
def Seat.numUncompleteGoals (s : Seat) : Nat :=
  s.mUncompleteGoals.length % 4294967296

/-- The `while` loop of `Seat::checkAllGoals` over the goals from the iterator
on. The state is the part of `mUncompleteGoals` before the iterator,
`mCompletedGoals`, `mFailedGoals` and `goalsToAdd`. An erased goal leaves the
vector; the goals kept stay in their order. -/
def Seat.checkAllGoalsLoop (goals : GoalOracle) :
    List GoalPtr → List GoalPtr × List GoalPtr × List GoalPtr × List GoalPtr →
      List GoalPtr × List GoalPtr × List GoalPtr × List GoalPtr
  | [], state => state
  | goal :: rest, (uncomplete, completed, failed, goalsToAdd) =>
    if goals.isMet goal then
      Seat.checkAllGoalsLoop goals rest
        (uncomplete, completed ++ [goal], failed, goalsToAdd ++ goals.successSubGoals goal)
    else if goals.isFailed goal then
      Seat.checkAllGoalsLoop goals rest
        (uncomplete, completed, failed ++ [goal], goalsToAdd ++ goals.failureSubGoals goal)
    else
      Seat.checkAllGoalsLoop goals rest (uncomplete ++ [goal], completed, failed, goalsToAdd)

/-- `Seat::checkAllGoals`: the number returned and the seat after the call.
The goals to add are pushed to `mUncompleteGoals` after the loop. -/
def Seat.checkAllGoals (s : Seat) (goals : GoalOracle) : Nat × Seat :=
  let state := Seat.checkAllGoalsLoop goals s.mUncompleteGoals
    ([], s.mCompletedGoals, s.mFailedGoals, [])
  let after : Seat :=
    { s with
      mUncompleteGoals := state.1 ++ state.2.2.2
      mCompletedGoals := state.2.1
      mFailedGoals := state.2.2.1 }
  (after.numUncompleteGoals, after)

/-! ## Reference definitions of the specification -/

/-- Reference function of the specification: the visual as a function of type,
fullness and claim status. Claimed tiles show `claimedFull` or `claimedGround`;
unclaimed dirt, rock and gold show their full or ground visual by
`fullness > 0`; water and lava always show their ground visual; any other type
shows `nullTileVisual`. -/
def computeVisual (type : TileType) (fullness : ℚ) (claimed : Bool) : TileVisual :=
  if claimed then
    if fullness > 0 then TileVisual.claimedFull else TileVisual.claimedGround
  else if type = TileType.dirt then
    if fullness > 0 then TileVisual.dirtFull else TileVisual.dirtGround
  else if type = TileType.rock then
    if fullness > 0 then TileVisual.rockFull else TileVisual.rockGround
  else if type = TileType.gold then
    if fullness > 0 then TileVisual.goldFull else TileVisual.goldGround
  else if type = TileType.water then TileVisual.waterGround
  else if type = TileType.lava then TileVisual.lavaGround
  else TileVisual.nullTileVisual

/-- Reference predicate of the specification: the tile is claimed and its
owner belongs to team `teamId`. -/
def Tile.claimedForTeam (t : Tile) (teamId : Int) : Bool :=
  t.isClaimed &&
    (match t.getSeat with
     | some owner => owner.mTeamId == teamId
     | none => false)

/-- Reference predicate of the specification: some tile of the list is open
floor (its fullness is not above 0) and claimed for team `teamId`. -/
def Tile.anyClaimedGround (mNeighbors : List Tile) (teamId : Int) : Bool :=
  mNeighbors.any fun n => decide (¬ n.mFullness > 0) && n.claimedForTeam teamId

/-- The pair (previous, current) of the tile at (x, y) in the vision table of
a seat, when the table has such an entry. -/
def Seat.visionAt (s : Seat) (x y : Nat) : Option (Bool × Bool) :=
  match s.mTilesVision[x]? with
  | none => none
  | some vec => vec[y]?

/-- Reference list of the specification: the tiles of one row of a vision
table, from index `y` on, whose current flag is `current` and whose previous
flag is the opposite, in index order. -/
def changedInRow {τ : Type} (current : Bool) (getTile : Nat → Nat → τ) (x : Nat) :
    List (Bool × Bool) → Nat → List τ
  | [], _ => []
  | p :: rest, y =>
    if p = (!current, current) then getTile x y :: changedInRow current getTile x rest (y + 1)
    else changedInRow current getTile x rest (y + 1)

/-- Reference list of the specification: the tiles of a vision table, from
row `x` on, whose current flag is `current` and whose previous flag is the
opposite, row after row. -/
def changedInTable {τ : Type} (current : Bool) (getTile : Nat → Nat → τ) :
    List (List (Bool × Bool)) → Nat → List τ
  | [], _ => []
  | vec :: rest, x =>
    changedInRow current getTile x vec 0 ++ changedInTable current getTile rest (x + 1)

/-- Reference list of the specification: the tiles of one row of a vision
table, from index `y` on, that the seat sees (current flag true) and that are
marked changed for the seat, by their coordinates, in index order. -/
def changedVisibleInRow (seat : SeatPtr) (tiles : Nat × Nat → Tile) (x : Nat) :
    List (Bool × Bool) → Nat → List (Nat × Nat)
  | [], _ => []
  | p :: rest, y =>
    if p.2 = true ∧ (tiles (x, y)).hasChangedForSeat seat = true then
      (x, y) :: changedVisibleInRow seat tiles x rest (y + 1)
    else changedVisibleInRow seat tiles x rest (y + 1)

/-- Reference list of the specification: the tiles of a vision table, from
row `x` on, that the seat sees and that are marked changed for the seat, row
after row. -/
def changedVisibleInTable (seat : SeatPtr) (tiles : Nat × Nat → Tile) :
    List (List (Bool × Bool)) → Nat → List (Nat × Nat)
  | [], _ => []
  | vec :: rest, x =>
    changedVisibleInRow seat tiles x vec 0 ++ changedVisibleInTable seat tiles rest (x + 1)

/-- The seat owns a research entity in flight for the research `pending`:
some rendered entity is a research entity, belongs to the seat and carries
that research. -/
def ownsResearchEntity (this : SeatPtr) (renderables : List RenderedMovableEntity)
    (pending : ResearchType) : Bool :=
  renderables.any fun renderable =>
    decide (renderable.mObjectType = GameEntityType.researchEntity ∧
      renderable.mSeat = some this ∧ renderable.mResearchType = pending)

/-- The first research of the pending list, in list order, that is not
`researchedType` and for which the seat owns no research entity in flight. -/
def firstPendingToResearch (this : SeatPtr) (renderables : List RenderedMovableEntity)
    (researchedType : ResearchType) (pending : List ResearchType) : Option ResearchType :=
  pending.find? fun type =>
    decide (type ≠ researchedType) && !ownsResearchEntity this renderables type

/-- The first research of the pending list, in list order, that is not
`researchedType`, is not the research type `null`, and for which the seat owns
no research entity in flight. -/
def nextPendingResearch (null : ResearchType) (this : SeatPtr)
    (renderables : List RenderedMovableEntity) (researchedType : ResearchType)
    (pending : List ResearchType) : Option ResearchType :=
  pending.find? fun type =>
    decide (type ≠ researchedType) && decide (type ≠ null) &&
      !ownsResearchEntity this renderables type

/-- A word of the text format: a text that is not empty and holds no white
space, so that `is >> str` reads it back as one token. -/
def isWord (word : List Char) : Bool :=
  !word.isEmpty && word.all fun c => !isSpace c

/-- The integer is read back from its text: `is >> value` applied to the text
written by `os << value`, after the tab and before the line end of its line,
yields the integer and stops at the line end. -/
def StreamLibrary.intRoundTrips (lib : StreamLibrary) (value : Int) : Prop :=
  ∀ (rest : List Char) (old : Int),
    IStream.readInt lib { text := tabChar :: (lib.writeInt value ++ endlChar :: rest) } old =
      ({ text := endlChar :: rest }, value)

/-- The number is read back from its text: the decimal text written for it
represents it exactly. -/
def StreamLibrary.doubleRoundTrips (lib : StreamLibrary) (value : ℚ) : Prop :=
  ∀ (rest : List Char) (old : ℚ),
    IStream.readDouble lib { text := tabChar :: (lib.writeDouble value ++ endlChar :: rest) }
        old =
      ({ text := endlChar :: rest }, value)

/-- The research is saved by a name that identifies it: its ordinal is below
`countResearch` and is not the null research, its name is a word, is none of
the closing tags, and is the name of no other such ordinal. -/
def ResearchConfig.savesByName (cfg : ResearchConfig) (type : ResearchType) : Bool :=
  decide (type < cfg.countResearch) && (type != cfg.nullResearchType) &&
    isWord (cfg.researchTypeToString type).toList &&
    (cfg.researchTypeToString type != "[/ResearchDone]") &&
    (cfg.researchTypeToString type != "[/ResearchNotAllowed]") &&
    (cfg.researchTypeToString type != "[/ResearchPending]") &&
    (List.range cfg.countResearch).all fun i =>
      (i == cfg.nullResearchType) || (cfg.researchTypeToString i != cfg.researchTypeToString type)
        || (i == type)

/-- The text `Seat::exportSeatToStream` writes for the team: the team id when
it is set, the available team ids separated by slashes otherwise. -/
def Seat.teamText (lib : StreamLibrary) (s : Seat) : List Char :=
  if s.mTeamId != -1 then lib.writeInt s.mTeamId
  else Seat.exportTeamIds lib s.mAvailableTeamIds 0 []

/-- The text `Seat::exportSeatToStream` writes for the player type: the type
of the seat in editor mode or without player, the kind of the player
otherwise. -/
def Seat.playerText (s : Seat) : List Char :=
  if s.mGameMap.isInEditorMode || s.mPlayer.isNone then s.mPlayerType.toList
  else if s.mPlayer.any (fun player => player.mIsHuman) then "Human".toList else "AI".toList

/-- The lines of a research list in the text format, followed by `rest`. -/
def researchText (cfg : ResearchConfig) : List ResearchType → List Char → List Char
  | [], rest => rest
  | type :: more, rest =>
    (cfg.researchTypeToString type).toList ++ endlChar :: researchText cfg more rest

/-- The three research sections of a seat in the text format, followed by
`rest`: each section is an opening tag, one line for each research of the
list, and a closing tag. -/
def researchSectionsText (cfg : ResearchConfig) (s : Seat) (rest : List Char) : List Char :=
  "[ResearchDone]".toList ++ endlChar ::
    researchText cfg s.mResearchDone
      ("[/ResearchDone]".toList ++ endlChar ::
        ("[ResearchNotAllowed]".toList ++ endlChar ::
          researchText cfg s.mResearchNotAllowed
            ("[/ResearchNotAllowed]".toList ++ endlChar ::
              ("[ResearchPending]".toList ++ endlChar ::
                researchText cfg s.mResearchPending
                  ("[/ResearchPending]".toList ++ endlChar :: rest)))))

/-- The ten lines of a seat in the save format that come before the research
sections, followed by `rest`: each line is a keyword, a tab, a value and a
line end. -/
def seatHeaderText (lib : StreamLibrary) (s : Seat) (rest : List Char) : List Char :=
  "seatId".toList ++ tabChar :: (lib.writeInt s.mId ++ endlChar ::
    ("teamId".toList ++ tabChar :: (Seat.teamText lib s ++ endlChar ::
      ("player".toList ++ tabChar :: (Seat.playerText s ++ endlChar ::
        ("faction".toList ++ tabChar :: (s.mFaction.toList ++ endlChar ::
          ("startingX".toList ++ tabChar :: (lib.writeInt s.mStartingX ++ endlChar ::
            ("startingY".toList ++ tabChar :: (lib.writeInt s.mStartingY ++ endlChar ::
              ("colorId".toList ++ tabChar :: (s.mColorId.toList ++ endlChar ::
                ("gold".toList ++ tabChar :: (lib.writeInt s.mGold ++ endlChar ::
                  ("goldMined".toList ++ tabChar :: (lib.writeInt s.mGoldMined ++ endlChar ::
                    ("mana".toList ++ tabChar :: (lib.writeDouble s.mMana ++ endlChar ::
                      rest)))))))))))))))))))

/-- The text of a seat in the save format: the ten lines of the header, then
the three research sections. -/
def seatText (lib : StreamLibrary) (cfg : ResearchConfig) (s : Seat) : List Char :=
  seatHeaderText lib s (researchSectionsText cfg s [])

/-- The thirteen tokens `Seat::importSeatFromStream` expects, each at its
position in the text. -/
structure SeatKeywords where
  seatId : String
  teamId : String
  player : String
  faction : String
  startingX : String
  startingY : String
  colorId : String
  gold : String
  goldMined : String
  mana : String
  researchDone : String
  researchNotAllowed : String
  researchPending : String
  deriving DecidableEq, Repr

/-- The thirteen tokens as `Seat::exportSeatToStream` writes them. -/
def SeatKeywords.expected : SeatKeywords :=
  { seatId := "seatId", teamId := "teamId", player := "player", faction := "faction"
    startingX := "startingX", startingY := "startingY", colorId := "colorId", gold := "gold"
    goldMined := "goldMined", mana := "mana", researchDone := "[ResearchDone]"
    researchNotAllowed := "[ResearchNotAllowed]", researchPending := "[ResearchPending]" }

/-- Each of the thirteen tokens is a word. -/
def SeatKeywords.areWords (keys : SeatKeywords) : Bool :=
  isWord keys.seatId.toList && isWord keys.teamId.toList && isWord keys.player.toList &&
    isWord keys.faction.toList && isWord keys.startingX.toList &&
    isWord keys.startingY.toList && isWord keys.colorId.toList && isWord keys.gold.toList &&
    isWord keys.goldMined.toList && isWord keys.mana.toList &&
    isWord keys.researchDone.toList && isWord keys.researchNotAllowed.toList &&
    isWord keys.researchPending.toList

/-- The text of a seat in the save format with the thirteen expected tokens
replaced, each at its position, by the tokens of `keys`. -/
def seatTextWith (keys : SeatKeywords) (lib : StreamLibrary) (cfg : ResearchConfig) (s : Seat) :
    List Char :=
  keys.seatId.toList ++ tabChar :: (lib.writeInt s.mId ++ endlChar ::
    (keys.teamId.toList ++ tabChar :: (Seat.teamText lib s ++ endlChar ::
      (keys.player.toList ++ tabChar :: (Seat.playerText s ++ endlChar ::
        (keys.faction.toList ++ tabChar :: (s.mFaction.toList ++ endlChar ::
          (keys.startingX.toList ++ tabChar :: (lib.writeInt s.mStartingX ++ endlChar ::
            (keys.startingY.toList ++ tabChar :: (lib.writeInt s.mStartingY ++ endlChar ::
              (keys.colorId.toList ++ tabChar :: (s.mColorId.toList ++ endlChar ::
                (keys.gold.toList ++ tabChar :: (lib.writeInt s.mGold ++ endlChar ::
                  (keys.goldMined.toList ++ tabChar :: (lib.writeInt s.mGoldMined ++ endlChar ::
                    (keys.mana.toList ++ tabChar :: (lib.writeDouble s.mMana ++ endlChar ::
                      (keys.researchDone.toList ++ endlChar ::
                        researchText cfg s.mResearchDone
                          ("[/ResearchDone]".toList ++ endlChar ::
                            (keys.researchNotAllowed.toList ++ endlChar ::
                              researchText cfg s.mResearchNotAllowed
                                ("[/ResearchNotAllowed]".toList ++ endlChar ::
                                  (keys.researchPending.toList ++ endlChar ::
                                    researchText cfg s.mResearchPending
                                      ("[/ResearchPending]".toList ++
                                        [endlChar])))))))))))))))))))))))))

/-- The research lists of the seat are pairwise disjoint. -/
def Seat.researchListsDisjoint (s : Seat) : Prop :=
  (∀ type ∈ s.mResearchDone, type ∉ s.mResearchPending) ∧
  (∀ type ∈ s.mResearchDone, type ∉ s.mResearchNotAllowed) ∧
  (∀ type ∈ s.mResearchPending, type ∉ s.mResearchNotAllowed)

/-- The research lists of the seat are pairwise disjoint and the pending list
holds no research twice. -/
def Seat.researchListsConsistent (s : Seat) : Prop :=
  s.researchListsDisjoint ∧ s.mResearchPending.Nodup

/-- The sub-goals a goal releases when `checkAllGoals` moves it: its success
sub-goals when it is met, its failure sub-goals when it is not met and is
failed, none when it stays outstanding. -/
def GoalOracle.released (goals : GoalOracle) (goal : GoalPtr) : List GoalPtr :=
  if goals.isMet goal then goals.successSubGoals goal
  else if goals.isFailed goal then goals.failureSubGoals goal
  else []

/-! ## Concrete tiles and seats used as test inputs -/

/-- A seat of team 1. -/
def seatOne : Seat := { mId := 1, mTeamId := 1 }

/-- A seat of team 2, hostile to `seatOne`. -/
def seatTwo : Seat := { mId := 2, mTeamId := 2 }

/-- A server tile on which `seatOne` has been recorded as owner right after
construction: the claimed percentage is still `0`. -/
def tileWithOwnerNotYetClaimed : Tile :=
  (Tile.construct { isServerGameMap := true } 0 0 TileType.dirt 100).setSeat (some seatOne)

/-- A solid rock tile of the server map, fully claimed by `seatOne`, with its
visual recomputed. -/
def claimedRockWall : Tile :=
  Tile.computeTileVisual
    { mGameMap := { isServerGameMap := true }
      mX := 0
      mY := 0
      mType := TileType.rock
      mTileVisual := TileVisual.nullTileVisual
      mFullness := 100
      mClaimedPercentage := 1
      mSeat := some seatOne
      mFloodFillColor := List.replicate floodFillNbValues (-1) }

/-- A solid dirt tile of the server map, fully claimed by `seatOne`, with its
visual recomputed. -/
def claimedDirtWall : Tile :=
  Tile.computeTileVisual
    { mGameMap := { isServerGameMap := true }
      mX := 1
      mY := 1
      mType := TileType.dirt
      mTileVisual := TileVisual.nullTileVisual
      mFullness := 100
      mClaimedPercentage := 1
      mSeat := some seatOne
      mFloodFillColor := List.replicate floodFillNbValues (-1) }

/-- An open dirt floor tile of the server map at (5,4), fully claimed by
`seatOne`, with its visual recomputed. -/
def groundOfSeatOne : Tile :=
  Tile.computeTileVisual
    { mGameMap := { isServerGameMap := true }
      mX := 5
      mY := 4
      mType := TileType.dirt
      mTileVisual := TileVisual.nullTileVisual
      mFullness := 0
      mClaimedPercentage := 1
      mSeat := some seatOne
      mFloodFillColor := List.replicate floodFillNbValues (-1) }

/-- An open dirt floor tile of the server map at (4,5), fully claimed by
`seatTwo`, with its visual recomputed. -/
def groundOfSeatTwo : Tile :=
  Tile.computeTileVisual
    { mGameMap := { isServerGameMap := true }
      mX := 4
      mY := 5
      mType := TileType.dirt
      mTileVisual := TileVisual.nullTileVisual
      mFullness := 0
      mClaimedPercentage := 1
      mSeat := some seatTwo
      mFloodFillColor := List.replicate floodFillNbValues (-1) }

/-- The solid dirt wall of the server map at (5,5), as constructed. -/
def wallTile : Tile :=
  Tile.construct { isServerGameMap := true } 5 5 TileType.dirt 100

/-- The wall at (5,5) after `seatTwo` has fully claimed it. -/
def wallOfSeatTwo : Tile :=
  Tile.computeTileVisual { wallTile with mClaimedPercentage := 1, mSeat := some seatTwo }

/-- An open dirt floor tile at (1,0) whose ground, groundWater and
groundWaterLava colours are set to 7. -/
def colouredFloor : Tile :=
  { Tile.construct { isServerGameMap := true } 1 0 TileType.dirt 0 with
    mFloodFillColor := [7, 7, -1, 7] }

/-- An open dirt floor tile at (0,0), as constructed: no colour is set. -/
def freshFloor : Tile :=
  Tile.construct { isServerGameMap := true } 0 0 TileType.dirt 0

/-- A map whose tile 0 is `freshFloor` and whose other tiles are
`colouredFloor`. -/
def floorGrid : Nat → Tile :=
  fun k => if k = 0 then freshFloor else colouredFloor

/-- A seat of the server map with a human player and a vision table of two
rows of two tiles: vision on (0,0) was gained, on (1,0) lost, on (0,1) kept. -/
def humanSeat : Seat :=
  { mId := 1
    mTeamId := 1
    mGameMap := { isServerGameMap := true }
    mPlayer := some { mIsHuman := true }
    mTilesVision := [[(false, true), (true, true)], [(true, false), (false, false)]] }

/-- The same seat on a client map. -/
def clientHumanSeat : Seat :=
  { humanSeat with mGameMap := { isServerGameMap := false } }

/-- A map whose tiles are named by their coordinates. -/
def coordinateTile : Nat → Nat → Nat × Nat :=
  fun x y => (x, y)

/-- Allied-seat links among the seats 0, 1, 2 and 3, with a cycle between 0
and 1, a seat allied to itself (2) and one-way links (2 to 3, 4 to 0). -/
def cyclicAllies : SeatPtr → List SeatPtr :=
  fun s =>
    if s = 0 then [1, 2]
    else if s = 1 then [0, 2]
    else if s = 2 then [2, 3]
    else if s = 4 then [0]
    else []

/-- A seat of the server map on which a non-human player sits, freshly
constructed otherwise. -/
def aiSeat : Seat :=
  { mId := 2
    mTeamId := 2
    mGameMap := { isServerGameMap := true }
    mPlayer := some { mIsHuman := false } }

/-- A map in which every tile is open dirt floor marked changed for the seats
7 and 8. -/
def dirtyTiles : Nat × Nat → Tile :=
  fun c =>
    (Tile.construct { isServerGameMap := true } c.1 c.2 TileType.dirt 0).setSeats [7, 8]

/-- The human seat of the server map one tick later: vision on (1,0) has come
back. -/
def humanSeatLater : Seat :=
  { humanSeat with
    mTilesVision := [[(true, true), (true, true)], [(false, true), (false, false)]] }

/-- A catalog of three researches: a treasury that needs 100 points, a
dormitory that depends on it and a cannon trap without dependency. Ordinal 0
is the null research. -/
def smallCatalog : ResearchConfig :=
  { nullResearchType := 0
    countResearch := 5
    researchTypeToString := fun type =>
      if type = 1 then "roomTreasury" else if type = 2 then "roomDormitory"
      else if type = 3 then "trapCannon" else if type = 4 then "spellCallToWar"
      else "nullResearchType"
    researches := [
      { mType := 1, mNeededResearchPoints := 100 },
      { mType := 2, mNeededResearchPoints := 50, mDependencies := [1] },
      { mType := 3, mNeededResearchPoints := 30 }] }

/-- A server seat of a human player for which the cannon trap is not
allowed. -/
def seatWithoutCannon : Seat :=
  { mId := 1, mTeamId := 1, mPlayer := some { mIsHuman := true }, mResearchNotAllowed := [3] }

/-- A server seat working on the treasury, with the dormitory next in its
pending list. -/
def researchingSeat : Seat :=
  { mId := 1, mTeamId := 1, mPlayer := some { mIsHuman := true }
    mResearchPending := [1, 2]
    mCurrentResearch := some { mType := 1, mNeededResearchPoints := 100 } }

/-- A server seat that has just collected 60 points for the treasury, with
the null research type ahead of the dormitory in its pending list. -/
def seatWithNullPending : Seat :=
  { mId := 1, mTeamId := 1, mPlayer := some { mIsHuman := true }
    mResearchPoints := 60
    mResearchPending := [0, 2]
    mCurrentResearch := some { mType := 1, mNeededResearchPoints := 100 } }

/-- A research entity of seat 7 that carries the treasury research. -/
def treasuryEntity : RenderedMovableEntity :=
  { mObjectType := GameEntityType.researchEntity, mSeat := some 7, mResearchType := 1 }

/-- A seat of team 2 that may still pick among the teams 2 and 3. -/
def savedSeat : Seat :=
  { mId := 4, mTeamId := 2, mAvailableTeamIds := [2, 3], mPlayerType := "Human"
    mFaction := "Keeper", mStartingX := 10, mStartingY := 12, mColorId := "3", mGold := 250
    mGoldMined := 40, mMana := 500, mManaDelta := 5 / 2, mNumClaimedTiles := 17
    mHasGoalsChanged := false, mNbTreasuries := 1
    mResearchDone := [1], mResearchNotAllowed := [3], mResearchPending := [2] }

/-- The seat `savedSeat` with the cannon trap both done and not allowed and
the treasury both done and pending. -/
def savedSeatWithOverlap : Seat :=
  { savedSeat with mResearchDone := [1, 3], mResearchPending := [1, 2] }

/-- The digits of a decimal number: the value of a run of digit
characters. -/
def decimalValue (digits : List Char) : Nat :=
  digits.foldl (fun value c => value * 10 + (c.toNat - 48)) 0

/-- The character is a decimal digit. -/
def isDecimalDigit (c : Char) : Bool :=
  decide (48 ≤ c.toNat) && decide (c.toNat ≤ 57)

/-- Decimal output of an integer, with a minus sign when negative. -/
def decimalWriteInt (value : Int) : List Char :=
  if value < 0 then Char.ofNat 45 :: Nat.toDigits 10 value.natAbs
  else Nat.toDigits 10 value.toNat

/-- Decimal input of an integer: an optional sign and the longest run of
digits, `none` without a digit. -/
def decimalParseInt (text : List Char) : Option (Int × List Char) :=
  match text with
  | [] => none
  | c :: rest =>
    if c.toNat = 45 then
      if (rest.takeWhile isDecimalDigit).isEmpty then none
      else some (-(decimalValue (rest.takeWhile isDecimalDigit) : Int),
        rest.dropWhile isDecimalDigit)
    else if c.toNat = 43 then
      if (rest.takeWhile isDecimalDigit).isEmpty then none
      else some ((decimalValue (rest.takeWhile isDecimalDigit) : Int),
        rest.dropWhile isDecimalDigit)
    else if (text.takeWhile isDecimalDigit).isEmpty then none
    else some ((decimalValue (text.takeWhile isDecimalDigit) : Int),
      text.dropWhile isDecimalDigit)

/-- The digits after the decimal point of `remainder / den`, at most `count`
of them, without trailing zeros. -/
def decimalFraction (den : Nat) : Nat → Nat → List Char
  | 0, _ => []
  | count + 1, remainder =>
    if remainder = 0 then []
    else
      Nat.digitChar (remainder * 10 / den) ::
        decimalFraction den count (remainder * 10 % den)

/-- Decimal output of a number: the integer part and, when there is one, a
point and up to six digits of the fraction. On the numbers used below this is
the text the standard streams write. -/
def decimalWriteDouble (value : ℚ) : List Char :=
  let whole := Nat.toDigits 10 (value.num.natAbs / value.den)
  let fraction := decimalFraction value.den 6 (value.num.natAbs % value.den)
  let digits := if fraction.isEmpty then whole else whole ++ Char.ofNat 46 :: fraction
  if value.num < 0 then Char.ofNat 45 :: digits else digits

/-- Decimal input of a number: an integer, then an optional point and
digits. -/
def decimalParseDouble (text : List Char) : Option (ℚ × List Char) :=
  match decimalParseInt text with
  | none => none
  | some (whole, rest) =>
    match rest with
    | [] => some ((whole : ℚ), [])
    | c :: more =>
      if c.toNat = 46 then
        let fraction := more.takeWhile isDecimalDigit
        let scale : Nat := 10 ^ fraction.length
        if whole < 0 then
          some (mkRat (whole * scale - decimalValue fraction) scale,
            more.dropWhile isDecimalDigit)
        else
          some (mkRat (whole * scale + decimalValue fraction) scale,
            more.dropWhile isDecimalDigit)
      else some ((whole : ℚ), rest)

/-- The pieces of a text between the occurrences of a delimiter, as
`std::getline` cuts them: a text that ends with the delimiter has no empty
last piece. -/
def splitAt (delimiter : Char) : List Char → List Char → List String
  | [], piece => if piece.isEmpty then [] else [String.mk piece]
  | c :: rest, piece =>
    if c = delimiter then String.mk piece :: splitAt delimiter rest []
    else splitAt delimiter rest (piece ++ [c])

/-- A library with decimal numbers, used to evaluate the text format. -/
def decimalStreams : StreamLibrary :=
  { writeInt := decimalWriteInt
    parseInt := decimalParseInt
    writeDouble := decimalWriteDouble
    parseDouble := decimalParseDouble
    split := fun line delimiter => splitAt delimiter line.toList []
    toInt := fun text =>
      match decimalParseInt (text.toList.dropWhile isSpace) with
      | none => 0
      | some (value, _) => value }

/-- A seat with an id, a player type and a faction, but without a team id and
without available team ids. -/
def seatWithoutTeam : Seat :=
  { mId := 1, mPlayerType := "Human", mFaction := "Keeper", mColorId := "1" }

/-- A seat with a team, whose colour id is still the empty text the
constructor leaves. -/
def seatWithoutColour : Seat :=
  { mId := 1, mTeamId := 1, mPlayerType := "Human", mFaction := "Keeper" }

/-- The expected tokens with `faction` replaced by another token. -/
def keywordsWithoutFaction : SeatKeywords :=
  { SeatKeywords.expected with faction := "Faction" }

/-- An assignment of ordinals to the values of `TileType`, used to evaluate
the wire format: the named enumerators are numbered from 1. -/
def tileTypeOrdinal : TileType → Nat
  | TileType.dirt => 1
  | TileType.gold => 2
  | TileType.rock => 3
  | TileType.water => 4
  | TileType.lava => 5
  | TileType.other => 0

/-- An assignment of ordinals to the values of `TileVisual`, used to evaluate
the wire format: the named enumerators are numbered from 0. -/
def tileVisualOrdinal : TileVisual → Nat
  | TileVisual.nullTileVisual => 0
  | TileVisual.dirtGround => 1
  | TileVisual.dirtFull => 2
  | TileVisual.rockGround => 3
  | TileVisual.rockFull => 4
  | TileVisual.goldGround => 5
  | TileVisual.goldFull => 6
  | TileVisual.waterGround => 7
  | TileVisual.lavaGround => 8
  | TileVisual.claimedGround => 9
  | TileVisual.claimedFull => 10
  | TileVisual.other => 11

/-- A dirt tile of the server map that the player 5 marked twice. -/
def tileMarkedTwice : Tile :=
  { Tile.construct { isServerGameMap := true } 2 3 TileType.dirt 100 with
    mPlayersMarkingTile := [5, 5] }

/-- Four goals: goal 1 is met, goal 2 is failed, goal 3 is met and failed,
goal 4 is neither. Goal 1 releases the goals 10 and 11 when met, goal 2 the
goal 20 when failed. -/
def fourGoals : GoalOracle :=
  { isMet := fun goal => goal == 1 || goal == 3
    isFailed := fun goal => goal == 2 || goal == 3
    successSubGoals := fun goal => if goal == 1 then [10, 11] else []
    failureSubGoals := fun goal => if goal == 2 then [20] else [] }

/-- A seat with the four goals outstanding, in the order 4, 1, 2, 3, and one
goal completed before. -/
def seatWithGoals : Seat :=
  { mId := 1, mTeamId := 1, mUncompleteGoals := [4, 1, 2, 3], mCompletedGoals := [7] }

/-! ## Auxiliary facts -/

/-- On the server map a tile is claimed iff it has an owner and a claimed
percentage of at least 1. -/
theorem Tile.isClaimed_server (t : Tile) (h : t.mGameMap.isServerGameMap = true) :
    t.isClaimed = true ↔ t.getSeat ≠ none ∧ 1 ≤ t.mClaimedPercentage := by
  unfold Tile.isClaimed
  simp only [h, Bool.not_true, Bool.false_eq_true, if_false]
  by_cases hs : t.getSeat = none
  · simp [hs]
  · by_cases hp : t.mClaimedPercentage < 1
    · simp [hs, hp]
    · simp [hs, hp, not_lt.mp hp]

/-- The source function `computeTileVisual` stores the reference visual and
touches nothing else. -/
theorem Tile.computeTileVisual_eq (t : Tile) :
    t.computeTileVisual =
      { t with mTileVisual := computeVisual t.mType t.mFullness t.isClaimed } := by
  unfold Tile.computeTileVisual computeVisual Tile.getType
  cases hc : t.isClaimed <;> cases ht : t.mType <;> by_cases hf : t.mFullness > 0 <;> simp [hf]

/-- The reference visual is a claimed one exactly for claimed tiles. -/
theorem computeVisual_claimed_iff (type : TileType) (fullness : ℚ) (claimed : Bool) :
    (computeVisual type fullness claimed = TileVisual.claimedGround
      ∨ computeVisual type fullness claimed = TileVisual.claimedFull) ↔ claimed = true := by
  unfold computeVisual
  cases claimed <;> cases type <;> by_cases hf : fullness > 0 <;> simp [hf]

/-- Recomputing the visual does not change the claim status, on either kind
of map. -/
theorem Tile.isClaimed_computeTileVisual (t : Tile) :
    t.computeTileVisual.isClaimed = t.isClaimed := by
  rw [Tile.computeTileVisual_eq]
  cases hsrv : t.mGameMap.isServerGameMap
  · have hiff := computeVisual_claimed_iff t.mType t.mFullness t.isClaimed
    cases hc : t.isClaimed
    · rw [hc] at hiff
      have h1 : computeVisual t.mType t.mFullness false ≠ TileVisual.claimedGround :=
        fun h => by simpa using hiff.mp (Or.inl h)
      have h2 : computeVisual t.mType t.mFullness false ≠ TileVisual.claimedFull :=
        fun h => by simpa using hiff.mp (Or.inr h)
      simp [Tile.isClaimed, hsrv, h1, h2]
    · rw [hc] at hiff
      have := hiff.mpr rfl
      simpa [Tile.isClaimed, hsrv] using this
  · simp [Tile.isClaimed, hsrv, Tile.getSeat]

/-- When a claimed tile has an owner, `isClaimedForSeat` returns the
reference predicate `claimedForTeam` at the team of the seat. -/
theorem Tile.isClaimedForSeat_eq (t : Tile) (seat : Seat)
    (howner : t.isClaimed = true → t.getSeat ≠ none) :
    t.isClaimedForSeat seat = some (t.claimedForTeam seat.mTeamId) := by
  unfold Tile.isClaimedForSeat Tile.claimedForTeam
  cases hc : t.isClaimed
  · simp
  · cases hs : t.getSeat with
    | none => exact absurd hs (howner hc)
    | some owner =>
      by_cases hteam : owner.mTeamId = seat.mTeamId <;>
        simp [Seat.canOwnedTileBeClaimedBy, Seat.getTeamId, hteam]

/-- When claimed neighbours have an owner, the neighbour loop returns whether
some open-floor neighbour is claimed for the team of the seat. -/
theorem Tile.foundClaimedGroundTile_eq (mNeighbors : List Tile) (seat : Seat)
    (howner : ∀ n ∈ mNeighbors, n.isClaimed = true → n.getSeat ≠ none) :
    Tile.foundClaimedGroundTile mNeighbors seat
      = some (Tile.anyClaimedGround mNeighbors seat.mTeamId) := by
  unfold Tile.anyClaimedGround
  induction mNeighbors with
  | nil => rfl
  | cons tile rest ih =>
    have ihr := ih (fun n hn => howner n (List.mem_cons_of_mem _ hn))
    have ht := Tile.isClaimedForSeat_eq tile seat (howner tile (List.mem_cons_self _ _))
    unfold Tile.foundClaimedGroundTile
    by_cases hf : tile.mFullness > 0
    · simp [Tile.getFullness, hf, ihr]
    · cases hc : tile.claimedForTeam seat.mTeamId
      · simp [Tile.getFullness, hf, ht, hc, ihr]
      · simp [Tile.getFullness, hf, ht, hc, not_lt.mp hf]

/-- Members of a freshly constructed tile. -/
theorem Tile.construct_fields (gameMap : GameMap) (x y : Int) (type : TileType)
    (fullness : ℚ) :
    (Tile.construct gameMap x y type fullness).mGameMap = gameMap
      ∧ (Tile.construct gameMap x y type fullness).mType = type
      ∧ (Tile.construct gameMap x y type fullness).mFullness = fullness
      ∧ (Tile.construct gameMap x y type fullness).mClaimedPercentage = 0
      ∧ (Tile.construct gameMap x y type fullness).getSeat = none
      ∧ (Tile.construct gameMap x y type fullness).isClaimed = false := by
  have hinit : (Tile.setSeat
      { mGameMap := gameMap, mX := x, mY := y, mType := type,
        mTileVisual := TileVisual.nullTileVisual, mFullness := fullness,
        mClaimedPercentage := 0, mSeat := none,
        mFloodFillColor := List.replicate floodFillNbValues (-1) } none).isClaimed = false := by
    cases hsrv : gameMap.isServerGameMap <;> simp [Tile.isClaimed, Tile.setSeat, Tile.getSeat, hsrv]
  refine ⟨?_, ?_, ?_, ?_, ?_, ?_⟩
  · unfold Tile.construct
    rw [Tile.computeTileVisual_eq]
    rfl
  · unfold Tile.construct
    rw [Tile.computeTileVisual_eq]
    rfl
  · unfold Tile.construct
    rw [Tile.computeTileVisual_eq]
    rfl
  · unfold Tile.construct
    rw [Tile.computeTileVisual_eq]
    rfl
  · unfold Tile.construct
    rw [Tile.computeTileVisual_eq]
    rfl
  · unfold Tile.construct
    rw [Tile.isClaimed_computeTileVisual]
    exact hinit

/-- The neighbour loop finds nothing for `seat2` when every claimed
open-floor neighbour belongs to `seat1` of another team. -/
theorem Tile.foundClaimedGroundTile_hostile (mNeighbors : List Tile) (seat1 seat2 : Seat)
    (hteams : seat1.mTeamId ≠ seat2.mTeamId)
    (honly : ∀ n ∈ mNeighbors, ¬ n.mFullness > 0 → n.isClaimed = true → n.getSeat = some seat1) :
    Tile.foundClaimedGroundTile mNeighbors seat2 = some false := by
  induction mNeighbors with
  | nil => rfl
  | cons tile rest ih =>
    have ihr := ih (fun n hn => honly n (List.mem_cons_of_mem _ hn))
    unfold Tile.foundClaimedGroundTile
    by_cases hf : tile.mFullness > 0
    · simp [Tile.getFullness, hf, ihr]
    · have hcfs : tile.isClaimedForSeat seat2 = some false := by
        unfold Tile.isClaimedForSeat
        cases hc : tile.isClaimed
        · simp
        · have hs := honly tile (List.mem_cons_self _ _) hf hc
          simp [hs, Seat.canOwnedTileBeClaimedBy, Seat.getTeamId, hteams]
      simp [Tile.getFullness, hf, hcfs, ihr]

/-- Where `isDiggable` does answer `false` on an up-to-date visual: open floor
that is claimed or of one of the five terrain kinds, and unclaimed rock, lava
and water. -/
theorem Tile.isDiggable_false_of_ground_or_unclaimed (t : Tile) (seat : Seat)
    (hvisual : t.mTileVisual = computeVisual t.mType t.mFullness t.isClaimed)
    (h : (¬ t.mFullness > 0 ∧ (t.isClaimed = true ∨ t.mType ≠ TileType.other))
      ∨ (t.isClaimed = false
          ∧ (t.mType = TileType.rock ∨ t.mType = TileType.lava ∨ t.mType = TileType.water))) :
    t.isDiggable seat = some false := by
  unfold Tile.isDiggable
  rw [hvisual]
  unfold computeVisual
  rcases h with ⟨hf, hc | hty⟩ | ⟨hc, hty | hty | hty⟩
  · simp [hf, hc]
  · cases hc : t.isClaimed <;> cases ht : t.mType <;>
      first
        | exact absurd ht hty
        | simp [hf]
  · by_cases hf : t.mFullness > 0 <;> simp [hf, hc, hty]
  · simp [hc, hty]
  · simp [hc, hty]

/-- The checked read `floodFillValue` is the raw read with `-1` past the end
of the vector. -/
theorem Tile.floodFillValue_eq (t : Tile) (type : FloodFillType) :
    t.floodFillValue type = (t.mFloodFillColor[toUInt32 type]?).getD (-1) := by
  unfold Tile.floodFillValue
  by_cases h : toUInt32 type < t.mFloodFillColor.length
  · simp [h, List.getElem?_eq_getElem h]
  · simp [h, List.getElem?_eq_none (not_lt.mp h)]

/-- A colour differs from `-1` exactly when the raw read succeeds with a value
other than `-1`. -/
theorem Tile.floodFillValue_ne_iff (t : Tile) (type : FloodFillType) :
    t.floodFillValue type ≠ -1 ↔
      ∃ color, t.mFloodFillColor[toUInt32 type]? = some color ∧ color ≠ -1 := by
  rw [Tile.floodFillValue_eq]
  cases h : t.mFloodFillColor[toUInt32 type]? with
  | none => simp
  | some color => simp

/-- The chain of colour tests answers `true` exactly when every colour it
reads is set. -/
theorem Tile.allColored_eq_true_iff (colors : List Int) (types : List FloodFillType) :
    Tile.allColored colors types = some true ↔
      ∀ type ∈ types, ∃ color, colors[toUInt32 type]? = some color ∧ color ≠ -1 := by
  induction types with
  | nil => simp [Tile.allColored]
  | cons type rest ih =>
    unfold Tile.allColored
    cases h : colors[toUInt32 type]? with
    | none => simp [h]
    | some color =>
      by_cases hc : color = -1
      · simp [h, hc]
      · simp [h, hc, ih]

/-- The chain of colour tests returns a value when every ordinal it uses is
inside the vector. -/
theorem Tile.allColored_defined (colors : List Int) (types : List FloodFillType)
    (h : ∀ type ∈ types, toUInt32 type < colors.length) :
    Tile.allColored colors types = some true ∨ Tile.allColored colors types = some false := by
  induction types with
  | nil => exact Or.inl rfl
  | cons type rest ih =>
    unfold Tile.allColored
    have hlt := h type (List.mem_cons_self _ _)
    rw [List.getElem?_eq_getElem hlt]
    by_cases hc : colors[toUInt32 type] = -1
    · simp [hc]
    · simpa [hc] using ih (fun ty hty => h ty (List.mem_cons_of_mem _ hty))

/-- Distinct categories have distinct ordinals. -/
theorem toUInt32_injective (a b : FloodFillType) (h : toUInt32 a = toUInt32 b) : a = b := by
  cases a <;> cases b <;> simp [toUInt32] at h <;> rfl

/-- With one colour per category, `updateFloodFillFromTile` returns a value:
`(false, receiver)` when the receiver is coloured or the source is not, and
otherwise `true` with the colour of the source stored in the receiver. -/
theorem Tile.updateFloodFillFromTile_eq (t : Tile) (type : FloodFillType) (tile : Tile)
    (ht : t.mFloodFillColor.length = floodFillNbValues)
    (htile : tile.mFloodFillColor.length = floodFillNbValues) :
    t.updateFloodFillFromTile type tile
      = if t.floodFillValue type ≠ -1 ∨ tile.floodFillValue type = -1 then some (false, t)
        else
          some (true,
            { t with
              mFloodFillColor := t.mFloodFillColor.set (toUInt32 type) (tile.floodFillValue type) })
      := by
  unfold Tile.updateFloodFillFromTile
  by_cases h1 : t.floodFillValue type = -1
  · by_cases h2 : tile.floodFillValue type = -1
    · simp [h1, h2]
    · have hin : toUInt32 type < tile.mFloodFillColor.length := by
        by_contra hge
        apply h2
        simp [Tile.floodFillValue, hge]
      have hin' : toUInt32 type < t.mFloodFillColor.length := by
        rw [ht, ← htile]
        exact hin
      have hv : tile.floodFillValue type = tile.mFloodFillColor[toUInt32 type] := by
        simp [Tile.floodFillValue, hin]
      simp [h1, h2, List.getElem?_eq_getElem hin, hin', hv]
  · simp [h1]

/-- Colours of a tile whose colour vector had one entry overwritten. -/
theorem Tile.floodFillValue_set (t : Tile) (type other : FloodFillType) (color : Int)
    (hin : toUInt32 type < t.mFloodFillColor.length) :
    Tile.floodFillValue
        { t with mFloodFillColor := t.mFloodFillColor.set (toUInt32 type) color } other
      = if other = type then color else t.floodFillValue other := by
  rw [Tile.floodFillValue_eq, Tile.floodFillValue_eq]
  by_cases h : other = type
  · subst h
    simp [List.getElem?_set_self, hin]
  · have hne : toUInt32 type ≠ toUInt32 other := fun e => h (toUInt32_injective _ _ e.symm)
    simp [h, List.getElem?_set_ne hne]

/-- Effect of one `updateFloodFillFromTile` call on the colours of the
receiver, with one colour per category on both tiles. -/
theorem Tile.updateFloodFillFromTile_colors (t : Tile) (type : FloodFillType) (tile : Tile)
    (ht : t.mFloodFillColor.length = floodFillNbValues)
    (htile : tile.mFloodFillColor.length = floodFillNbValues) :
    ∃ flag receiver, t.updateFloodFillFromTile type tile = some (flag, receiver)
      ∧ receiver.mFloodFillColor.length = floodFillNbValues
      ∧ (flag = true ↔ tile.floodFillValue type ≠ -1 ∧ t.floodFillValue type = -1)
      ∧ (flag = false → receiver = t)
      ∧ (flag = true → receiver.floodFillValue type = tile.floodFillValue type)
      ∧ (∀ other, other ≠ type → receiver.floodFillValue other = t.floodFillValue other)
      ∧ (∀ other, t.floodFillValue other ≠ -1 →
          receiver.floodFillValue other = t.floodFillValue other)
      ∧ receiver = { t with mFloodFillColor := receiver.mFloodFillColor } := by
  rw [Tile.updateFloodFillFromTile_eq t type tile ht htile]
  by_cases hcond : t.floodFillValue type ≠ -1 ∨ tile.floodFillValue type = -1
  · refine ⟨false, t, by simp [hcond], ht, ?_, fun _ => rfl, by simp, fun _ _ => rfl,
      fun _ _ => rfl, rfl⟩
    constructor
    · intro h
      exact absurd h (by simp)
    · rintro ⟨h1, h2⟩
      rcases hcond with h | h
      · exact absurd h2 h
      · exact absurd h h1
  · have h1 : t.floodFillValue type = -1 := by
      by_contra h
      exact hcond (Or.inl h)
    have h2 : tile.floodFillValue type ≠ -1 := fun h => hcond (Or.inr h)
    have hin : toUInt32 type < t.mFloodFillColor.length := by
      rw [ht, ← htile]
      by_contra hge
      apply h2
      simp [Tile.floodFillValue, hge]
    refine ⟨true,
      { t with
        mFloodFillColor := t.mFloodFillColor.set (toUInt32 type) (tile.floodFillValue type) },
      by simp [hcond], by simpa using ht, by simp [h1, h2], by simp, ?_, ?_, ?_, rfl⟩
    · intro _
      rw [Tile.floodFillValue_set t type type _ hin]
      simp
    · intro other hne
      rw [Tile.floodFillValue_set t type other _ hin]
      simp [hne]
    · intro other hset
      rw [Tile.floodFillValue_set t type other _ hin]
      by_cases h : other = type
      · subst h
        exact absurd h1 hset
      · simp [h]

/-- One call among the tiles of a map, each with one colour per category:
the call returns, keeps one colour per category, overwrites no colour that is
set, and repeating it changes nothing and reports `false`. -/
theorem applyFloodFillCall_spec (grid : Nat → Tile)
    (hgrid : ∀ k, (grid k).mFloodFillColor.length = floodFillNbValues) (call : FloodFillCall) :
    ∃ grid1, applyFloodFillCall grid call = some grid1
      ∧ (∀ k, (grid1 k).mFloodFillColor.length = floodFillNbValues)
      ∧ (∀ k type, (grid k).floodFillValue type ≠ -1 →
          (grid1 k).floodFillValue type = (grid k).floodFillValue type)
      ∧ (grid1 call.receiver).updateFloodFillFromTile call.type (grid1 call.source)
          = some (false, grid1 call.receiver)
      ∧ applyFloodFillCall grid1 call = some grid1 := by
  obtain ⟨flag, receiver, hcall, hlen, hflag, hfalse, htrue, -, hkeep, -⟩ :=
    Tile.updateFloodFillFromTile_colors (grid call.receiver) call.type (grid call.source)
      (hgrid _) (hgrid _)
  have hgrid1 : ∀ k, ((Function.update grid call.receiver receiver) k).mFloodFillColor.length
      = floodFillNbValues := by
    intro k
    by_cases hk : k = call.receiver
    · subst hk
      simpa using hlen
    · simpa [Function.update_noteq hk] using hgrid k
  have hsecond : ((Function.update grid call.receiver receiver) call.receiver).updateFloodFillFromTile
      call.type ((Function.update grid call.receiver receiver) call.source)
        = some (false, (Function.update grid call.receiver receiver) call.receiver) := by
    rw [Tile.updateFloodFillFromTile_eq _ _ _ (hgrid1 _) (hgrid1 _)]
    cases hfl : flag
    · have hrec : receiver = grid call.receiver := hfalse hfl
      have hnot : ¬ ((grid call.source).floodFillValue call.type ≠ -1
          ∧ (grid call.receiver).floodFillValue call.type = -1) := by
        intro h
        have := hflag.mpr h
        rw [hfl] at this
        exact absurd this (by simp)
      have hupd : Function.update grid call.receiver receiver = grid := by
        rw [hrec]
        exact Function.update_eq_self _ _
      rw [hupd]
      have hcond : (grid call.receiver).floodFillValue call.type ≠ -1
          ∨ (grid call.source).floodFillValue call.type = -1 := by
        by_contra hc
        push_neg at hc
        exact hnot ⟨hc.2, hc.1⟩
      rw [if_pos hcond]
    · have hval := htrue hfl
      have hsrc := (hflag.mp hfl).1
      have hcond : ((Function.update grid call.receiver receiver) call.receiver).floodFillValue
          call.type ≠ -1 := by
        simp only [Function.update_same]
        rw [hval]
        exact hsrc
      rw [if_pos (Or.inl hcond)]
  refine ⟨Function.update grid call.receiver receiver, ?_, hgrid1, ?_, hsecond, ?_⟩
  · simp [applyFloodFillCall, hcall]
  · intro k type hset
    by_cases hk : k = call.receiver
    · subst hk
      simpa using hkeep type hset
    · simp [Function.update_noteq hk]
  · unfold applyFloodFillCall
    rw [hsecond]
    simp

/-- The inner loop of `sendVisibleTiles` appends the gained and the lost
tiles of the row to the two lists. -/
theorem Seat.sendVisibleTilesRow_eq {τ : Type} (getTile : Nat → Nat → τ) (xxx : Nat)
    (vec : List (Bool × Bool)) (yyy : Nat) (gained lost : List τ) :
    Seat.sendVisibleTilesRow getTile xxx vec yyy (gained, lost)
      = (gained ++ changedInRow true getTile xxx vec yyy,
          lost ++ changedInRow false getTile xxx vec yyy) := by
  induction vec generalizing yyy gained lost with
  | nil => simp [Seat.sendVisibleTilesRow, changedInRow]
  | cons p rest ih =>
    obtain ⟨previous, current⟩ := p
    cases previous <;> cases current <;>
      simp [Seat.sendVisibleTilesRow, changedInRow, ih]

/-- The outer loop of `sendVisibleTiles` appends the gained and the lost tiles
of the table to the two lists. -/
theorem Seat.sendVisibleTilesRows_eq {τ : Type} (getTile : Nat → Nat → τ)
    (table : List (List (Bool × Bool))) (xxx : Nat) (gained lost : List τ) :
    Seat.sendVisibleTilesRows getTile table xxx (gained, lost)
      = (gained ++ changedInTable true getTile table xxx,
          lost ++ changedInTable false getTile table xxx) := by
  induction table generalizing xxx gained lost with
  | nil => simp [Seat.sendVisibleTilesRows, changedInTable]
  | cons vec rest ih =>
    simp [Seat.sendVisibleTilesRows, changedInTable, Seat.sendVisibleTilesRow_eq, ih]

/-- Members of the reference list of a row. -/
theorem mem_changedInRow {τ : Type} (current : Bool) (getTile : Nat → Nat → τ) (x : Nat)
    (vec : List (Bool × Bool)) (y : Nat) (t : τ) :
    t ∈ changedInRow current getTile x vec y ↔
      ∃ j, vec[j]? = some (!current, current) ∧ t = getTile x (y + j) := by
  induction vec generalizing y with
  | nil => simp [changedInRow]
  | cons p rest ih =>
    unfold changedInRow
    constructor
    · intro h
      by_cases hp : p = (!current, current)
      · rw [if_pos hp] at h
        rcases List.mem_cons.mp h with h | h
        · exact ⟨0, by simp [hp], by simpa using h⟩
        · obtain ⟨j, hj, ht⟩ := (ih (y + 1)).mp h
          exact ⟨j + 1, by simpa using hj, by rw [ht]; congr 1; omega⟩
      · rw [if_neg hp] at h
        obtain ⟨j, hj, ht⟩ := (ih (y + 1)).mp h
        exact ⟨j + 1, by simpa using hj, by rw [ht]; congr 1; omega⟩
    · rintro ⟨j, hj, ht⟩
      cases j with
      | zero =>
        have hp : p = (!current, current) := by simpa using hj
        rw [if_pos hp]
        exact List.mem_cons.mpr (Or.inl (by simpa using ht))
      | succ j =>
        have hrest : t ∈ changedInRow current getTile x rest (y + 1) :=
          (ih (y + 1)).mpr ⟨j, by simpa using hj, by rw [ht]; congr 1; omega⟩
        by_cases hp : p = (!current, current)
        · rw [if_pos hp]
          exact List.mem_cons_of_mem _ hrest
        · rw [if_neg hp]
          exact hrest

/-- Members of the reference list of a table. -/
theorem mem_changedInTable {τ : Type} (current : Bool) (getTile : Nat → Nat → τ)
    (table : List (List (Bool × Bool))) (x : Nat) (t : τ) :
    t ∈ changedInTable current getTile table x ↔
      ∃ i vec j, table[i]? = some vec ∧ vec[j]? = some (!current, current)
        ∧ t = getTile (x + i) j := by
  induction table generalizing x with
  | nil => simp [changedInTable]
  | cons vec rest ih =>
    unfold changedInTable
    rw [List.mem_append, mem_changedInRow, ih]
    constructor
    · rintro (⟨j, hj, ht⟩ | ⟨i, vec', j, hi, hj, ht⟩)
      · exact ⟨0, vec, j, by simp, hj, by simpa using ht⟩
      · exact ⟨i + 1, vec', j, by simpa using hi, hj, by rw [ht]; congr 1; omega⟩
    · rintro ⟨i, vec', j, hi, hj, ht⟩
      cases i with
      | zero =>
        have hv : vec = vec' := by simpa using hi
        subst hv
        exact Or.inl ⟨j, hj, by simpa using ht⟩
      | succ i =>
        exact Or.inr ⟨i, vec', j, by simpa using hi, hj, by rw [ht]; congr 1; omega⟩

/-- The reference list of a row has no tile twice when `getTile` gives
distinct tiles at distinct coordinates. -/
theorem nodup_changedInRow {τ : Type} (current : Bool) (getTile : Nat → Nat → τ)
    (hinj : ∀ x y x' y', getTile x y = getTile x' y' → x = x' ∧ y = y')
    (x : Nat) (vec : List (Bool × Bool)) (y : Nat) :
    (changedInRow current getTile x vec y).Nodup := by
  induction vec generalizing y with
  | nil => simp [changedInRow]
  | cons p rest ih =>
    unfold changedInRow
    by_cases hp : p = (!current, current)
    · rw [if_pos hp]
      refine List.nodup_cons.mpr ⟨?_, ih (y + 1)⟩
      intro hmem
      obtain ⟨j, -, ht⟩ := (mem_changedInRow current getTile x rest (y + 1) _).mp hmem
      have := (hinj _ _ _ _ ht).2
      omega
    · rw [if_neg hp]
      exact ih (y + 1)

/-- The reference list of a table has no tile twice when `getTile` gives
distinct tiles at distinct coordinates. -/
theorem nodup_changedInTable {τ : Type} (current : Bool) (getTile : Nat → Nat → τ)
    (hinj : ∀ x y x' y', getTile x y = getTile x' y' → x = x' ∧ y = y')
    (table : List (List (Bool × Bool))) (x : Nat) :
    (changedInTable current getTile table x).Nodup := by
  induction table generalizing x with
  | nil => simp [changedInTable]
  | cons vec rest ih =>
    unfold changedInTable
    refine List.nodup_append.mpr ⟨nodup_changedInRow current getTile hinj x vec 0, ih (x + 1), ?_⟩
    intro t hrow htable
    obtain ⟨j, -, ht⟩ := (mem_changedInRow current getTile x vec 0 t).mp hrow
    obtain ⟨i, vec', j', -, -, ht'⟩ :=
      (mem_changedInTable current getTile rest (x + 1) t).mp htable
    have := (hinj _ _ _ _ (ht.symm.trans ht')).1
    omega

/-- Entry of a vision table after the same function was applied to every
pair. -/
theorem Seat.visionAt_map (s : Seat) (f : Bool × Bool → Bool × Bool) (x y : Nat) :
    Seat.visionAt { s with mTilesVision := s.mTilesVision.map fun vec => vec.map f } x y
      = (s.visionAt x y).map f := by
  unfold Seat.visionAt
  simp only [List.getElem?_map]
  cases s.mTilesVision[x]? with
  | none => rfl
  | some vec => simp

/-- Entry of a vision table after the pair at (x, y) was overwritten. -/
theorem Seat.visionAt_set (s : Seat) (x y : Nat) (vec : List (Bool × Bool))
    (p q : Bool × Bool) (hx : s.mTilesVision[x]? = some vec) (hy : vec[y]? = some p)
    (x' y' : Nat) :
    Seat.visionAt { s with mTilesVision := s.mTilesVision.set x (vec.set y q) } x' y'
      = if x' = x ∧ y' = y then some q else s.visionAt x' y' := by
  have hxlt : x < s.mTilesVision.length := by
    by_contra h
    rw [List.getElem?_eq_none (not_lt.mp h)] at hx
    exact absurd hx (by simp)
  have hylt : y < vec.length := by
    by_contra h
    rw [List.getElem?_eq_none (not_lt.mp h)] at hy
    exact absurd hy (by simp)
  unfold Seat.visionAt
  by_cases hxx : x' = x
  · subst hxx
    simp only [List.getElem?_set_self hxlt, hx]
    by_cases hyy : y' = y
    · subst hyy
      simp [List.getElem?_set_self hylt]
    · have hne : y ≠ y' := fun e => hyy e.symm
      simp [hyy, List.getElem?_set_ne hne]
  · have hne : x ≠ x' := fun e => hxx e.symm
    simp [hxx, List.getElem?_set_ne hne]

/-- A duplicate-free list of seats of a finite set is no longer than the set
is large. -/
theorem seats_length_le_card (seats : Finset SeatPtr) (visited : List SeatPtr)
    (hnodup : visited.Nodup) (hsub : ∀ x ∈ visited, x ∈ seats) :
    visited.length ≤ seats.card := by
  rw [← List.toFinset_card_of_nodup hnodup]
  apply Finset.card_le_card
  intro x hx
  exact hsub x (List.mem_toFinset.mp hx)

/-- The loop of `notifyVision` over a list of allied seats, given what one
call does at the same depth: the loop returns, appends duplicate-free new
seats to the vision list and the same seats to the list of notified seats,
reaches every allied seat of the list, adds only seats reachable from them,
and every seat it adds has all its allied seats in the final vision list. -/
theorem Tile.notifyVision_loop (getAlliedSeats : SeatPtr → List SeatPtr)
    (seats : Finset SeatPtr) (fuel : Nat)
    (hcall : ∀ (t : Tile) (notified : List SeatPtr) (seat : SeatPtr),
      seat ∈ seats → (∀ x ∈ t.mSeatsWithVision, x ∈ seats) → t.mSeatsWithVision.Nodup →
      seats.card < fuel + t.mSeatsWithVision.length →
      ∃ new : List SeatPtr,
        Tile.notifyVision getAlliedSeats fuel (t, notified) seat
            = some ({ t with mSeatsWithVision := t.mSeatsWithVision ++ new }, notified ++ new)
          ∧ (t.mSeatsWithVision ++ new).Nodup
          ∧ (∀ x ∈ new, x ∈ seats)
          ∧ seat ∈ t.mSeatsWithVision ++ new
          ∧ (∀ x ∈ new, Relation.ReflTransGen (fun a b => b ∈ getAlliedSeats a) seat x)
          ∧ (∀ x ∈ new, ∀ a ∈ getAlliedSeats x, a ∈ t.mSeatsWithVision ++ new))
    (allied : List SeatPtr) :
    ∀ (t : Tile) (notified : List SeatPtr),
      (∀ a ∈ allied, a ∈ seats) → (∀ x ∈ t.mSeatsWithVision, x ∈ seats) →
      t.mSeatsWithVision.Nodup → seats.card < fuel + t.mSeatsWithVision.length →
      ∃ new : List SeatPtr,
        allied.foldlM
            (fun state alliedSeat => Tile.notifyVision getAlliedSeats fuel state alliedSeat)
            (t, notified)
            = some ({ t with mSeatsWithVision := t.mSeatsWithVision ++ new }, notified ++ new)
          ∧ (t.mSeatsWithVision ++ new).Nodup
          ∧ (∀ x ∈ new, x ∈ seats)
          ∧ (∀ a ∈ allied, a ∈ t.mSeatsWithVision ++ new)
          ∧ (∀ x ∈ new, ∃ a ∈ allied,
              Relation.ReflTransGen (fun a b => b ∈ getAlliedSeats a) a x)
          ∧ (∀ x ∈ new, ∀ a ∈ getAlliedSeats x, a ∈ t.mSeatsWithVision ++ new) := by
  induction allied with
  | nil =>
    intro t notified _ _ hnodup _
    exact ⟨[], by simp, by simpa using hnodup, by simp, by simp, by simp, by simp⟩
  | cons first rest ih =>
    intro t notified hallied hsub hnodup hfuel
    obtain ⟨new1, hrun1, hnodup1, hsub1, hfirst, hreach1, hclosed1⟩ :=
      hcall t notified first (hallied first (List.mem_cons_self _ _)) hsub hnodup hfuel
    have hsubT : ∀ x ∈ t.mSeatsWithVision ++ new1, x ∈ seats := by
      intro x hx
      rcases List.mem_append.mp hx with h | h
      · exact hsub x h
      · exact hsub1 x h
    have hfuel1 : seats.card < fuel + (t.mSeatsWithVision ++ new1).length := by
      rw [List.length_append]
      omega
    obtain ⟨new2, hrun2, hnodup2, hsub2, hrest, hreach2, hclosed2⟩ :=
      ih { t with mSeatsWithVision := t.mSeatsWithVision ++ new1 } (notified ++ new1)
        (fun a ha => hallied a (List.mem_cons_of_mem _ ha)) hsubT hnodup1 hfuel1
    simp only [List.append_assoc] at hrun2 hnodup2 hrest hclosed2
    refine ⟨new1 ++ new2, ?_, hnodup2, ?_, ?_, ?_, ?_⟩
    · rw [List.foldlM_cons, hrun1]
      exact hrun2
    · intro x hx
      rcases List.mem_append.mp hx with h | h
      · exact hsub1 x h
      · exact hsub2 x h
    · intro a ha
      rcases List.mem_cons.mp ha with h | h
      · subst h
        rcases List.mem_append.mp hfirst with h | h
        · exact List.mem_append_left _ h
        · exact List.mem_append_right _ (List.mem_append_left _ h)
      · exact hrest a h
    · intro x hx
      rcases List.mem_append.mp hx with h | h
      · exact ⟨first, List.mem_cons_self _ _, hreach1 x h⟩
      · obtain ⟨a, ha, hr⟩ := hreach2 x h
        exact ⟨a, List.mem_cons_of_mem _ ha, hr⟩
    · intro x hx a ha
      rcases List.mem_append.mp hx with h | h
      · rcases List.mem_append.mp (hclosed1 x h a ha) with h' | h'
        · exact List.mem_append_left _ h'
        · exact List.mem_append_right _ (List.mem_append_left _ h')
      · exact hclosed2 x h a ha

/-- One call of `notifyVision` on a finite set of seats closed under the
allied-seat links: with a depth above the number of seats not yet in the
vision list the call returns, and it appends duplicate-free new seats to the
vision list and the same seats to the list of notified seats; the seat asked
for is in the final list, every new seat is reachable from it, and every new
seat has all its allied seats in the final list. -/
theorem Tile.notifyVision_call (getAlliedSeats : SeatPtr → List SeatPtr)
    (seats : Finset SeatPtr)
    (hclosed : ∀ s ∈ seats, ∀ a ∈ getAlliedSeats s, a ∈ seats) (fuel : Nat) :
    ∀ (t : Tile) (notified : List SeatPtr) (seat : SeatPtr),
      seat ∈ seats → (∀ x ∈ t.mSeatsWithVision, x ∈ seats) → t.mSeatsWithVision.Nodup →
      seats.card < fuel + t.mSeatsWithVision.length →
      ∃ new : List SeatPtr,
        Tile.notifyVision getAlliedSeats fuel (t, notified) seat
            = some ({ t with mSeatsWithVision := t.mSeatsWithVision ++ new }, notified ++ new)
          ∧ (t.mSeatsWithVision ++ new).Nodup
          ∧ (∀ x ∈ new, x ∈ seats)
          ∧ seat ∈ t.mSeatsWithVision ++ new
          ∧ (∀ x ∈ new, Relation.ReflTransGen (fun a b => b ∈ getAlliedSeats a) seat x)
          ∧ (∀ x ∈ new, ∀ a ∈ getAlliedSeats x, a ∈ t.mSeatsWithVision ++ new) := by
  induction fuel with
  | zero =>
    intro t notified seat _ hsub hnodup hfuel
    have := seats_length_le_card seats t.mSeatsWithVision hnodup hsub
    omega
  | succ fuel ih =>
    intro t notified seat hseat hsub hnodup hfuel
    by_cases hin : seat ∈ t.mSeatsWithVision
    · refine ⟨[], ?_, by simpa using hnodup, by simp, by simpa using hin, by simp, by simp⟩
      simp [Tile.notifyVision, hin]
    · have hnodup1 : (t.mSeatsWithVision ++ [seat]).Nodup := by
        rw [List.nodup_append]
        refine ⟨hnodup, List.nodup_singleton _, ?_⟩
        intro x hx hx'
        rw [List.mem_singleton] at hx'
        subst hx'
        exact hin hx
      have hsub1 : ∀ x ∈ t.mSeatsWithVision ++ [seat], x ∈ seats := by
        intro x hx
        rcases List.mem_append.mp hx with h | h
        · exact hsub x h
        · rw [List.mem_singleton] at h
          subst h
          exact hseat
      have hfuel1 : seats.card < fuel + (t.mSeatsWithVision ++ [seat]).length := by
        rw [List.length_append, List.length_singleton]
        omega
      obtain ⟨new, hrun, hnodup2, hsub2, hall, hreach, hclosed2⟩ :=
        Tile.notifyVision_loop getAlliedSeats seats fuel ih (getAlliedSeats seat)
          { t with mSeatsWithVision := t.mSeatsWithVision ++ [seat] } (notified ++ [seat])
          (hclosed seat hseat) hsub1 hnodup1 hfuel1
      simp only [List.append_assoc, List.singleton_append] at hrun hnodup2 hall hclosed2
      refine ⟨seat :: new, ?_, hnodup2, ?_, by simp, ?_, ?_⟩
      · simp only [Tile.notifyVision, hin, if_false]
        exact hrun
      · intro x hx
        rcases List.mem_cons.mp hx with h | h
        · subst h
          exact hseat
        · exact hsub2 x h
      · intro x hx
        rcases List.mem_cons.mp hx with h | h
        · subst h
          exact Relation.ReflTransGen.refl
        · obtain ⟨a, ha, hr⟩ := hreach x h
          exact Relation.ReflTransGen.head ha hr
      · intro x hx a ha
        rcases List.mem_cons.mp hx with h | h
        · subst h
          exact hall a ha
        · exact hclosed2 x h a ha

/-- A deeper call stack does not change what `notifyVision` returns. -/
theorem Tile.notifyVision_fuel_succ (getAlliedSeats : SeatPtr → List SeatPtr) (fuel : Nat) :
    ∀ (state : Tile × List SeatPtr) (seat : SeatPtr) (result : Tile × List SeatPtr),
      Tile.notifyVision getAlliedSeats fuel state seat = some result →
      Tile.notifyVision getAlliedSeats (fuel + 1) state seat = some result := by
  induction fuel with
  | zero =>
    intro state seat result h
    simp [Tile.notifyVision] at h
  | succ fuel ih =>
    intro state seat result h
    obtain ⟨t, notified⟩ := state
    by_cases hin : seat ∈ t.mSeatsWithVision
    · simp only [Tile.notifyVision, hin, if_true] at h ⊢
      exact h
    · simp only [Tile.notifyVision, hin, if_false] at h
      have hloop : ∀ (allied : List SeatPtr) (start : Tile × List SeatPtr),
          allied.foldlM
              (fun state alliedSeat => Tile.notifyVision getAlliedSeats fuel state alliedSeat)
              start = some result →
          allied.foldlM
              (fun state alliedSeat =>
                Tile.notifyVision getAlliedSeats (fuel + 1) state alliedSeat)
              start = some result := by
        intro allied
        induction allied with
        | nil =>
          intro start hs
          simpa using hs
        | cons first rest ihl =>
          intro start hs
          rw [List.foldlM_cons] at hs ⊢
          cases hfirst : Tile.notifyVision getAlliedSeats fuel start first with
          | none =>
            rw [hfirst] at hs
            simp at hs
          | some mid =>
            rw [hfirst] at hs
            rw [ih start first mid hfirst]
            exact ihl mid hs
      have := hloop (getAlliedSeats seat) _ h
      rw [Tile.notifyVision]
      simp only [hin, if_false]
      exact this

/-- Once `notifyVision` returns at some depth, it returns the same at every
greater depth. -/
theorem Tile.notifyVision_fuel_le (getAlliedSeats : SeatPtr → List SeatPtr) (fuel fuel' : Nat)
    (hle : fuel ≤ fuel') (state : Tile × List SeatPtr) (seat : SeatPtr)
    (result : Tile × List SeatPtr)
    (h : Tile.notifyVision getAlliedSeats fuel state seat = some result) :
    Tile.notifyVision getAlliedSeats fuel' state seat = some result := by
  induction hle with
  | refl => exact h
  | step _ ih => exact Tile.notifyVision_fuel_succ getAlliedSeats _ state seat result ih

/-- Members of the reference list of changed visible tiles of a row. -/
theorem mem_changedVisibleInRow (seat : SeatPtr) (tiles : Nat × Nat → Tile) (x : Nat)
    (vec : List (Bool × Bool)) (y : Nat) (c : Nat × Nat) :
    c ∈ changedVisibleInRow seat tiles x vec y ↔
      c.1 = x ∧ (∃ j previous, vec[j]? = some (previous, true) ∧ c.2 = y + j)
        ∧ (tiles c).hasChangedForSeat seat = true := by
  induction vec generalizing y with
  | nil => simp [changedVisibleInRow]
  | cons p rest ih =>
    obtain ⟨previous, current⟩ := p
    unfold changedVisibleInRow
    have hrest : c ∈ changedVisibleInRow seat tiles x rest (y + 1) ↔
        c.1 = x ∧ (∃ j previous', (rest)[j]? = some (previous', true) ∧ c.2 = y + (j + 1))
          ∧ (tiles c).hasChangedForSeat seat = true := by
      rw [ih (y + 1)]
      constructor
      · rintro ⟨h1, ⟨j, q, hj, hc⟩, h3⟩
        exact ⟨h1, ⟨j, q, hj, by omega⟩, h3⟩
      · rintro ⟨h1, ⟨j, q, hj, hc⟩, h3⟩
        exact ⟨h1, ⟨j, q, hj, by omega⟩, h3⟩
    constructor
    · intro h
      by_cases hp : (previous, current).2 = true
          ∧ (tiles (x, y)).hasChangedForSeat seat = true
      · rw [if_pos hp] at h
        rcases List.mem_cons.mp h with h | h
        · subst h
          have hcur : current = true := hp.1
          subst hcur
          exact ⟨rfl, ⟨0, previous, by simp, by simp⟩, hp.2⟩
        · obtain ⟨h1, ⟨j, q, hj, hc⟩, h3⟩ := hrest.mp h
          exact ⟨h1, ⟨j + 1, q, by simpa using hj, hc⟩, h3⟩
      · rw [if_neg hp] at h
        obtain ⟨h1, ⟨j, q, hj, hc⟩, h3⟩ := hrest.mp h
        exact ⟨h1, ⟨j + 1, q, by simpa using hj, hc⟩, h3⟩
    · rintro ⟨h1, ⟨j, q, hj, hc⟩, h3⟩
      cases j with
      | zero =>
        have hpq : (previous, current) = (q, true) := by simpa using hj
        have hc' : c = (x, y) := by
          apply Prod.ext
          · exact h1
          · simpa using hc
        subst hc'
        have hcur : current = true := (Prod.mk.inj hpq).2
        rw [if_pos ⟨hcur, h3⟩]
        exact List.mem_cons_self _ _
      | succ j =>
        have hmem : c ∈ changedVisibleInRow seat tiles x rest (y + 1) :=
          hrest.mpr ⟨h1, ⟨j, q, by simpa using hj, hc⟩, h3⟩
        by_cases hp : (previous, current).2 = true
            ∧ (tiles (x, y)).hasChangedForSeat seat = true
        · rw [if_pos hp]
          exact List.mem_cons_of_mem _ hmem
        · rw [if_neg hp]
          exact hmem

/-- Members of the reference list of changed visible tiles of a table. -/
theorem mem_changedVisibleInTable (seat : SeatPtr) (tiles : Nat × Nat → Tile)
    (table : List (List (Bool × Bool))) (x : Nat) (c : Nat × Nat) :
    c ∈ changedVisibleInTable seat tiles table x ↔
      (∃ i vec j previous, table[i]? = some vec ∧ vec[j]? = some (previous, true)
          ∧ c.1 = x + i ∧ c.2 = j)
        ∧ (tiles c).hasChangedForSeat seat = true := by
  induction table generalizing x with
  | nil => simp [changedVisibleInTable]
  | cons vec rest ih =>
    unfold changedVisibleInTable
    rw [List.mem_append, mem_changedVisibleInRow, ih]
    constructor
    · rintro (⟨h1, ⟨j, q, hj, hc⟩, h3⟩ | ⟨⟨i, vec', j, q, hi, hj, hc1, hc2⟩, h3⟩)
      · exact ⟨⟨0, vec, j, q, by simp, hj, by simpa using h1, by simpa using hc⟩, h3⟩
      · exact ⟨⟨i + 1, vec', j, q, by simpa using hi, hj, by omega, hc2⟩, h3⟩
    · rintro ⟨⟨i, vec', j, q, hi, hj, hc1, hc2⟩, h3⟩
      cases i with
      | zero =>
        have hv : vec = vec' := by simpa using hi
        subst hv
        exact Or.inl ⟨by simpa using hc1, ⟨j, q, hj, by simpa using hc2⟩, h3⟩
      | succ i =>
        exact Or.inr ⟨⟨i, vec', j, q, by simpa using hi, hj, by omega, hc2⟩, h3⟩

/-- The reference list of a row reads only the tiles of the row from index
`y` on. -/
theorem changedVisibleInRow_congr (seat : SeatPtr) (tiles tiles' : Nat × Nat → Tile) (x : Nat)
    (vec : List (Bool × Bool)) (y : Nat)
    (h : ∀ y', y ≤ y' → tiles (x, y') = tiles' (x, y')) :
    changedVisibleInRow seat tiles x vec y = changedVisibleInRow seat tiles' x vec y := by
  induction vec generalizing y with
  | nil => rfl
  | cons p rest ih =>
    unfold changedVisibleInRow
    rw [h y (le_refl y), ih (y + 1) (fun y' hy => h y' (by omega))]

/-- The reference list of a table reads only the tiles of the rows from `x`
on. -/
theorem changedVisibleInTable_congr (seat : SeatPtr) (tiles tiles' : Nat × Nat → Tile)
    (table : List (List (Bool × Bool))) (x : Nat)
    (h : ∀ c : Nat × Nat, x ≤ c.1 → tiles c = tiles' c) :
    changedVisibleInTable seat tiles table x = changedVisibleInTable seat tiles' table x := by
  induction table generalizing x with
  | nil => rfl
  | cons vec rest ih =>
    unfold changedVisibleInTable
    rw [changedVisibleInRow_congr seat tiles tiles' x vec 0 (fun y' _ => h (x, y') (le_refl x)),
      ih (x + 1) (fun c hc => h c (by omega))]

/-- The reference list of a row has no tile twice. -/
theorem nodup_changedVisibleInRow (seat : SeatPtr) (tiles : Nat × Nat → Tile) (x : Nat)
    (vec : List (Bool × Bool)) (y : Nat) :
    (changedVisibleInRow seat tiles x vec y).Nodup := by
  induction vec generalizing y with
  | nil => simp [changedVisibleInRow]
  | cons p rest ih =>
    unfold changedVisibleInRow
    split
    · refine List.nodup_cons.mpr ⟨?_, ih (y + 1)⟩
      intro hmem
      obtain ⟨-, ⟨j, q, -, hc⟩, -⟩ := (mem_changedVisibleInRow seat tiles x rest (y + 1) _).mp hmem
      simp at hc
      omega
    · exact ih (y + 1)

/-- The reference list of a table has no tile twice. -/
theorem nodup_changedVisibleInTable (seat : SeatPtr) (tiles : Nat × Nat → Tile)
    (table : List (List (Bool × Bool))) (x : Nat) :
    (changedVisibleInTable seat tiles table x).Nodup := by
  induction table generalizing x with
  | nil => simp [changedVisibleInTable]
  | cons vec rest ih =>
    unfold changedVisibleInTable
    refine List.nodup_append.mpr ⟨nodup_changedVisibleInRow seat tiles x vec 0, ih (x + 1), ?_⟩
    intro c hrow htable
    obtain ⟨h1, -, -⟩ := (mem_changedVisibleInRow seat tiles x vec 0 c).mp hrow
    obtain ⟨⟨i, vec', j, q, -, -, hc1, -⟩, -⟩ :=
      (mem_changedVisibleInTable seat tiles rest (x + 1) c).mp htable
    omega

/-- The inner loop of `notifyChangedVisibleTiles` clears the flag of the
changed visible tiles of the row and appends them to the list. -/
theorem Seat.notifyChangedVisibleTilesRow_eq (this : SeatPtr) (xxx : Nat)
    (vec : List (Bool × Bool)) (yyy : Nat) (tiles : Nat × Nat → Tile)
    (tilesToNotify : List (Nat × Nat)) :
    Seat.notifyChangedVisibleTilesRow this xxx vec yyy (tiles, tilesToNotify)
      = ((fun c => if c ∈ changedVisibleInRow this tiles xxx vec yyy
            then (tiles c).changeNotifiedForSeat this else tiles c),
          tilesToNotify ++ changedVisibleInRow this tiles xxx vec yyy) := by
  induction vec generalizing yyy tiles tilesToNotify with
  | nil => simp [Seat.notifyChangedVisibleTilesRow, changedVisibleInRow]
  | cons p rest ih =>
    obtain ⟨previous, current⟩ := p
    unfold Seat.notifyChangedVisibleTilesRow changedVisibleInRow
    by_cases hcur : current = true
    · by_cases hch : (tiles (xxx, yyy)).hasChangedForSeat this = true
      · have hcongr := changedVisibleInRow_congr this
          (Function.update tiles (xxx, yyy) ((tiles (xxx, yyy)).changeNotifiedForSeat this))
          tiles xxx rest (yyy + 1)
          (by
            intro y' hy
            apply Function.update_noteq
            intro heq
            have := (Prod.mk.inj heq).2
            omega)
        have hnot : (xxx, yyy) ∉ changedVisibleInRow this tiles xxx rest (yyy + 1) := by
          intro hmem
          obtain ⟨-, ⟨j, q, -, hc⟩, -⟩ :=
            (mem_changedVisibleInRow this tiles xxx rest (yyy + 1) _).mp hmem
          simp at hc
          omega
        simp only [hcur, hch, Bool.not_true, Bool.false_eq_true, if_false, and_self, if_true]
        rw [ih, hcongr]
        refine Prod.ext ?_ (by simp)
        funext c
        simp only
        by_cases hc : c = (xxx, yyy)
        · subst hc
          simp [hnot]
        · simp [hc, Function.update_noteq hc]
      · simp only [hcur, hch, Bool.not_true, Bool.false_eq_true, if_false, and_false,
          Bool.not_eq_true] at *
        simp only [hch, Bool.not_false, if_true]
        rw [ih]
    · have hcur' : current = false := by simpa using hcur
      subst hcur'
      simp only [Bool.not_false, if_true, Bool.false_eq_true, false_and, if_false]
      rw [ih]

/-- The outer loop of `notifyChangedVisibleTiles` clears the flag of the
changed visible tiles of the table and appends them to the list. -/
theorem Seat.notifyChangedVisibleTilesRows_eq (this : SeatPtr)
    (table : List (List (Bool × Bool))) (xxx : Nat) (tiles : Nat × Nat → Tile)
    (tilesToNotify : List (Nat × Nat)) :
    Seat.notifyChangedVisibleTilesRows this table xxx (tiles, tilesToNotify)
      = ((fun c => if c ∈ changedVisibleInTable this tiles table xxx
            then (tiles c).changeNotifiedForSeat this else tiles c),
          tilesToNotify ++ changedVisibleInTable this tiles table xxx) := by
  induction table generalizing xxx tiles tilesToNotify with
  | nil => simp [Seat.notifyChangedVisibleTilesRows, changedVisibleInTable]
  | cons vec rest ih =>
    unfold Seat.notifyChangedVisibleTilesRows changedVisibleInTable
    rw [Seat.notifyChangedVisibleTilesRow_eq, ih]
    have hcongr := changedVisibleInTable_congr this
      (fun c => if c ∈ changedVisibleInRow this tiles xxx vec 0
        then (tiles c).changeNotifiedForSeat this else tiles c) tiles rest (xxx + 1)
      (by
        intro c hc
        have hnot : c ∉ changedVisibleInRow this tiles xxx vec 0 := by
          intro hmem
          have := ((mem_changedVisibleInRow this tiles xxx vec 0 c).mp hmem).1
          omega
        simp [hnot])
    rw [hcongr]
    refine Prod.ext ?_ (by simp)
    funext c
    simp only [List.mem_append]
    by_cases h2 : c ∈ changedVisibleInTable this tiles rest (xxx + 1)
    · have hnot : c ∉ changedVisibleInRow this tiles xxx vec 0 := by
        intro hmem
        have h1 := ((mem_changedVisibleInRow this tiles xxx vec 0 c).mp hmem).1
        obtain ⟨⟨i, vec', j, q, -, -, hc1, -⟩, -⟩ :=
          (mem_changedVisibleInTable this tiles rest (xxx + 1) c).mp h2
        omega
      simp [h2, hnot]
    · simp [h2]

/-- After `changeNotifiedForSeat` the tile is not marked changed for the
seat. -/
theorem Tile.hasChangedForSeat_changeNotifiedForSeat (t : Tile) (seat : SeatPtr) :
    (t.changeNotifiedForSeat seat).hasChangedForSeat seat = false := by
  unfold Tile.hasChangedForSeat Tile.changeNotifiedForSeat
  simp only
  induction t.mTileChangedForSeats with
  | nil => rfl
  | cons seatChanged rest ih =>
    unfold Tile.changeNotifiedForSeatLoop
    by_cases h : seatChanged.1 = seat
    · simp [h, Tile.hasChangedForSeatLoop]
    · simp [h, Tile.hasChangedForSeatLoop, ih]


theorem Seat.findResearch_eq_some {researches : List Research} {researchType : ResearchType}
    {research : Research} (h : Seat.findResearch researches researchType = some research) :
    research ∈ researches ∧ research.mType = researchType := by
  induction researches with
  | nil => simp [Seat.findResearch] at h
  | cons head rest ih =>
    unfold Seat.findResearch at h
    by_cases hty : head.mType = researchType
    · simp [hty] at h
      subst h
      exact ⟨List.mem_cons_self _ _, hty⟩
    · simp [hty] at h
      exact ⟨List.mem_cons_of_mem _ (ih h).1, (ih h).2⟩

theorem Seat.findResearch_eq_none_iff (researches : List Research) (researchType : ResearchType) :
    Seat.findResearch researches researchType = none ↔
      ∀ research ∈ researches, research.mType ≠ researchType := by
  induction researches with
  | nil => simp [Seat.findResearch]
  | cons head rest ih =>
    unfold Seat.findResearch
    by_cases hty : head.mType = researchType
    · simp [hty]
    · simp [hty, ih]

theorem Seat.researchTreeAllowed_iff (cfg : ResearchConfig) (notAllowed : List ResearchType)
    (researches : List ResearchType) (researchesDoneInTree : List ResearchType) :
    Seat.researchTreeAllowed cfg notAllowed researches researchesDoneInTree = true ↔
      ∀ (i : Nat) (h : i < researches.length),
        researches[i] ∉ notAllowed ∧
        ∃ research, Seat.findResearch cfg.researches researches[i] = some research ∧
          research.canBeResearched (researchesDoneInTree ++ researches.take i) = true := by
  induction researches generalizing researchesDoneInTree with
  | nil => simp [Seat.researchTreeAllowed]
  | cons head rest ih =>
    unfold Seat.researchTreeAllowed
    constructor
    · intro h i hi
      by_cases hna : head ∈ notAllowed
      · simp [hna] at h
      · rw [if_neg hna] at h
        cases hfind : Seat.findResearch cfg.researches head with
        | none => simp [hfind] at h
        | some research =>
          rw [hfind] at h
          cases hcan : research.canBeResearched researchesDoneInTree with
          | false => simp [hcan] at h
          | true =>
            simp only [hcan, Bool.not_true, Bool.false_eq_true, if_false] at h
            cases i with
            | zero => exact ⟨hna, research, by simpa using hfind, by simpa using hcan⟩
            | succ j =>
              have hj : j < rest.length := by simpa using hi
              have := (ih (researchesDoneInTree ++ [head])).1 h j hj
              simpa using this
    · intro h
      have h0 := h 0 (by simp)
      simp only [List.getElem_cons_zero, List.take_zero, List.append_nil] at h0
      obtain ⟨hna, research, hfind, hcan⟩ := h0
      rw [if_neg hna, hfind]
      simp only [hcan, Bool.not_true, Bool.false_eq_true, if_false]
      apply (ih (researchesDoneInTree ++ [head])).2
      intro j hj
      have := h (j + 1) (by simpa using hj)
      simpa using this

theorem Seat.setNextResearchEntities_eq (cfg : ResearchConfig) (this : SeatPtr)
    (pending : ResearchType) (renderables : List RenderedMovableEntity)
    (researchType : ResearchType) :
    Seat.setNextResearchEntities cfg this pending renderables researchType =
      if ownsResearchEntity this renderables pending then cfg.nullResearchType
      else researchType := by
  induction renderables with
  | nil => simp [Seat.setNextResearchEntities, ownsResearchEntity]
  | cons head rest ih =>
    unfold Seat.setNextResearchEntities
    unfold ownsResearchEntity at ih ⊢
    by_cases h1 : head.mObjectType = GameEntityType.researchEntity
    · by_cases h2 : head.mSeat = some this
      · by_cases h3 : head.mResearchType = pending
        · simp [h1, h2, h3]
        · simp [h1, h2, h3, ih]
      · simp [h1, h2, ih]
    · simp [h1, ih]

theorem Seat.setNextResearch_lists (s : Seat) (cfg : ResearchConfig) (this : SeatPtr)
    (renderables : List RenderedMovableEntity) (researchedType : ResearchType) :
    (s.setNextResearch cfg this renderables researchedType).mResearchDone = s.mResearchDone ∧
    (s.setNextResearch cfg this renderables researchedType).mResearchPending =
      s.mResearchPending ∧
    (s.setNextResearch cfg this renderables researchedType).mResearchNotAllowed =
      s.mResearchNotAllowed ∧
    (s.setNextResearch cfg this renderables researchedType).mResearchPoints =
      s.mResearchPoints := by
  unfold Seat.setNextResearch
  split
  · exact ⟨rfl, rfl, rfl, rfl⟩
  · simp only []
    split <;> exact ⟨rfl, rfl, rfl, rfl⟩


theorem Seat.addResearchPoints_completed {s : Seat} {cfg : ResearchConfig} {this : SeatPtr}
    {renderables : List RenderedMovableEntity} {points : Int} {current : Research}
    {after : Seat}
    (h : s.addResearchPoints cfg this renderables points = some (some current, after)) :
    ∃ left, after =
      Seat.setNextResearch { s with mResearchPoints := left } cfg this renderables
        current.mType := by
  unfold Seat.addResearchPoints at h
  split at h
  · simp at h
  · split at h
    · simp at h
    · split at h
      · simp at h
      · split at h
        · simp at h
        · simp only [Option.some.injEq, Prod.mk.injEq] at h
          obtain ⟨h1, h2⟩ := h
          subst h1
          exact ⟨_, h2.symm⟩


theorem Seat.writeTeamIds_fields (os : ODPacket) (teamIds : List Int) :
    (Seat.writeTeamIds os teamIds).fields = os.fields ++ teamIds.map PacketField.int32 := by
  induction teamIds generalizing os with
  | nil => simp [Seat.writeTeamIds]
  | cons teamId rest ih => simp [Seat.writeTeamIds, ih, ODPacket.writeInt32]

theorem Seat.readTeamIds_map (teamIds : List Int) (rest : List PacketField)
    (availableTeamIds : List Int) :
    Seat.readTeamIds teamIds.length { fields := teamIds.map PacketField.int32 ++ rest }
        availableTeamIds =
      some (availableTeamIds ++ teamIds, { fields := rest }) := by
  induction teamIds generalizing availableTeamIds with
  | nil => simp [Seat.readTeamIds]
  | cons teamId more ih =>
    simp [Seat.readTeamIds, ODPacket.readInt32, ih]

theorem Seat.writeToPacket_fields (os : ODPacket) (s : Seat) :
    (Seat.writeToPacket os s).fields =
      os.fields ++
        ([PacketField.int32 s.mId, PacketField.int32 s.mTeamId,
          PacketField.string s.mPlayerType, PacketField.string s.mFaction,
          PacketField.int32 s.mStartingX, PacketField.int32 s.mStartingY,
          PacketField.string s.mColorId, PacketField.int32 s.mGold,
          PacketField.double s.mMana, PacketField.double s.mManaDelta,
          PacketField.uint32 s.mNumClaimedTiles, PacketField.bool s.mHasGoalsChanged,
          PacketField.int32 s.mNbTreasuries,
          PacketField.uint32 (s.mAvailableTeamIds.length % 4294967296)] ++
          s.mAvailableTeamIds.map PacketField.int32) := by
  simp [Seat.writeToPacket, Seat.writeTeamIds_fields, ODPacket.writeInt32,
    ODPacket.writeUInt32, ODPacket.writeString, ODPacket.writeDouble, ODPacket.writeBool]

theorem Seat.readFromPacket_fields (target : Seat) (mId mTeamId : Int)
    (mPlayerType mFaction : String) (mStartingX mStartingY : Int) (mColorId : String)
    (mGold : Int) (mMana mManaDelta : ℚ) (mNumClaimedTiles : Nat) (mHasGoalsChanged : Bool)
    (mNbTreasuries : Int) (nb : Nat) (tail : List PacketField) :
    Seat.readFromPacket
        { fields :=
            PacketField.int32 mId :: PacketField.int32 mTeamId ::
            PacketField.string mPlayerType :: PacketField.string mFaction ::
            PacketField.int32 mStartingX :: PacketField.int32 mStartingY ::
            PacketField.string mColorId :: PacketField.int32 mGold ::
            PacketField.double mMana :: PacketField.double mManaDelta ::
            PacketField.uint32 mNumClaimedTiles :: PacketField.bool mHasGoalsChanged ::
            PacketField.int32 mNbTreasuries :: PacketField.uint32 nb :: tail }
        target =
      match Seat.readTeamIds nb { fields := tail } target.mAvailableTeamIds with
      | none => none
      | some (availableTeamIds, is) =>
        some (is,
          { target with
            mId := mId
            mTeamId := mTeamId
            mPlayerType := mPlayerType
            mFaction := mFaction
            mStartingX := mStartingX
            mStartingY := mStartingY
            mColorId := mColorId
            mGold := mGold
            mMana := mMana
            mManaDelta := mManaDelta
            mNumClaimedTiles := mNumClaimedTiles
            mHasGoalsChanged := mHasGoalsChanged
            mNbTreasuries := mNbTreasuries
            mAvailableTeamIds := availableTeamIds }) :=
  rfl


theorem isWord_iff (word : List Char) :
    isWord word = true ↔ word ≠ [] ∧ ∀ c ∈ word, isSpace c = false := by
  unfold isWord
  cases word with
  | nil => simp
  | cons c rest => simp

theorem IStream.readString_word (word : List Char) (space : Char) (rest : List Char)
    (str : String) (hword : isWord word = true) (hspace : isSpace space = true) :
    IStream.readString { text := word ++ space :: rest } str =
      ({ text := space :: rest }, String.mk word) := by
  obtain ⟨hne, hall⟩ := (isWord_iff word).1 hword
  cases word with
  | nil => exact absurd rfl hne
  | cons c more =>
    have hc : isSpace c = false := hall c (List.mem_cons_self _ _)
    have htake : List.takeWhile (fun c => !isSpace c) (c :: more ++ space :: rest) =
        c :: more := by
      rw [List.takeWhile_append_of_pos]
      · simp [List.takeWhile_cons, hspace]
      · intro a ha
        simp [hall a ha]
    have hdrop : List.dropWhile (fun c => !isSpace c) (c :: more ++ space :: rest) =
        space :: rest := by
      rw [List.dropWhile_append_of_pos]
      · simp [List.dropWhile_cons, hspace]
      · intro a ha
        simp [hall a ha]
    have hskip : List.dropWhile isSpace (c :: more ++ space :: rest) =
        c :: more ++ space :: rest := by
      simp [List.dropWhile_cons, hc]
    unfold IStream.readString
    simp only [Bool.false_eq_true, if_false, hskip]
    rw [htake, hdrop]
    simp

theorem IStream.readString_space_word (before : Char) (word : List Char) (space : Char)
    (rest : List Char) (str : String) (hbefore : isSpace before = true)
    (hword : isWord word = true) (hspace : isSpace space = true) :
    IStream.readString { text := before :: (word ++ space :: rest) } str =
      ({ text := space :: rest }, String.mk word) := by
  have h := IStream.readString_word word space rest str hword hspace
  unfold IStream.readString at h ⊢
  simp only [Bool.false_eq_true, if_false] at h ⊢
  rw [List.dropWhile_cons, if_pos hbefore]
  exact h

theorem IStream.readString_key (key : String) (space : Char) (rest : List Char)
    (str : String) (hword : isWord key.toList = true) (hspace : isSpace space = true) :
    IStream.readString { text := key.toList ++ space :: rest } str =
      ({ text := space :: rest }, key) :=
  IStream.readString_word key.toList space rest str hword hspace

theorem IStream.readString_space_key (before : Char) (key : String) (space : Char)
    (rest : List Char) (str : String) (hbefore : isSpace before = true)
    (hword : isWord key.toList = true) (hspace : isSpace space = true) :
    IStream.readString { text := before :: (key.toList ++ space :: rest) } str =
      ({ text := space :: rest }, key) :=
  IStream.readString_space_word before key.toList space rest str hbefore hword hspace

theorem ResearchConfig.savesByName_spec {cfg : ResearchConfig} {type : ResearchType}
    (h : cfg.savesByName type = true) :
    type < cfg.countResearch ∧ type ≠ cfg.nullResearchType ∧
    isWord (cfg.researchTypeToString type).toList = true ∧
    cfg.researchTypeToString type ≠ "[/ResearchDone]" ∧
    cfg.researchTypeToString type ≠ "[/ResearchNotAllowed]" ∧
    cfg.researchTypeToString type ≠ "[/ResearchPending]" ∧
    ∀ i ∈ List.range cfg.countResearch, i ≠ cfg.nullResearchType →
      cfg.researchTypeToString i = cfg.researchTypeToString type → i = type := by
  unfold ResearchConfig.savesByName at h
  simp only [Bool.and_eq_true, decide_eq_true_eq, bne_iff_ne, ne_eq, List.all_eq_true,
    Bool.or_eq_true, beq_iff_eq] at h
  obtain ⟨⟨⟨⟨⟨⟨h1, h2⟩, h3⟩, h4⟩, h5⟩, h6⟩, h7⟩ := h
  refine ⟨h1, h2, h3, h4, h5, h6, ?_⟩
  intro i hi hnull hname
  rcases h7 i hi with (h | h) | h
  · exact absurd h hnull
  · exact absurd hname h
  · exact h

theorem Seat.importResearchDoneFor_named (cfg : ResearchConfig) (type : ResearchType)
    (ordinals : List Nat) (researchDone : List ResearchType) (hmem : type ∈ ordinals)
    (hnull : type ≠ cfg.nullResearchType)
    (hname : ∀ i ∈ ordinals, i ≠ cfg.nullResearchType →
      cfg.researchTypeToString i = cfg.researchTypeToString type → i = type)
    (hfresh : type ∉ researchDone) :
    Seat.importResearchDoneFor cfg (cfg.researchTypeToString type) ordinals researchDone =
      researchDone ++ [type] := by
  induction ordinals with
  | nil => simp at hmem
  | cons i rest ih =>
    unfold Seat.importResearchDoneFor
    by_cases hi : i = cfg.nullResearchType
    · have hrest : type ∈ rest := by
        rcases List.mem_cons.1 hmem with h | h
        · exact absurd (h ▸ hi) hnull
        · exact h
      simp only [hi, beq_self_eq_true, if_true]
      exact ih hrest fun j hj => hname j (List.mem_cons_of_mem _ hj)
    · by_cases hn : cfg.researchTypeToString i = cfg.researchTypeToString type
      · have hit : i = type := hname i (List.mem_cons_self _ _) hi hn
        subst hit
        simp [hi, hfresh]
      · have hrest : type ∈ rest := by
          rcases List.mem_cons.1 hmem with h | h
          · exact absurd (h ▸ rfl) hn
          · exact h
        have hn2 : cfg.researchTypeToString type ≠ cfg.researchTypeToString i :=
          fun h => hn h.symm
        simp only [beq_iff_eq, hi, if_false, bne_iff_ne, ne_eq, hn2, not_false_eq_true,
          if_true]
        exact ih hrest fun j hj => hname j (List.mem_cons_of_mem _ hj)

theorem Seat.importResearchNotAllowedFor_named (cfg : ResearchConfig) (type : ResearchType)
    (researchDone : List ResearchType) (ordinals : List Nat)
    (researchNotAllowed : List ResearchType) (hmem : type ∈ ordinals)
    (hnull : type ≠ cfg.nullResearchType)
    (hname : ∀ i ∈ ordinals, i ≠ cfg.nullResearchType →
      cfg.researchTypeToString i = cfg.researchTypeToString type → i = type)
    (hdone : type ∉ researchDone) (hfresh : type ∉ researchNotAllowed) :
    Seat.importResearchNotAllowedFor cfg (cfg.researchTypeToString type) researchDone ordinals
        researchNotAllowed =
      researchNotAllowed ++ [type] := by
  induction ordinals with
  | nil => simp at hmem
  | cons i rest ih =>
    unfold Seat.importResearchNotAllowedFor
    by_cases hi : i = cfg.nullResearchType
    · have hrest : type ∈ rest := by
        rcases List.mem_cons.1 hmem with h | h
        · exact absurd (h ▸ hi) hnull
        · exact h
      simp only [hi, beq_self_eq_true, if_true]
      exact ih hrest fun j hj => hname j (List.mem_cons_of_mem _ hj)
    · by_cases hn : cfg.researchTypeToString i = cfg.researchTypeToString type
      · have hit : i = type := hname i (List.mem_cons_self _ _) hi hn
        subst hit
        simp [hi, hfresh, hdone]
      · have hrest : type ∈ rest := by
          rcases List.mem_cons.1 hmem with h | h
          · exact absurd (h ▸ rfl) hn
          · exact h
        have hn2 : cfg.researchTypeToString type ≠ cfg.researchTypeToString i :=
          fun h => hn h.symm
        simp only [beq_iff_eq, hi, if_false, bne_iff_ne, ne_eq, hn2, not_false_eq_true,
          if_true]
        exact ih hrest fun j hj => hname j (List.mem_cons_of_mem _ hj)

theorem Seat.importResearchPendingFor_present (cfg : ResearchConfig) (type : ResearchType)
    (researchDone researchNotAllowed : List ResearchType) (ordinals : List Nat)
    (researchPending : List ResearchType)
    (hname : ∀ i ∈ ordinals, i ≠ cfg.nullResearchType →
      cfg.researchTypeToString i = cfg.researchTypeToString type → i = type)
    (hpresent : type ∈ researchPending) :
    Seat.importResearchPendingFor cfg (cfg.researchTypeToString type) researchDone
        researchNotAllowed ordinals researchPending =
      researchPending := by
  induction ordinals with
  | nil => rfl
  | cons i rest ih =>
    unfold Seat.importResearchPendingFor
    have ih := ih fun j hj => hname j (List.mem_cons_of_mem _ hj)
    by_cases hi : i = cfg.nullResearchType
    · simp only [hi, beq_self_eq_true, if_true]
      exact ih
    · by_cases hn : cfg.researchTypeToString i = cfg.researchTypeToString type
      · have hit : i = type := hname i (List.mem_cons_self _ _) hi hn
        subst hit
        simp [hi, hpresent]
      · have hn2 : cfg.researchTypeToString type ≠ cfg.researchTypeToString i :=
          fun h => hn h.symm
        simp only [beq_iff_eq, hi, if_false, bne_iff_ne, ne_eq, hn2, not_false_eq_true,
          if_true]
        exact ih

theorem Seat.importResearchPendingFor_named (cfg : ResearchConfig) (type : ResearchType)
    (researchDone researchNotAllowed : List ResearchType) (ordinals : List Nat)
    (researchPending : List ResearchType) (hmem : type ∈ ordinals)
    (hnull : type ≠ cfg.nullResearchType)
    (hname : ∀ i ∈ ordinals, i ≠ cfg.nullResearchType →
      cfg.researchTypeToString i = cfg.researchTypeToString type → i = type)
    (hdone : type ∉ researchDone) (hnotAllowed : type ∉ researchNotAllowed)
    (hfresh : type ∉ researchPending) :
    Seat.importResearchPendingFor cfg (cfg.researchTypeToString type) researchDone
        researchNotAllowed ordinals researchPending =
      researchPending ++ [type] := by
  induction ordinals with
  | nil => simp at hmem
  | cons i rest ih =>
    unfold Seat.importResearchPendingFor
    by_cases hi : i = cfg.nullResearchType
    · have hrest : type ∈ rest := by
        rcases List.mem_cons.1 hmem with h | h
        · exact absurd (h ▸ hi) hnull
        · exact h
      simp only [hi, beq_self_eq_true, if_true]
      exact ih hrest fun j hj => hname j (List.mem_cons_of_mem _ hj)
    · by_cases hn : cfg.researchTypeToString i = cfg.researchTypeToString type
      · have hit : i = type := hname i (List.mem_cons_self _ _) hi hn
        subst hit
        simp only [beq_iff_eq, hi, if_false, bne_self_eq_false, Bool.false_eq_true, hdone,
          hnotAllowed, hfresh]
        exact Seat.importResearchPendingFor_present cfg i researchDone researchNotAllowed rest
          _ (fun j hj => hname j (List.mem_cons_of_mem _ hj)) (by simp)
      · have hrest : type ∈ rest := by
          rcases List.mem_cons.1 hmem with h | h
          · exact absurd (h ▸ rfl) hn
          · exact h
        have hn2 : cfg.researchTypeToString type ≠ cfg.researchTypeToString i :=
          fun h => hn h.symm
        simp only [beq_iff_eq, hi, if_false, bne_iff_ne, ne_eq, hn2, not_false_eq_true,
          if_true]
        exact ih hrest fun j hj => hname j (List.mem_cons_of_mem _ hj)


theorem Seat.exportTeamIds_eq (lib : StreamLibrary) (teamIds : List Int) (cpt : Nat)
    (os : List Char) :
    Seat.exportTeamIds lib teamIds cpt os = os ++ Seat.exportTeamIds lib teamIds cpt [] := by
  induction teamIds generalizing cpt os with
  | nil => simp [Seat.exportTeamIds]
  | cons teamId rest ih =>
    unfold Seat.exportTeamIds
    simp only []
    rw [ih (cpt + 1) ((if cpt > 0 then os ++ [slashChar] else os) ++ lib.writeInt teamId),
      ih (cpt + 1) ((if cpt > 0 then [] ++ [slashChar] else []) ++ lib.writeInt teamId)]
    by_cases hcpt : cpt > 0
    · simp [hcpt]
    · simp [hcpt]

theorem researchText_append (cfg : ResearchConfig) (types : List ResearchType)
    (rest more : List Char) :
    researchText cfg types rest ++ more = researchText cfg types (rest ++ more) := by
  induction types with
  | nil => simp [researchText]
  | cons type others ih =>
    simp only [researchText, List.append_assoc, List.cons_append, ih]

theorem Seat.exportResearches_append (cfg : ResearchConfig) (types : List ResearchType)
    (os rest : List Char) :
    Seat.exportResearches cfg types os ++ rest = os ++ researchText cfg types rest := by
  induction types generalizing os with
  | nil => simp [Seat.exportResearches, researchText]
  | cons type more ih =>
    unfold Seat.exportResearches
    rw [ih]
    simp only [researchText, List.append_assoc, List.singleton_append]

set_option maxRecDepth 4000 in
theorem Seat.exportSeatToStream_eq (lib : StreamLibrary) (cfg : ResearchConfig) (s : Seat)
    (os : List Char) :
    Seat.exportSeatToStream lib cfg s os = (true, os ++ seatText lib cfg s) := by
  have hteam : ∀ before : List Char,
      (if (s.mTeamId != -1) = true then before ++ lib.writeInt s.mTeamId
        else Seat.exportTeamIds lib s.mAvailableTeamIds 0 before) =
        before ++ Seat.teamText lib s := by
    intro before
    unfold Seat.teamText
    by_cases h : (s.mTeamId != -1) = true
    · rw [if_pos h, if_pos h]
    · rw [if_neg h, if_neg h, Seat.exportTeamIds_eq]
  have hplayer : ∀ before : List Char,
      (if (s.mGameMap.isInEditorMode || s.mPlayer.isNone) = true then
          before ++ "player".toList ++ [tabChar] ++ s.mPlayerType.toList ++ [endlChar]
        else
          before ++ "player".toList ++ [tabChar] ++
            (if s.mPlayer.any (fun player => player.mIsHuman) = true then "Human".toList
              else "AI".toList) ++ [endlChar]) =
        before ++ "player".toList ++ [tabChar] ++ Seat.playerText s ++ [endlChar] := by
    intro before
    unfold Seat.playerText
    by_cases h : (s.mGameMap.isInEditorMode || s.mPlayer.isNone) = true
    · rw [if_pos h, if_pos h]
    · rw [if_neg h, if_neg h]
  unfold Seat.exportSeatToStream seatText seatHeaderText researchSectionsText
  simp only [hteam, hplayer]
  simp only [Seat.exportResearches_append, researchText_append, List.append_assoc,
    List.singleton_append, List.cons_append, List.nil_append]

theorem Seat.importResearchDoneLoop_text (cfg : ResearchConfig) (types : List ResearchType) :
    ∀ (fuel : Nat) (researchDone : List ResearchType) (rest : List Char) (str : String),
      types.length < fuel → (∀ type ∈ types, cfg.savesByName type = true) → types.Nodup →
      (∀ type ∈ types, type ∉ researchDone) →
      Seat.importResearchDoneLoop cfg fuel
          { text := endlChar ::
              researchText cfg types ("[/ResearchDone]".toList ++ endlChar :: rest) }
          str researchDone =
        some ({ text := endlChar :: rest }, "[/ResearchDone]", researchDone ++ types) := by
  induction types with
  | nil =>
    intro fuel researchDone rest str hfuel _ _ _
    cases fuel with
    | zero => simp at hfuel
    | succ fuel =>
      unfold Seat.importResearchDoneLoop
      simp only [researchText]
      rw [IStream.readString_space_key endlChar "[/ResearchDone]" endlChar rest str rfl rfl rfl]
      simp
  | cons type more ih =>
    intro fuel researchDone rest str hfuel hnamed hnodup hfresh
    cases fuel with
    | zero => simp at hfuel
    | succ fuel =>
      obtain ⟨hlt, hnull, hword, hne, _, _, hname⟩ :=
        ResearchConfig.savesByName_spec (hnamed type (List.mem_cons_self _ _))
      unfold Seat.importResearchDoneLoop
      simp only [researchText]
      rw [IStream.readString_space_key endlChar (cfg.researchTypeToString type) endlChar _ str
        rfl hword rfl]
      simp only [beq_iff_eq, hne, if_false]
      rw [Seat.importResearchDoneFor_named cfg type _ researchDone (List.mem_range.2 hlt) hnull
        hname (hfresh type (List.mem_cons_self _ _))]
      rw [ih fuel (researchDone ++ [type]) rest _ (by simpa using hfuel)
        (fun t ht => hnamed t (List.mem_cons_of_mem _ ht)) (List.nodup_cons.1 hnodup).2]
      · simp
      · intro t ht hmem
        rcases List.mem_append.1 hmem with h | h
        · exact hfresh t (List.mem_cons_of_mem _ ht) h
        · have : t = type := by simpa using h
          exact (List.nodup_cons.1 hnodup).1 (this ▸ ht)

theorem Seat.importResearchNotAllowedLoop_text (cfg : ResearchConfig)
    (researchDone : List ResearchType) (types : List ResearchType) :
    ∀ (fuel : Nat) (researchNotAllowed : List ResearchType) (rest : List Char) (str : String),
      types.length < fuel → (∀ type ∈ types, cfg.savesByName type = true) → types.Nodup →
      (∀ type ∈ types, type ∉ researchDone) →
      (∀ type ∈ types, type ∉ researchNotAllowed) →
      Seat.importResearchNotAllowedLoop cfg researchDone fuel
          { text := endlChar ::
              researchText cfg types ("[/ResearchNotAllowed]".toList ++ endlChar :: rest) }
          str researchNotAllowed =
        some ({ text := endlChar :: rest }, "[/ResearchNotAllowed]",
          researchNotAllowed ++ types) := by
  induction types with
  | nil =>
    intro fuel researchNotAllowed rest str hfuel _ _ _ _
    cases fuel with
    | zero => simp at hfuel
    | succ fuel =>
      unfold Seat.importResearchNotAllowedLoop
      simp only [researchText]
      rw [IStream.readString_space_key endlChar "[/ResearchNotAllowed]" endlChar rest str rfl
        rfl rfl]
      simp
  | cons type more ih =>
    intro fuel researchNotAllowed rest str hfuel hnamed hnodup hdone hfresh
    cases fuel with
    | zero => simp at hfuel
    | succ fuel =>
      obtain ⟨hlt, hnull, hword, _, hne, _, hname⟩ :=
        ResearchConfig.savesByName_spec (hnamed type (List.mem_cons_self _ _))
      unfold Seat.importResearchNotAllowedLoop
      simp only [researchText]
      rw [IStream.readString_space_key endlChar (cfg.researchTypeToString type) endlChar _ str
        rfl hword rfl]
      simp only [beq_iff_eq, hne, if_false]
      rw [Seat.importResearchNotAllowedFor_named cfg type researchDone _ researchNotAllowed
        (List.mem_range.2 hlt) hnull hname (hdone type (List.mem_cons_self _ _))
        (hfresh type (List.mem_cons_self _ _))]
      rw [ih fuel (researchNotAllowed ++ [type]) rest _ (by simpa using hfuel)
        (fun t ht => hnamed t (List.mem_cons_of_mem _ ht)) (List.nodup_cons.1 hnodup).2
        (fun t ht => hdone t (List.mem_cons_of_mem _ ht))]
      · simp
      · intro t ht hmem
        rcases List.mem_append.1 hmem with h | h
        · exact hfresh t (List.mem_cons_of_mem _ ht) h
        · have : t = type := by simpa using h
          exact (List.nodup_cons.1 hnodup).1 (this ▸ ht)

theorem Seat.importResearchPendingLoop_text (cfg : ResearchConfig)
    (researchDone researchNotAllowed : List ResearchType) (types : List ResearchType) :
    ∀ (fuel : Nat) (researchPending : List ResearchType) (rest : List Char) (str : String),
      types.length < fuel → (∀ type ∈ types, cfg.savesByName type = true) → types.Nodup →
      (∀ type ∈ types, type ∉ researchDone) →
      (∀ type ∈ types, type ∉ researchNotAllowed) →
      (∀ type ∈ types, type ∉ researchPending) →
      Seat.importResearchPendingLoop cfg researchDone researchNotAllowed fuel
          { text := endlChar ::
              researchText cfg types ("[/ResearchPending]".toList ++ endlChar :: rest) }
          str researchPending =
        some ({ text := endlChar :: rest }, "[/ResearchPending]",
          researchPending ++ types) := by
  induction types with
  | nil =>
    intro fuel researchPending rest str hfuel _ _ _ _ _
    cases fuel with
    | zero => simp at hfuel
    | succ fuel =>
      unfold Seat.importResearchPendingLoop
      simp only [researchText]
      rw [IStream.readString_space_key endlChar "[/ResearchPending]" endlChar rest str rfl
        rfl rfl]
      simp
  | cons type more ih =>
    intro fuel researchPending rest str hfuel hnamed hnodup hdone hnotAllowed hfresh
    cases fuel with
    | zero => simp at hfuel
    | succ fuel =>
      obtain ⟨hlt, hnull, hword, _, _, hne, hname⟩ :=
        ResearchConfig.savesByName_spec (hnamed type (List.mem_cons_self _ _))
      unfold Seat.importResearchPendingLoop
      simp only [researchText]
      rw [IStream.readString_space_key endlChar (cfg.researchTypeToString type) endlChar _ str
        rfl hword rfl]
      simp only [beq_iff_eq, hne, if_false]
      rw [Seat.importResearchPendingFor_named cfg type researchDone researchNotAllowed _
        researchPending (List.mem_range.2 hlt) hnull hname
        (hdone type (List.mem_cons_self _ _)) (hnotAllowed type (List.mem_cons_self _ _))
        (hfresh type (List.mem_cons_self _ _))]
      rw [ih fuel (researchPending ++ [type]) rest _ (by simpa using hfuel)
        (fun t ht => hnamed t (List.mem_cons_of_mem _ ht)) (List.nodup_cons.1 hnodup).2
        (fun t ht => hdone t (List.mem_cons_of_mem _ ht))
        (fun t ht => hnotAllowed t (List.mem_cons_of_mem _ ht))]
      · simp
      · intro t ht hmem
        rcases List.mem_append.1 hmem with h | h
        · exact hfresh t (List.mem_cons_of_mem _ ht) h
        · have : t = type := by simpa using h
          exact (List.nodup_cons.1 hnodup).1 (this ▸ ht)


theorem Seat.importResearchSections_text (cfg : ResearchConfig) (fuel : Nat) (s target : Seat)
    (rest : List Char) (str : String)
    (hdoneFuel : s.mResearchDone.length < fuel)
    (hnotAllowedFuel : s.mResearchNotAllowed.length < fuel)
    (hpendingFuel : s.mResearchPending.length < fuel)
    (hdoneNamed : ∀ type ∈ s.mResearchDone, cfg.savesByName type = true)
    (hnotAllowedNamed : ∀ type ∈ s.mResearchNotAllowed, cfg.savesByName type = true)
    (hpendingNamed : ∀ type ∈ s.mResearchPending, cfg.savesByName type = true)
    (hdoneNodup : s.mResearchDone.Nodup) (hnotAllowedNodup : s.mResearchNotAllowed.Nodup)
    (hpendingNodup : s.mResearchPending.Nodup)
    (hdn : ∀ type ∈ s.mResearchNotAllowed, type ∉ s.mResearchDone)
    (hdp : ∀ type ∈ s.mResearchPending, type ∉ s.mResearchDone)
    (hnp : ∀ type ∈ s.mResearchPending, type ∉ s.mResearchNotAllowed)
    (htargetDone : target.mResearchDone = [])
    (htargetNotAllowed : target.mResearchNotAllowed = [])
    (htargetPending : target.mResearchPending = []) :
    Seat.importResearchSections cfg fuel target
        { text := endlChar :: researchSectionsText cfg s rest } str =
      some (true,
        { target with
          mResearchDone := s.mResearchDone
          mResearchNotAllowed := s.mResearchNotAllowed
          mResearchPending := s.mResearchPending },
        { text := endlChar :: rest }) := by
  unfold Seat.importResearchSections researchSectionsText
  rw [IStream.readString_space_key endlChar "[ResearchDone]" endlChar _ str rfl rfl rfl]
  simp only [bne_self_eq_false, Bool.false_eq_true, if_false]
  rw [Seat.importResearchDoneLoop_text cfg s.mResearchDone fuel target.mResearchDone _ _
    hdoneFuel hdoneNamed hdoneNodup (by simp [htargetDone])]
  simp only []
  rw [IStream.readString_space_key endlChar "[ResearchNotAllowed]" endlChar _ _ rfl rfl rfl]
  simp only [bne_self_eq_false, Bool.false_eq_true, if_false]
  rw [Seat.importResearchNotAllowedLoop_text cfg (target.mResearchDone ++ s.mResearchDone)
    s.mResearchNotAllowed fuel target.mResearchNotAllowed _ _ hnotAllowedFuel hnotAllowedNamed
    hnotAllowedNodup (by simpa [htargetDone] using hdn) (by simp [htargetNotAllowed])]
  simp only []
  rw [IStream.readString_space_key endlChar "[ResearchPending]" endlChar _ _ rfl rfl rfl]
  simp only [bne_self_eq_false, Bool.false_eq_true, if_false]
  rw [Seat.importResearchPendingLoop_text cfg (target.mResearchDone ++ s.mResearchDone)
    (target.mResearchNotAllowed ++ s.mResearchNotAllowed) s.mResearchPending fuel
    target.mResearchPending _ _ hpendingFuel hpendingNamed hpendingNodup
    (by simpa [htargetDone] using hdp) (by simpa [htargetNotAllowed] using hnp)
    (by simp [htargetPending])]
  simp only [htargetDone, htargetNotAllowed, htargetPending, List.nil_append]


theorem Seat.importSeatFromStream_header (lib : StreamLibrary) (cfg : ResearchConfig)
    (fuel : Nat) (s target : Seat) (rest : List Char)
    (hid : s.mId ≠ 0) (hidText : lib.intRoundTrips s.mId)
    (hteam : isWord (Seat.teamText lib s) = true)
    (hplayer : isWord (Seat.playerText s) = true)
    (hfaction : isWord s.mFaction.toList = true)
    (hx : lib.intRoundTrips s.mStartingX) (hy : lib.intRoundTrips s.mStartingY)
    (hcolor : isWord s.mColorId.toList = true)
    (hgold : lib.intRoundTrips s.mGold) (hgoldMined : lib.intRoundTrips s.mGoldMined)
    (hmana : lib.doubleRoundTrips s.mMana) :
    Seat.importSeatFromStream lib cfg fuel target { text := seatHeaderText lib s rest } =
      Seat.importResearchSections cfg fuel
        { target with
          mId := s.mId
          mAvailableTeamIds :=
            Seat.importTeamIds lib (lib.split (String.mk (Seat.teamText lib s)) slashChar)
              target.mAvailableTeamIds
          mPlayerType := String.mk (Seat.playerText s)
          mFaction := s.mFaction
          mStartingX := s.mStartingX
          mStartingY := s.mStartingY
          mColorId := s.mColorId
          mGold := s.mGold
          mGoldMined := s.mGoldMined
          mMana := s.mMana }
        { text := endlChar :: rest } "mana" := by
  have hzero : (s.mId == 0) = false := by simpa using hid
  unfold Seat.importSeatFromStream seatHeaderText
  rw [IStream.readString_key "seatId" tabChar _ "" rfl rfl]
  simp only [bne_self_eq_false, Bool.false_eq_true, if_false]
  rw [hidText _ _]
  simp only [hzero, Bool.false_eq_true, if_false]
  rw [IStream.readString_space_key endlChar "teamId" tabChar _ _ rfl rfl rfl]
  simp only [bne_self_eq_false, Bool.false_eq_true, if_false]
  rw [IStream.readString_space_word tabChar (Seat.teamText lib s) endlChar _ _ rfl hteam rfl]
  simp only []
  rw [IStream.readString_space_key endlChar "player" tabChar _ _ rfl rfl rfl]
  simp only [bne_self_eq_false, Bool.false_eq_true, if_false]
  rw [IStream.readString_space_word tabChar (Seat.playerText s) endlChar _ _ rfl hplayer rfl]
  simp only []
  rw [IStream.readString_space_key endlChar "faction" tabChar _ _ rfl rfl rfl]
  simp only [bne_self_eq_false, Bool.false_eq_true, if_false]
  rw [IStream.readString_space_key tabChar s.mFaction endlChar _ _ rfl hfaction rfl]
  simp only []
  rw [IStream.readString_space_key endlChar "startingX" tabChar _ _ rfl rfl rfl]
  simp only [bne_self_eq_false, Bool.false_eq_true, if_false]
  rw [hx _ _]
  simp only []
  rw [IStream.readString_space_key endlChar "startingY" tabChar _ _ rfl rfl rfl]
  simp only [bne_self_eq_false, Bool.false_eq_true, if_false]
  rw [hy _ _]
  simp only []
  rw [IStream.readString_space_key endlChar "colorId" tabChar _ _ rfl rfl rfl]
  simp only [bne_self_eq_false, Bool.false_eq_true, if_false]
  rw [IStream.readString_space_key tabChar s.mColorId endlChar _ _ rfl hcolor rfl]
  simp only []
  rw [IStream.readString_space_key endlChar "gold" tabChar _ _ rfl rfl rfl]
  simp only [bne_self_eq_false, Bool.false_eq_true, if_false]
  rw [hgold _ _]
  simp only []
  rw [IStream.readString_space_key endlChar "goldMined" tabChar _ _ rfl rfl rfl]
  simp only [bne_self_eq_false, Bool.false_eq_true, if_false]
  rw [hgoldMined _ _]
  simp only []
  rw [IStream.readString_space_key endlChar "mana" tabChar _ _ rfl rfl rfl]
  simp only [bne_self_eq_false, Bool.false_eq_true, if_false]
  rw [hmana _ _]

theorem Seat.importSeatFromStream_seatText (lib : StreamLibrary) (cfg : ResearchConfig)
    (fuel : Nat) (s target : Seat)
    (hid : s.mId ≠ 0) (hidText : lib.intRoundTrips s.mId)
    (hteam : isWord (Seat.teamText lib s) = true)
    (hplayer : isWord (Seat.playerText s) = true)
    (hfaction : isWord s.mFaction.toList = true)
    (hx : lib.intRoundTrips s.mStartingX) (hy : lib.intRoundTrips s.mStartingY)
    (hcolor : isWord s.mColorId.toList = true)
    (hgold : lib.intRoundTrips s.mGold) (hgoldMined : lib.intRoundTrips s.mGoldMined)
    (hmana : lib.doubleRoundTrips s.mMana)
    (hdoneFuel : s.mResearchDone.length < fuel)
    (hnotAllowedFuel : s.mResearchNotAllowed.length < fuel)
    (hpendingFuel : s.mResearchPending.length < fuel)
    (hdoneNamed : ∀ type ∈ s.mResearchDone, cfg.savesByName type = true)
    (hnotAllowedNamed : ∀ type ∈ s.mResearchNotAllowed, cfg.savesByName type = true)
    (hpendingNamed : ∀ type ∈ s.mResearchPending, cfg.savesByName type = true)
    (hdoneNodup : s.mResearchDone.Nodup) (hnotAllowedNodup : s.mResearchNotAllowed.Nodup)
    (hpendingNodup : s.mResearchPending.Nodup)
    (hdn : ∀ type ∈ s.mResearchNotAllowed, type ∉ s.mResearchDone)
    (hdp : ∀ type ∈ s.mResearchPending, type ∉ s.mResearchDone)
    (hnp : ∀ type ∈ s.mResearchPending, type ∉ s.mResearchNotAllowed)
    (htargetDone : target.mResearchDone = [])
    (htargetNotAllowed : target.mResearchNotAllowed = [])
    (htargetPending : target.mResearchPending = []) :
    Seat.importSeatFromStream lib cfg fuel target { text := seatText lib cfg s } =
      some (true,
        { target with
          mId := s.mId
          mAvailableTeamIds :=
            Seat.importTeamIds lib (lib.split (String.mk (Seat.teamText lib s)) slashChar)
              target.mAvailableTeamIds
          mPlayerType := String.mk (Seat.playerText s)
          mFaction := s.mFaction
          mStartingX := s.mStartingX
          mStartingY := s.mStartingY
          mColorId := s.mColorId
          mGold := s.mGold
          mGoldMined := s.mGoldMined
          mMana := s.mMana
          mResearchDone := s.mResearchDone
          mResearchNotAllowed := s.mResearchNotAllowed
          mResearchPending := s.mResearchPending },
        { text := [endlChar] }) := by
  unfold seatText
  rw [Seat.importSeatFromStream_header lib cfg fuel s target _ hid hidText hteam hplayer
    hfaction hx hy hcolor hgold hgoldMined hmana]
  rw [Seat.importResearchSections_text cfg fuel s _ [] _ hdoneFuel hnotAllowedFuel hpendingFuel
    hdoneNamed hnotAllowedNamed hpendingNamed hdoneNodup hnotAllowedNodup hpendingNodup hdn hdp
    hnp]
  · exact htargetDone
  · exact htargetNotAllowed
  · exact htargetPending


theorem Seat.readFromPacket_writeToPacket (s target : Seat) (rest : List PacketField)
    (hcount : s.mAvailableTeamIds.length < 4294967296) :
    Seat.readFromPacket { fields := (Seat.writeToPacket { fields := [] } s).fields ++ rest }
        target =
      some ({ fields := rest },
        { target with
          mId := s.mId
          mTeamId := s.mTeamId
          mPlayerType := s.mPlayerType
          mFaction := s.mFaction
          mStartingX := s.mStartingX
          mStartingY := s.mStartingY
          mColorId := s.mColorId
          mGold := s.mGold
          mMana := s.mMana
          mManaDelta := s.mManaDelta
          mNumClaimedTiles := s.mNumClaimedTiles
          mHasGoalsChanged := s.mHasGoalsChanged
          mNbTreasuries := s.mNbTreasuries
          mAvailableTeamIds := target.mAvailableTeamIds ++ s.mAvailableTeamIds }) := by
  rw [Seat.writeToPacket_fields, Nat.mod_eq_of_lt hcount]
  simp only [List.nil_append, List.cons_append]
  rw [Seat.readFromPacket_fields, Seat.readTeamIds_map]


theorem IStream.readString_exhausted (is : IStream) (str : String)
    (h : is.failed = true ∨ is.text.dropWhile isSpace = []) :
    (is.readString str).2 = str ∧ (is.readString str).1.failed = true := by
  unfold IStream.readString
  by_cases hfailed : is.failed = true
  · simp [hfailed]
  · rcases h with h | h
    · exact absurd h hfailed
    · simp [hfailed, h]

theorem Seat.importResearchDoneLoop_exhausted (cfg : ResearchConfig) (fuel : Nat) :
    ∀ (is : IStream) (str : String) (researchDone : List ResearchType),
      is.failed = true ∨ is.text.dropWhile isSpace = [] → str ≠ "[/ResearchDone]" →
      Seat.importResearchDoneLoop cfg fuel is str researchDone = none := by
  induction fuel with
  | zero => intro is str researchDone _ _; rfl
  | succ fuel ih =>
    intro is str researchDone h hstr
    obtain ⟨hsame, hfailed⟩ := IStream.readString_exhausted is str h
    unfold Seat.importResearchDoneLoop
    simp only [hsame, beq_iff_eq, hstr, if_false]
    exact ih _ str _ (Or.inl hfailed) hstr

theorem Seat.importResearchNotAllowedLoop_exhausted (cfg : ResearchConfig)
    (researchDone : List ResearchType) (fuel : Nat) :
    ∀ (is : IStream) (str : String) (researchNotAllowed : List ResearchType),
      is.failed = true ∨ is.text.dropWhile isSpace = [] → str ≠ "[/ResearchNotAllowed]" →
      Seat.importResearchNotAllowedLoop cfg researchDone fuel is str researchNotAllowed =
        none := by
  induction fuel with
  | zero => intro is str researchNotAllowed _ _; rfl
  | succ fuel ih =>
    intro is str researchNotAllowed h hstr
    obtain ⟨hsame, hfailed⟩ := IStream.readString_exhausted is str h
    unfold Seat.importResearchNotAllowedLoop
    simp only [hsame, beq_iff_eq, hstr, if_false]
    exact ih _ str _ (Or.inl hfailed) hstr

theorem Seat.importResearchPendingLoop_exhausted (cfg : ResearchConfig)
    (researchDone researchNotAllowed : List ResearchType) (fuel : Nat) :
    ∀ (is : IStream) (str : String) (researchPending : List ResearchType),
      is.failed = true ∨ is.text.dropWhile isSpace = [] → str ≠ "[/ResearchPending]" →
      Seat.importResearchPendingLoop cfg researchDone researchNotAllowed fuel is str
        researchPending = none := by
  induction fuel with
  | zero => intro is str researchPending _ _; rfl
  | succ fuel ih =>
    intro is str researchPending h hstr
    obtain ⟨hsame, hfailed⟩ := IStream.readString_exhausted is str h
    unfold Seat.importResearchPendingLoop
    simp only [hsame, beq_iff_eq, hstr, if_false]
    exact ih _ str _ (Or.inl hfailed) hstr

theorem Seat.importResearchSections_endsInDone (cfg : ResearchConfig) (fuel : Nat)
    (target : Seat) (str : String) :
    Seat.importResearchSections cfg fuel target
        { text := endlChar :: ("[ResearchDone]".toList ++ [endlChar]) } str = none := by
  unfold Seat.importResearchSections
  rw [IStream.readString_space_key endlChar "[ResearchDone]" endlChar [] str rfl rfl rfl]
  simp only [bne_self_eq_false, Bool.false_eq_true, if_false]
  rw [Seat.importResearchDoneLoop_exhausted cfg fuel { text := [endlChar] } _ _ (Or.inr rfl)
    (by decide)]

theorem Seat.importResearchSections_endsInNotAllowed (cfg : ResearchConfig) (fuel : Nat)
    (target : Seat) (str : String) (types : List ResearchType)
    (hfuel : types.length < fuel) (hnamed : ∀ type ∈ types, cfg.savesByName type = true)
    (hnodup : types.Nodup) (hfresh : ∀ type ∈ types, type ∉ target.mResearchDone) :
    Seat.importResearchSections cfg fuel target
        { text := endlChar :: ("[ResearchDone]".toList ++ endlChar ::
            researchText cfg types ("[/ResearchDone]".toList ++ endlChar ::
              ("[ResearchNotAllowed]".toList ++ [endlChar]))) } str = none := by
  unfold Seat.importResearchSections
  rw [IStream.readString_space_key endlChar "[ResearchDone]" endlChar _ str rfl rfl rfl]
  simp only [bne_self_eq_false, Bool.false_eq_true, if_false]
  rw [Seat.importResearchDoneLoop_text cfg types fuel target.mResearchDone _ _ hfuel hnamed
    hnodup hfresh]
  simp only []
  rw [IStream.readString_space_key endlChar "[ResearchNotAllowed]" endlChar [] _ rfl rfl rfl]
  simp only [bne_self_eq_false, Bool.false_eq_true, if_false]
  rw [Seat.importResearchNotAllowedLoop_exhausted cfg _ fuel { text := [endlChar] } _ _
    (Or.inr rfl) (by decide)]

theorem Seat.importResearchSections_endsInPending (cfg : ResearchConfig) (fuel : Nat)
    (target : Seat) (str : String) (done notAllowed : List ResearchType)
    (hdoneFuel : done.length < fuel) (hnotAllowedFuel : notAllowed.length < fuel)
    (hdoneNamed : ∀ type ∈ done, cfg.savesByName type = true)
    (hnotAllowedNamed : ∀ type ∈ notAllowed, cfg.savesByName type = true)
    (hdoneNodup : done.Nodup) (hnotAllowedNodup : notAllowed.Nodup)
    (hdn : ∀ type ∈ notAllowed, type ∉ done)
    (htargetDone : target.mResearchDone = [])
    (htargetNotAllowed : target.mResearchNotAllowed = []) :
    Seat.importResearchSections cfg fuel target
        { text := endlChar :: ("[ResearchDone]".toList ++ endlChar ::
            researchText cfg done ("[/ResearchDone]".toList ++ endlChar ::
              ("[ResearchNotAllowed]".toList ++ endlChar ::
                researchText cfg notAllowed ("[/ResearchNotAllowed]".toList ++ endlChar ::
                  ("[ResearchPending]".toList ++ [endlChar]))))) } str = none := by
  unfold Seat.importResearchSections
  rw [IStream.readString_space_key endlChar "[ResearchDone]" endlChar _ str rfl rfl rfl]
  simp only [bne_self_eq_false, Bool.false_eq_true, if_false]
  rw [Seat.importResearchDoneLoop_text cfg done fuel target.mResearchDone _ _ hdoneFuel
    hdoneNamed hdoneNodup (by simp [htargetDone])]
  simp only []
  rw [IStream.readString_space_key endlChar "[ResearchNotAllowed]" endlChar _ _ rfl rfl rfl]
  simp only [bne_self_eq_false, Bool.false_eq_true, if_false]
  rw [Seat.importResearchNotAllowedLoop_text cfg (target.mResearchDone ++ done) notAllowed fuel
    target.mResearchNotAllowed _ _ hnotAllowedFuel hnotAllowedNamed hnotAllowedNodup
    (by simpa [htargetDone] using hdn) (by simp [htargetNotAllowed])]
  simp only []
  rw [IStream.readString_space_key endlChar "[ResearchPending]" endlChar [] _ rfl rfl rfl]
  simp only [bne_self_eq_false, Bool.false_eq_true, if_false]
  rw [Seat.importResearchPendingLoop_exhausted cfg _ _ fuel { text := [endlChar] } _ _
    (Or.inr rfl) (by decide)]


theorem seatTextWith_expected (lib : StreamLibrary) (cfg : ResearchConfig) (s : Seat) :
    seatTextWith SeatKeywords.expected lib cfg s = seatText lib cfg s :=
  rfl

theorem Seat.importResearchSections_keys (cfg : ResearchConfig) (fuel : Nat) (s target : Seat)
    (str : String) (researchDone researchNotAllowed researchPending : String)
    (hdoneWord : isWord researchDone.toList = true)
    (hnotAllowedWord : isWord researchNotAllowed.toList = true)
    (hpendingWord : isWord researchPending.toList = true)
    (hdoneFuel : s.mResearchDone.length < fuel)
    (hnotAllowedFuel : s.mResearchNotAllowed.length < fuel)
    (hdoneNamed : ∀ type ∈ s.mResearchDone, cfg.savesByName type = true)
    (hnotAllowedNamed : ∀ type ∈ s.mResearchNotAllowed, cfg.savesByName type = true)
    (hdoneNodup : s.mResearchDone.Nodup) (hnotAllowedNodup : s.mResearchNotAllowed.Nodup)
    (hdn : ∀ type ∈ s.mResearchNotAllowed, type ∉ s.mResearchDone)
    (htargetDone : target.mResearchDone = [])
    (htargetNotAllowed : target.mResearchNotAllowed = [])
    (hother : ¬ (researchDone = "[ResearchDone]" ∧
      researchNotAllowed = "[ResearchNotAllowed]" ∧ researchPending = "[ResearchPending]")) :
    (Seat.importResearchSections cfg fuel target
        { text := endlChar :: (researchDone.toList ++ endlChar ::
            researchText cfg s.mResearchDone
              ("[/ResearchDone]".toList ++ endlChar ::
                (researchNotAllowed.toList ++ endlChar ::
                  researchText cfg s.mResearchNotAllowed
                    ("[/ResearchNotAllowed]".toList ++ endlChar ::
                      (researchPending.toList ++ endlChar ::
                        researchText cfg s.mResearchPending
                          ("[/ResearchPending]".toList ++ [endlChar])))))) } str).map
        (fun result => result.1) = some false := by
  unfold Seat.importResearchSections
  rw [IStream.readString_space_key endlChar researchDone endlChar _ str rfl hdoneWord rfl]
  by_cases h1 : researchDone = "[ResearchDone]"
  swap
  · simp [h1]
  subst h1
  simp only [bne_self_eq_false, Bool.false_eq_true, if_false]
  rw [Seat.importResearchDoneLoop_text cfg s.mResearchDone fuel target.mResearchDone _ _
    hdoneFuel hdoneNamed hdoneNodup (by simp [htargetDone])]
  simp only []
  rw [IStream.readString_space_key endlChar researchNotAllowed endlChar _ _ rfl hnotAllowedWord
    rfl]
  by_cases h2 : researchNotAllowed = "[ResearchNotAllowed]"
  swap
  · simp [h2]
  subst h2
  simp only [bne_self_eq_false, Bool.false_eq_true, if_false]
  rw [Seat.importResearchNotAllowedLoop_text cfg (target.mResearchDone ++ s.mResearchDone)
    s.mResearchNotAllowed fuel target.mResearchNotAllowed _ _ hnotAllowedFuel hnotAllowedNamed
    hnotAllowedNodup (by simpa [htargetDone] using hdn) (by simp [htargetNotAllowed])]
  simp only []
  rw [IStream.readString_space_key endlChar researchPending endlChar _ _ rfl hpendingWord rfl]
  by_cases h3 : researchPending = "[ResearchPending]"
  swap
  · simp [h3]
  exact absurd ⟨rfl, rfl, h3⟩ hother


theorem Seat.importFlag_of_mismatch (key expected : String) (h : key ≠ expected) (seat : Seat)
    (stream : IStream) (rest : Option (Bool × Seat × IStream)) :
    (if (key != expected) = true then some (false, seat, stream) else rest).map
      (fun result => result.1) = some false := by
  simp [h]

theorem Seat.importSeatFromStream_keys (lib : StreamLibrary) (cfg : ResearchConfig)
    (fuel : Nat) (keys : SeatKeywords) (s target : Seat)
    (hwords : keys.areWords = true) (hidText : lib.intRoundTrips s.mId)
    (hteam : isWord (Seat.teamText lib s) = true)
    (hplayer : isWord (Seat.playerText s) = true)
    (hfaction : isWord s.mFaction.toList = true)
    (hx : lib.intRoundTrips s.mStartingX) (hy : lib.intRoundTrips s.mStartingY)
    (hcolor : isWord s.mColorId.toList = true)
    (hgold : lib.intRoundTrips s.mGold) (hgoldMined : lib.intRoundTrips s.mGoldMined)
    (hmana : lib.doubleRoundTrips s.mMana)
    (hdoneFuel : s.mResearchDone.length < fuel)
    (hnotAllowedFuel : s.mResearchNotAllowed.length < fuel)
    (hdoneNamed : ∀ type ∈ s.mResearchDone, cfg.savesByName type = true)
    (hnotAllowedNamed : ∀ type ∈ s.mResearchNotAllowed, cfg.savesByName type = true)
    (hdoneNodup : s.mResearchDone.Nodup) (hnotAllowedNodup : s.mResearchNotAllowed.Nodup)
    (hdn : ∀ type ∈ s.mResearchNotAllowed, type ∉ s.mResearchDone)
    (htargetDone : target.mResearchDone = [])
    (htargetNotAllowed : target.mResearchNotAllowed = [])
    (hother : ¬ (keys = SeatKeywords.expected ∧ s.mId ≠ 0)) :
    (Seat.importSeatFromStream lib cfg fuel target { text := seatTextWith keys lib cfg s }).map
      (fun result => result.1) = some false := by
  obtain ⟨k1, k2, k3, k4, k5, k6, k7, k8, k9, k10, k11, k12, k13⟩ := keys
  simp only [SeatKeywords.areWords, Bool.and_eq_true] at hwords
  obtain ⟨⟨⟨⟨⟨⟨⟨⟨⟨⟨⟨⟨w1, w2⟩, w3⟩, w4⟩, w5⟩, w6⟩, w7⟩, w8⟩, w9⟩, w10⟩, w11⟩, w12⟩, w13⟩ :=
    hwords
  unfold Seat.importSeatFromStream seatTextWith
  simp only []
  rw [IStream.readString_key k1 tabChar _ "" w1 rfl]
  by_cases h1 : k1 = "seatId"
  swap
  · exact Seat.importFlag_of_mismatch _ _ h1 _ _ _
  subst h1
  simp only [bne_self_eq_false, Bool.false_eq_true, if_false]
  rw [hidText _ _]
  by_cases hid : s.mId = 0
  · simp [hid]
  have hzero : (s.mId == 0) = false := by simpa using hid
  simp only [hzero, Bool.false_eq_true, if_false]
  rw [IStream.readString_space_key endlChar k2 tabChar _ _ rfl w2 rfl]
  by_cases h2 : k2 = "teamId"
  swap
  · exact Seat.importFlag_of_mismatch _ _ h2 _ _ _
  subst h2
  simp only [bne_self_eq_false, Bool.false_eq_true, if_false]
  rw [IStream.readString_space_word tabChar (Seat.teamText lib s) endlChar _ _ rfl hteam rfl]
  simp only []
  rw [IStream.readString_space_key endlChar k3 tabChar _ _ rfl w3 rfl]
  by_cases h3 : k3 = "player"
  swap
  · exact Seat.importFlag_of_mismatch _ _ h3 _ _ _
  subst h3
  simp only [bne_self_eq_false, Bool.false_eq_true, if_false]
  rw [IStream.readString_space_word tabChar (Seat.playerText s) endlChar _ _ rfl hplayer rfl]
  simp only []
  rw [IStream.readString_space_key endlChar k4 tabChar _ _ rfl w4 rfl]
  by_cases h4 : k4 = "faction"
  swap
  · exact Seat.importFlag_of_mismatch _ _ h4 _ _ _
  subst h4
  simp only [bne_self_eq_false, Bool.false_eq_true, if_false]
  rw [IStream.readString_space_key tabChar s.mFaction endlChar _ _ rfl hfaction rfl]
  simp only []
  rw [IStream.readString_space_key endlChar k5 tabChar _ _ rfl w5 rfl]
  by_cases h5 : k5 = "startingX"
  swap
  · exact Seat.importFlag_of_mismatch _ _ h5 _ _ _
  subst h5
  simp only [bne_self_eq_false, Bool.false_eq_true, if_false]
  rw [hx _ _]
  simp only []
  rw [IStream.readString_space_key endlChar k6 tabChar _ _ rfl w6 rfl]
  by_cases h6 : k6 = "startingY"
  swap
  · exact Seat.importFlag_of_mismatch _ _ h6 _ _ _
  subst h6
  simp only [bne_self_eq_false, Bool.false_eq_true, if_false]
  rw [hy _ _]
  simp only []
  rw [IStream.readString_space_key endlChar k7 tabChar _ _ rfl w7 rfl]
  by_cases h7 : k7 = "colorId"
  swap
  · exact Seat.importFlag_of_mismatch _ _ h7 _ _ _
  subst h7
  simp only [bne_self_eq_false, Bool.false_eq_true, if_false]
  rw [IStream.readString_space_key tabChar s.mColorId endlChar _ _ rfl hcolor rfl]
  simp only []
  rw [IStream.readString_space_key endlChar k8 tabChar _ _ rfl w8 rfl]
  by_cases h8 : k8 = "gold"
  swap
  · exact Seat.importFlag_of_mismatch _ _ h8 _ _ _
  subst h8
  simp only [bne_self_eq_false, Bool.false_eq_true, if_false]
  rw [hgold _ _]
  simp only []
  rw [IStream.readString_space_key endlChar k9 tabChar _ _ rfl w9 rfl]
  by_cases h9 : k9 = "goldMined"
  swap
  · exact Seat.importFlag_of_mismatch _ _ h9 _ _ _
  subst h9
  simp only [bne_self_eq_false, Bool.false_eq_true, if_false]
  rw [hgoldMined _ _]
  simp only []
  rw [IStream.readString_space_key endlChar k10 tabChar _ _ rfl w10 rfl]
  by_cases h10 : k10 = "mana"
  swap
  · exact Seat.importFlag_of_mismatch _ _ h10 _ _ _
  subst h10
  simp only [bne_self_eq_false, Bool.false_eq_true, if_false]
  rw [hmana _ _]
  refine Seat.importResearchSections_keys cfg fuel s _ _ k11 k12 k13 w11 w12 w13 hdoneFuel
    hnotAllowedFuel hdoneNamed hnotAllowedNamed hdoneNodup hnotAllowedNodup hdn htargetDone
    htargetNotAllowed ?_
  rintro ⟨rfl, rfl, rfl⟩
  exact hother ⟨rfl, hid⟩


theorem mem_of_mem_foldl_erase (researches pending : List ResearchType) (type : ResearchType)
    (h : type ∈ researches.foldl (fun pending type => pending.erase type) pending) :
    type ∈ pending := by
  induction researches generalizing pending with
  | nil => exact h
  | cons head rest ih => exact List.mem_of_mem_erase (ih (pending.erase head) h)

theorem nodup_foldl_erase (researches pending : List ResearchType) (h : pending.Nodup) :
    (researches.foldl (fun pending type => pending.erase type) pending).Nodup := by
  induction researches generalizing pending with
  | nil => exact h
  | cons head rest ih => exact ih (pending.erase head) (h.erase head)

theorem not_mem_foldl_erase (researches pending : List ResearchType) (type : ResearchType)
    (hnodup : pending.Nodup) (hmem : type ∈ researches) :
    type ∉ researches.foldl (fun pending type => pending.erase type) pending := by
  induction researches generalizing pending with
  | nil => simp at hmem
  | cons head rest ih =>
    rcases List.mem_cons.1 hmem with h | h
    · subst h
      intro hin
      have := mem_of_mem_foldl_erase rest (pending.erase type) type hin
      exact (hnodup.mem_erase_iff.1 this).1 rfl
    · exact ih (pending.erase head) (hnodup.erase head) h

theorem Seat.setResearchesDone_lists (s : Seat) (researches : List ResearchType) :
    (s.setResearchesDone researches).1.mResearchDone = researches ∧
    (s.setResearchesDone researches).1.mResearchPending =
      researches.foldl (fun pending type => pending.erase type) s.mResearchPending ∧
    (s.setResearchesDone researches).1.mResearchNotAllowed = s.mResearchNotAllowed := by
  unfold Seat.setResearchesDone
  simp only []
  split
  · split
    · exact ⟨rfl, rfl, rfl⟩
    · split <;> exact ⟨rfl, rfl, rfl⟩
  · exact ⟨rfl, rfl, rfl⟩

theorem Seat.researchListsConsistent_of_lists {s after : Seat}
    (hdone : after.mResearchDone = s.mResearchDone)
    (hpending : after.mResearchPending = s.mResearchPending)
    (hnotAllowed : after.mResearchNotAllowed = s.mResearchNotAllowed)
    (h : s.researchListsConsistent) : after.researchListsConsistent := by
  unfold Seat.researchListsConsistent Seat.researchListsDisjoint at h ⊢
  rw [hdone, hpending, hnotAllowed]
  exact h

theorem Seat.setResearchesDone_consistent (s : Seat) (researches : List ResearchType)
    (h : s.researchListsConsistent)
    (hallowed : ∀ type ∈ researches, type ∉ s.mResearchNotAllowed) :
    (s.setResearchesDone researches).1.researchListsConsistent := by
  obtain ⟨hd, hp, hn⟩ := Seat.setResearchesDone_lists s researches
  obtain ⟨⟨_, _, hpn⟩, hnodup⟩ := h
  unfold Seat.researchListsConsistent Seat.researchListsDisjoint
  rw [hd, hp, hn]
  refine ⟨⟨?_, hallowed, ?_⟩, nodup_foldl_erase _ _ hnodup⟩
  · intro type hmem
    exact not_mem_foldl_erase researches _ type hnodup hmem
  · intro type hmem
    exact hpn type (mem_of_mem_foldl_erase _ _ _ hmem)

theorem Seat.addResearch_consistent (s : Seat) (type : ResearchType)
    (h : s.researchListsConsistent) (hallowed : type ∉ s.mResearchNotAllowed) :
    (s.addResearch type).2.1.researchListsConsistent := by
  unfold Seat.addResearch
  by_cases hdone : type ∈ s.mResearchDone
  · rw [if_pos hdone]
    exact h
  · rw [if_neg hdone]
    apply Seat.setResearchesDone_consistent s _ h
    intro other hmem
    rcases List.mem_append.1 hmem with hm | hm
    · exact h.1.2.1 other hm
    · have : other = type := by simpa using hm
      rw [this]
      exact hallowed

theorem Seat.setResearchTree_consistent (s : Seat) (cfg : ResearchConfig) (this : SeatPtr)
    (renderables : List RenderedMovableEntity) (researches : List ResearchType)
    (h : s.researchListsConsistent) (hnodup : researches.Nodup)
    (hdone : ∀ type ∈ researches, type ∉ s.mResearchDone)
    (hclient : s.mGameMap.isServerGameMap = false →
      ∀ type ∈ researches, type ∉ s.mResearchNotAllowed) :
    (s.setResearchTree cfg this renderables researches).1.researchListsConsistent := by
  unfold Seat.setResearchTree
  by_cases hserver : s.mGameMap.isServerGameMap = true
  · rw [if_pos hserver]
    cases hallowed : Seat.researchTreeAllowed cfg s.mResearchNotAllowed researches
        s.mResearchDone with
    | false => exact h
    | true =>
      simp only [Bool.not_true, Bool.false_eq_true, if_false]
      have hlists := Seat.setNextResearch_lists { s with mResearchPending := researches } cfg
        this renderables cfg.nullResearchType
      have hna := (Seat.researchTreeAllowed_iff cfg _ _ _).1 hallowed
      unfold Seat.researchListsConsistent Seat.researchListsDisjoint
      rw [hlists.1, hlists.2.1, hlists.2.2.1]
      refine ⟨⟨fun type hmem hin => hdone type hin hmem, h.1.2.1, ?_⟩, hnodup⟩
      intro type hmem
      obtain ⟨i, hi, hget⟩ := List.getElem_of_mem hmem
      rw [← hget]
      exact (hna i hi).1
  · rw [if_neg hserver]
    have hfalse : s.mGameMap.isServerGameMap = false := by simpa using hserver
    unfold Seat.researchListsConsistent Seat.researchListsDisjoint
    exact ⟨⟨fun type hmem hin => hdone type hin hmem, h.1.2.1, hclient hfalse⟩, hnodup⟩

theorem Seat.initSeat_of_player (s : Seat) (cfg : ResearchConfig) (this : SeatPtr)
    (renderables : List RenderedMovableEntity) (h : s.mPlayer ≠ none) :
    s.initSeat cfg this renderables =
      ((Seat.setResearchTree
          { (Seat.setResearchesDone { s with mResearchDone := [] } s.mResearchDone).1 with
            mResearchPending := [] }
          cfg this renderables
          (Seat.setResearchesDone { s with mResearchDone := [] }
            s.mResearchDone).1.mResearchPending).1,
        (Seat.setResearchesDone { s with mResearchDone := [] } s.mResearchDone).2 ++
          (Seat.setResearchTree
            { (Seat.setResearchesDone { s with mResearchDone := [] } s.mResearchDone).1 with
              mResearchPending := [] }
            cfg this renderables
            (Seat.setResearchesDone { s with mResearchDone := [] }
              s.mResearchDone).1.mResearchPending).2) := by
  unfold Seat.initSeat
  cases hplayer : s.mPlayer with
  | none => exact absurd hplayer h
  | some player => rfl

theorem Seat.initSeat_consistent (s : Seat) (cfg : ResearchConfig) (this : SeatPtr)
    (renderables : List RenderedMovableEntity) (h : s.researchListsConsistent) :
    (s.initSeat cfg this renderables).1.researchListsConsistent := by
  by_cases hplayer : s.mPlayer = none
  · unfold Seat.initSeat
    rw [hplayer]
    exact h
  · rw [Seat.initSeat_of_player s cfg this renderables hplayer]
    have hdone := Seat.setResearchesDone_consistent { s with mResearchDone := [] }
      s.mResearchDone
      ⟨⟨by simp, by simp, h.1.2.2⟩, h.2⟩ h.1.2.1
    obtain ⟨⟨hdp, hdn, hpn⟩, hnodup⟩ := hdone
    apply Seat.setResearchTree_consistent
    · exact ⟨⟨by simp, hdn, by simp⟩, List.nodup_nil⟩
    · exact hnodup
    · intro type hmem hin
      exact hdp type hin hmem
    · intro _ type hmem
      exact hpn type hmem

theorem Seat.addResearchPoints_consistent (s : Seat) (cfg : ResearchConfig) (this : SeatPtr)
    (renderables : List RenderedMovableEntity) (points : Int)
    (result : Option Research × Seat) (h : s.researchListsConsistent)
    (hcall : s.addResearchPoints cfg this renderables points = some result) :
    result.2.researchListsConsistent := by
  unfold Seat.addResearchPoints at hcall
  split at hcall
  · cases hcall
    exact h
  · split at hcall
    · simp at hcall
    · split at hcall
      · cases hcall
        exact Seat.researchListsConsistent_of_lists rfl rfl rfl h
      · split at hcall
        · simp at hcall
        · cases hcall
          have hlists := Seat.setNextResearch_lists
            { s with mResearchPoints := ‹Int› } cfg this renderables ‹Research›.mType
          exact Seat.researchListsConsistent_of_lists hlists.1 hlists.2.1 hlists.2.2.1 h


theorem Seat.researchListsConsistent_of_empty (s : Seat) (hnotAllowed : s.mResearchNotAllowed = [])
    (hpending : s.mResearchPending = []) : s.researchListsConsistent := by
  unfold Seat.researchListsConsistent Seat.researchListsDisjoint
  rw [hnotAllowed, hpending]
  simp

theorem Seat.importResearchNotAllowedFor_disjoint (cfg : ResearchConfig) (str : String)
    (researchDone : List ResearchType) (ordinals : List Nat)
    (researchNotAllowed : List ResearchType)
    (h : ∀ type ∈ researchNotAllowed, type ∉ researchDone) :
    ∀ type ∈ Seat.importResearchNotAllowedFor cfg str researchDone ordinals researchNotAllowed,
      type ∉ researchDone := by
  induction ordinals with
  | nil => exact h
  | cons i rest ih =>
    unfold Seat.importResearchNotAllowedFor
    split
    · exact ih
    · split
      · exact ih
      · split
        · exact h
        · split
          · exact h
          · intro type hmem
            rcases List.mem_append.1 hmem with hm | hm
            · exact h type hm
            · have : type = i := by simpa using hm
              rw [this]
              assumption

theorem Seat.importResearchPendingFor_disjoint (cfg : ResearchConfig) (str : String)
    (researchDone researchNotAllowed : List ResearchType) (ordinals : List Nat) :
    ∀ researchPending : List ResearchType, researchPending.Nodup →
      (∀ type ∈ researchPending, type ∉ researchDone ∧ type ∉ researchNotAllowed) →
      (Seat.importResearchPendingFor cfg str researchDone researchNotAllowed ordinals
        researchPending).Nodup ∧
      ∀ type ∈ Seat.importResearchPendingFor cfg str researchDone researchNotAllowed ordinals
          researchPending,
        type ∉ researchDone ∧ type ∉ researchNotAllowed := by
  induction ordinals with
  | nil => intro researchPending hnodup h; exact ⟨hnodup, h⟩
  | cons i rest ih =>
    intro researchPending hnodup h
    unfold Seat.importResearchPendingFor
    split
    · exact ih researchPending hnodup h
    · split
      · exact ih researchPending hnodup h
      · split
        · exact ⟨hnodup, h⟩
        · split
          · exact ⟨hnodup, h⟩
          · split
            · exact ⟨hnodup, h⟩
            · apply ih
              · rw [List.nodup_append]
                refine ⟨hnodup, List.nodup_singleton i, ?_⟩
                intro a ha hb
                have : a = i := by simpa using hb
                rw [this] at ha
                contradiction
              · intro type hmem
                rcases List.mem_append.1 hmem with hm | hm
                · exact h type hm
                · have : type = i := by simpa using hm
                  rw [this]
                  exact ⟨by assumption, by assumption⟩

theorem Seat.importResearchNotAllowedLoop_disjoint (cfg : ResearchConfig)
    (researchDone : List ResearchType) (fuel : Nat) :
    ∀ (is : IStream) (str : String) (researchNotAllowed : List ResearchType)
      (result : IStream × String × List ResearchType),
      Seat.importResearchNotAllowedLoop cfg researchDone fuel is str researchNotAllowed =
        some result →
      (∀ type ∈ researchNotAllowed, type ∉ researchDone) →
      ∀ type ∈ result.2.2, type ∉ researchDone := by
  induction fuel with
  | zero =>
    intro is str researchNotAllowed result h
    simp [Seat.importResearchNotAllowedLoop] at h
  | succ fuel ih =>
    intro is str researchNotAllowed result h hdisjoint
    unfold Seat.importResearchNotAllowedLoop at h
    simp only [] at h
    split at h
    · cases h
      exact hdisjoint
    · exact ih _ _ _ result h
        (Seat.importResearchNotAllowedFor_disjoint cfg _ researchDone _ _ hdisjoint)

theorem Seat.importResearchPendingLoop_disjoint (cfg : ResearchConfig)
    (researchDone researchNotAllowed : List ResearchType) (fuel : Nat) :
    ∀ (is : IStream) (str : String) (researchPending : List ResearchType)
      (result : IStream × String × List ResearchType),
      Seat.importResearchPendingLoop cfg researchDone researchNotAllowed fuel is str
        researchPending = some result →
      researchPending.Nodup →
      (∀ type ∈ researchPending, type ∉ researchDone ∧ type ∉ researchNotAllowed) →
      result.2.2.Nodup ∧
        ∀ type ∈ result.2.2, type ∉ researchDone ∧ type ∉ researchNotAllowed := by
  induction fuel with
  | zero =>
    intro is str researchPending result h
    simp [Seat.importResearchPendingLoop] at h
  | succ fuel ih =>
    intro is str researchPending result h hnodup hdisjoint
    unfold Seat.importResearchPendingLoop at h
    simp only [] at h
    split at h
    · cases h
      exact ⟨hnodup, hdisjoint⟩
    · have hfor := Seat.importResearchPendingFor_disjoint cfg (is.readString str).2 researchDone
        researchNotAllowed (List.range cfg.countResearch) researchPending hnodup hdisjoint
      exact ih _ _ _ result h hfor.1 hfor.2

theorem Seat.importResearchSections_consistent (cfg : ResearchConfig) (fuel : Nat) (s : Seat)
    (is : IStream) (str : String) (result : Bool × Seat × IStream)
    (hnotAllowed : s.mResearchNotAllowed = []) (hpending : s.mResearchPending = [])
    (h : Seat.importResearchSections cfg fuel s is str = some result) :
    result.2.1.researchListsConsistent := by
  unfold Seat.importResearchSections at h
  simp only [] at h
  split at h
  · cases h
    exact Seat.researchListsConsistent_of_empty s hnotAllowed hpending
  · split at h
    · simp at h
    · rename_i is1 str1 researchDone hdoneLoop
      split at h
      · cases h
        exact Seat.researchListsConsistent_of_empty _ hnotAllowed hpending
      · split at h
        · simp at h
        · rename_i is2 str2 researchNotAllowed hnotAllowedLoop
          have hdn := Seat.importResearchNotAllowedLoop_disjoint cfg researchDone fuel _ _ _ _
            hnotAllowedLoop (by simp [hnotAllowed])
          split at h
          · cases h
            unfold Seat.researchListsConsistent Seat.researchListsDisjoint
            simp only [hpending]
            refine ⟨⟨by simp, ?_, by simp⟩, List.nodup_nil⟩
            intro type hmem hin
            exact hdn type hin hmem
          · split at h
            · simp at h
            · rename_i is3 str3 researchPending hpendingLoop
              have hp := Seat.importResearchPendingLoop_disjoint cfg researchDone
                researchNotAllowed fuel _ _ _ _ hpendingLoop (by simp [hpending])
                (by simp [hpending])
              cases h
              unfold Seat.researchListsConsistent Seat.researchListsDisjoint
              refine ⟨⟨?_, ?_, ?_⟩, hp.1⟩
              · intro type hmem hin
                exact (hp.2 type hin).1 hmem
              · intro type hmem hin
                exact hdn type hin hmem
              · intro type hmem
                exact (hp.2 type hmem).2

theorem Seat.importResult_ite (holds : Bool × Seat × IStream → Prop) (c : Prop) [Decidable c]
    (exit rest : Option (Bool × Seat × IStream))
    (hexit : ∀ result, exit = some result → holds result)
    (hrest : ∀ result, rest = some result → holds result) :
    ∀ result, (if c then exit else rest) = some result → holds result := by
  intro result h
  by_cases hc : c
  · rw [if_pos hc] at h
    exact hexit result h
  · rw [if_neg hc] at h
    exact hrest result h

theorem Seat.importSeatFromStream_consistent (lib : StreamLibrary) (cfg : ResearchConfig)
    (fuel : Nat) (s : Seat) (is : IStream)
    (hnotAllowed : s.mResearchNotAllowed = []) (hpending : s.mResearchPending = []) :
    ∀ result : Bool × Seat × IStream,
      Seat.importSeatFromStream lib cfg fuel s is = some result →
      result.2.1.researchListsConsistent := by
  unfold Seat.importSeatFromStream
  iterate 11
    refine Seat.importResult_ite _ _ _ _ ?_ ?_
    · intro result h
      cases h
      exact Seat.researchListsConsistent_of_empty _ hnotAllowed hpending
  intro result h
  exact Seat.importResearchSections_consistent cfg fuel _ _ _ result (by exact hnotAllowed)
    (by exact hpending) h


theorem exists_not_mem_le_length (values : List Nat) :
    ∃ n, n ≤ values.length ∧ n ∉ values := by
  by_contra hall
  have hsub : Finset.range (values.length + 1) ⊆ values.toFinset := by
    intro n hn
    rw [List.mem_toFinset]
    by_contra hnot
    exact hall ⟨n, Nat.lt_succ_iff.1 (Finset.mem_range.1 hn), hnot⟩
  have hcard := Finset.card_le_card hsub
  rw [Finset.card_range] at hcard
  have := List.toFinset_card_le values
  omega

theorem TileType.ofUInt32_other (ordinal : TileType → Nat) (n : Nat)
    (h : ∀ type, type ≠ TileType.other → ordinal type ≠ n) :
    TileType.ofUInt32 ordinal n = TileType.other := by
  unfold TileType.ofUInt32
  rw [if_neg (fun e => h TileType.dirt (by decide) e.symm),
    if_neg (fun e => h TileType.rock (by decide) e.symm),
    if_neg (fun e => h TileType.gold (by decide) e.symm),
    if_neg (fun e => h TileType.water (by decide) e.symm),
    if_neg (fun e => h TileType.lava (by decide) e.symm)]

theorem TileType.ofUInt32_ordinal (ordinal : TileType → Nat) (type : TileType)
    (hinj : ∀ a b, a ≠ TileType.other → b ≠ TileType.other → ordinal a = ordinal b →
      a = b)
    (htype : type ≠ TileType.other) :
    TileType.ofUInt32 ordinal (ordinal type) = type := by
  unfold TileType.ofUInt32
  split_ifs with h1 h2 h3 h4 h5
  · exact (hinj _ _ htype (by decide) h1).symm
  · exact (hinj _ _ htype (by decide) h2).symm
  · exact (hinj _ _ htype (by decide) h3).symm
  · exact (hinj _ _ htype (by decide) h4).symm
  · exact (hinj _ _ htype (by decide) h5).symm
  · cases type <;> simp_all

theorem TileVisual.visualOfUInt32_other (ordinal : TileVisual → Nat) (n : Nat)
    (h : ∀ visual, visual ≠ TileVisual.other → ordinal visual ≠ n) :
    TileVisual.ofUInt32 ordinal n = TileVisual.other := by
  unfold TileVisual.ofUInt32
  rw [if_neg (fun e => h TileVisual.nullTileVisual (by decide) e.symm),
    if_neg (fun e => h TileVisual.dirtGround (by decide) e.symm),
    if_neg (fun e => h TileVisual.dirtFull (by decide) e.symm),
    if_neg (fun e => h TileVisual.rockGround (by decide) e.symm),
    if_neg (fun e => h TileVisual.rockFull (by decide) e.symm),
    if_neg (fun e => h TileVisual.goldGround (by decide) e.symm),
    if_neg (fun e => h TileVisual.goldFull (by decide) e.symm),
    if_neg (fun e => h TileVisual.waterGround (by decide) e.symm),
    if_neg (fun e => h TileVisual.lavaGround (by decide) e.symm),
    if_neg (fun e => h TileVisual.claimedGround (by decide) e.symm),
    if_neg (fun e => h TileVisual.claimedFull (by decide) e.symm)]

theorem TileVisual.visualOfUInt32_ordinal (visualOrdinal : TileVisual → Nat) (visual : TileVisual)
    (hinj : ∀ a b, a ≠ TileVisual.other → b ≠ TileVisual.other →
      visualOrdinal a = visualOrdinal b →
      a = b)
    (hvisual : visual ≠ TileVisual.other) :
    TileVisual.ofUInt32 visualOrdinal (visualOrdinal visual) = visual := by
  unfold TileVisual.ofUInt32
  by_cases h1 : visualOrdinal visual = visualOrdinal TileVisual.nullTileVisual
  · rw [if_pos h1]
    exact (hinj _ _ hvisual (by decide) h1).symm
  rw [if_neg h1]
  by_cases h2 : visualOrdinal visual = visualOrdinal TileVisual.dirtGround
  · rw [if_pos h2]
    exact (hinj _ _ hvisual (by decide) h2).symm
  rw [if_neg h2]
  by_cases h3 : visualOrdinal visual = visualOrdinal TileVisual.dirtFull
  · rw [if_pos h3]
    exact (hinj _ _ hvisual (by decide) h3).symm
  rw [if_neg h3]
  by_cases h4 : visualOrdinal visual = visualOrdinal TileVisual.rockGround
  · rw [if_pos h4]
    exact (hinj _ _ hvisual (by decide) h4).symm
  rw [if_neg h4]
  by_cases h5 : visualOrdinal visual = visualOrdinal TileVisual.rockFull
  · rw [if_pos h5]
    exact (hinj _ _ hvisual (by decide) h5).symm
  rw [if_neg h5]
  by_cases h6 : visualOrdinal visual = visualOrdinal TileVisual.goldGround
  · rw [if_pos h6]
    exact (hinj _ _ hvisual (by decide) h6).symm
  rw [if_neg h6]
  by_cases h7 : visualOrdinal visual = visualOrdinal TileVisual.goldFull
  · rw [if_pos h7]
    exact (hinj _ _ hvisual (by decide) h7).symm
  rw [if_neg h7]
  by_cases h8 : visualOrdinal visual = visualOrdinal TileVisual.waterGround
  · rw [if_pos h8]
    exact (hinj _ _ hvisual (by decide) h8).symm
  rw [if_neg h8]
  by_cases h9 : visualOrdinal visual = visualOrdinal TileVisual.lavaGround
  · rw [if_pos h9]
    exact (hinj _ _ hvisual (by decide) h9).symm
  rw [if_neg h9]
  by_cases h10 : visualOrdinal visual = visualOrdinal TileVisual.claimedGround
  · rw [if_pos h10]
    exact (hinj _ _ hvisual (by decide) h10).symm
  rw [if_neg h10]
  by_cases h11 : visualOrdinal visual = visualOrdinal TileVisual.claimedFull
  · rw [if_pos h11]
    exact (hinj _ _ hvisual (by decide) h11).symm
  rw [if_neg h11]
  cases visual <;> first | exact absurd rfl hvisual | exact absurd rfl ‹_›


theorem Tile.hasChangedForSeatLoop_map (seats : List SeatPtr) (seat : SeatPtr) :
    Tile.hasChangedForSeatLoop (seats.map fun s => (s, true)) seat = decide (seat ∈ seats) := by
  induction seats with
  | nil => simp [Tile.hasChangedForSeatLoop]
  | cons head rest ih =>
    simp only [List.map_cons, Tile.hasChangedForSeatLoop]
    by_cases h : head = seat
    · simp [h]
    · have h2 : ¬ seat = head := fun e => h e.symm
      simp [h, h2, ih]

theorem Tile.hasChangedForSeatLoop_changeNotified_other (changed : List (SeatPtr × Bool))
    (seat other : SeatPtr) (h : other ≠ seat) :
    Tile.hasChangedForSeatLoop (Tile.changeNotifiedForSeatLoop changed seat) other =
      Tile.hasChangedForSeatLoop changed other := by
  induction changed with
  | nil => rfl
  | cons head rest ih =>
    unfold Tile.changeNotifiedForSeatLoop
    by_cases hs : head.1 = seat
    · have ho : ¬ head.1 = other := fun e => h (e.symm.trans hs)
      simp [hs, Tile.hasChangedForSeatLoop, ho, h.symm]
    · rw [if_pos (by simpa using hs)]
      by_cases ho : head.1 = other
      · simp [Tile.hasChangedForSeatLoop, ho]
      · simp [Tile.hasChangedForSeatLoop, ho, ih]

theorem Tile.changeNotifiedForSeatLoop_absent (changed : List (SeatPtr × Bool))
    (seat : SeatPtr) (h : ∀ p ∈ changed, p.1 ≠ seat) :
    Tile.changeNotifiedForSeatLoop changed seat = changed ∧
      Tile.hasChangedForSeatLoop changed seat = false := by
  induction changed with
  | nil => exact ⟨rfl, rfl⟩
  | cons head rest ih =>
    have hhead : head.1 ≠ seat := h head (List.mem_cons_self _ _)
    have ih := ih fun p hp => h p (List.mem_cons_of_mem _ hp)
    unfold Tile.changeNotifiedForSeatLoop Tile.hasChangedForSeatLoop
    simp [hhead, ih.1, ih.2]


theorem Seat.checkAllGoalsLoop_eq (goals : GoalOracle) (outstanding : List GoalPtr) :
    ∀ uncomplete completed failed goalsToAdd : List GoalPtr,
      Seat.checkAllGoalsLoop goals outstanding (uncomplete, completed, failed, goalsToAdd) =
        (uncomplete ++ outstanding.filter (fun goal => !goals.isMet goal && !goals.isFailed goal),
          completed ++ outstanding.filter goals.isMet,
          failed ++ outstanding.filter (fun goal => !goals.isMet goal && goals.isFailed goal),
          goalsToAdd ++ (outstanding.map goals.released).join) := by
  induction outstanding with
  | nil => intro uncomplete completed failed goalsToAdd; simp [Seat.checkAllGoalsLoop]
  | cons goal rest ih =>
    intro uncomplete completed failed goalsToAdd
    unfold Seat.checkAllGoalsLoop
    by_cases hmet : goals.isMet goal = true
    · simp [hmet, ih, GoalOracle.released]
    · by_cases hfailed : goals.isFailed goal = true
      · simp [hmet, hfailed, ih, GoalOracle.released]
      · simp [hmet, hfailed, ih, GoalOracle.released]

theorem count_three_filters (goals : GoalOracle) (outstanding : List GoalPtr)
    (goal : GoalPtr) :
    outstanding.count goal =
      (outstanding.filter goals.isMet).count goal +
        (outstanding.filter (fun g => !goals.isMet g && goals.isFailed g)).count goal +
        (outstanding.filter (fun g => !goals.isMet g && !goals.isFailed g)).count goal := by
  induction outstanding with
  | nil => simp
  | cons head rest ih =>
    by_cases hmet : goals.isMet head = true
    · simp [List.filter_cons, hmet, List.count_cons, ih]
      omega
    · by_cases hfailed : goals.isFailed head = true
      · simp [List.filter_cons, hmet, hfailed, List.count_cons, ih]
        omega
      · simp [List.filter_cons, hmet, hfailed, List.count_cons, ih]
        omega

theorem TileType.readFromPacket_unknown (ordinal : TileType → Nat)
    (visualOrdinal : TileVisual → Nat) (rest : List PacketField) :
    (∃ n, n < 4294967296 ∧ (∀ type, ordinal type ≠ n) ∧
      TileType.readFromPacket ordinal { fields := PacketField.uint32 n :: rest } =
        some (TileType.other, { fields := rest })) ∧
    ∃ n, n < 4294967296 ∧ (∀ visual, visualOrdinal visual ≠ n) ∧
      TileVisual.readFromPacket visualOrdinal { fields := PacketField.uint32 n :: rest } =
        some (TileVisual.other, { fields := rest }) := by
  constructor
  · obtain ⟨n, hle, hnot⟩ := exists_not_mem_le_length
      [ordinal TileType.dirt, ordinal TileType.rock, ordinal TileType.gold,
        ordinal TileType.water, ordinal TileType.lava, ordinal TileType.other]
    have hall : ∀ type, ordinal type ≠ n := by
      intro type h
      apply hnot
      cases type <;> simp [← h]
    refine ⟨n, lt_of_le_of_lt hle (by simp), hall, ?_⟩
    unfold TileType.readFromPacket ODPacket.readUInt32
    simp only []
    rw [TileType.ofUInt32_other ordinal n fun type _ => hall type]
  · obtain ⟨n, hle, hnot⟩ := exists_not_mem_le_length
      [visualOrdinal TileVisual.nullTileVisual, visualOrdinal TileVisual.dirtGround,
        visualOrdinal TileVisual.dirtFull, visualOrdinal TileVisual.rockGround,
        visualOrdinal TileVisual.rockFull, visualOrdinal TileVisual.goldGround,
        visualOrdinal TileVisual.goldFull, visualOrdinal TileVisual.waterGround,
        visualOrdinal TileVisual.lavaGround, visualOrdinal TileVisual.claimedGround,
        visualOrdinal TileVisual.claimedFull, visualOrdinal TileVisual.other]
    have hall : ∀ visual, visualOrdinal visual ≠ n := by
      intro visual h
      apply hnot
      cases visual <;> simp [← h]
    refine ⟨n, lt_of_le_of_lt hle (by simp), hall, ?_⟩
    unfold TileVisual.readFromPacket ODPacket.readUInt32
    simp only []
    rw [TileVisual.visualOfUInt32_other visualOrdinal n fun visual _ => hall visual]

theorem roundHalfEven_error (q : ℚ) : |(roundHalfEven q : ℚ) - q| ≤ 1 / 2 := by
  have h1 : (⌊q⌋ : ℚ) ≤ q := Int.floor_le q
  have h2 : q < ⌊q⌋ + 1 := Int.lt_floor_add_one q
  unfold roundHalfEven
  rw [abs_le]
  split_ifs with ha hb hc
  · constructor <;> linarith
  · push_cast
    constructor <;> linarith
  · constructor <;> linarith
  · push_cast
    constructor <;> linarith

theorem roundHalfEven_of_lt (q : ℚ) (m : ℤ) (h1 : (m : ℚ) - 1 / 2 < q)
    (h2 : q < m + 1 / 2) : roundHalfEven q = m := by
  unfold roundHalfEven
  by_cases hm : (m : ℚ) ≤ q
  · have hfloor : ⌊q⌋ = m := by
      rw [Int.floor_eq_iff]
      constructor <;> linarith
    rw [hfloor, if_pos (by linarith)]
  · have hfloor : ⌊q⌋ = m - 1 := by
      rw [Int.floor_eq_iff]
      push_cast
      constructor <;> linarith
    rw [hfloor]
    push_cast
    rw [if_neg (by linarith), if_pos (by linarith)]
    ring

theorem roundHalfEven_of_tie (q : ℚ) (m : ℤ) (h : q = m + 1 / 2) :
    roundHalfEven q = if m % 2 = 0 then m else m + 1 := by
  have hfloor : ⌊q⌋ = m := by
    rw [Int.floor_eq_iff]
    constructor <;> linarith
  unfold roundHalfEven
  rw [hfloor, if_neg (by linarith), if_neg (by linarith)]

theorem binary64Exponent_of_le (q : ℚ) (e : ℤ) (hlow : (2 : ℚ) ^ (e + 52) ≤ |q|)
    (hhigh : |q| < 2 ^ (e + 53)) (he : -1074 ≤ e) : binary64Exponent q = e := by
  have hpos : 0 < |q| := lt_of_lt_of_le (by positivity) hlow
  have hlog : Int.log 2 |q| = e + 52 := by
    apply le_antisymm
    · have := (Int.lt_zpow_iff_log_lt (b := 2) (by norm_num) hpos (x := e + 53)).1
        (by exact_mod_cast hhigh)
      omega
    · exact (Int.zpow_le_iff_le_log (b := 2) (by norm_num) hpos).1 (by exact_mod_cast hlow)
  unfold binary64Exponent
  rw [hlog]
  omega

theorem binary64_zero : binary64 0 = 0 := by
  simp [binary64, roundHalfEven]

theorem binary64_error (q : ℚ) : |binary64 q - q| ≤ |q| / 2 ^ 53 + 1 / 2 ^ 1075 := by
  by_cases hq : q = 0
  · subst hq
    rw [binary64_zero]
    norm_num
  have hpow : (0 : ℚ) < 2 ^ binary64Exponent q := by positivity
  have hround := roundHalfEven_error (q / 2 ^ binary64Exponent q)
  have heq : binary64 q - q =
      ((roundHalfEven (q / 2 ^ binary64Exponent q) : ℚ) - q / 2 ^ binary64Exponent q) *
        2 ^ binary64Exponent q := by
    unfold binary64
    field_simp
  have h1 : |binary64 q - q| ≤ (2 : ℚ) ^ binary64Exponent q / 2 := by
    rw [heq, abs_mul, abs_of_pos hpow]
    have := mul_le_mul_of_nonneg_right hround hpow.le
    linarith
  have h2 : (2 : ℚ) ^ binary64Exponent q ≤ |q| / 2 ^ 52 + 1 / 2 ^ 1074 := by
    unfold binary64Exponent
    rcases le_total (Int.log 2 |q| - 52) (-1074) with hle | hle
    · rw [max_eq_right hle]
      have : (0 : ℚ) ≤ |q| / 2 ^ 52 := by positivity
      have h3 : (2 : ℚ) ^ (-1074 : ℤ) = 1 / 2 ^ 1074 := by
        rw [zpow_neg, one_div]
        norm_cast
      linarith
    · rw [max_eq_left hle]
      have hpos : 0 < |q| := abs_pos.mpr hq
      have h3 := Int.zpow_log_le_self (b := 2) (by norm_num) hpos
      have h4 : (2 : ℚ) ^ (Int.log 2 |q| - 52) = 2 ^ Int.log 2 |q| / 2 ^ 52 := by
        rw [zpow_sub₀ (by norm_num)]
        norm_cast
      rw [h4]
      have h5 : (2 : ℚ) ^ Int.log 2 |q| / 2 ^ 52 ≤ |q| / 2 ^ 52 := by
        apply div_le_div_of_nonneg_right _ (by positivity)
        exact_mod_cast h3
      have : (0 : ℚ) ≤ 1 / 2 ^ 1074 := by positivity
      linarith
  calc |binary64 q - q| ≤ (2 : ℚ) ^ binary64Exponent q / 2 := h1
    _ ≤ (|q| / 2 ^ 52 + 1 / 2 ^ 1074) / 2 := by linarith
    _ = |q| / 2 ^ 53 + 1 / 2 ^ 1075 := by ring

theorem binary64_oneFifth : binary64 0.2 = 3602879701896397 / 18014398509481984 := by
  have he : binary64Exponent 0.2 = -55 := by
    apply binary64Exponent_of_le
    · norm_num [abs_of_pos]
    · norm_num [abs_of_pos]
    · norm_num
  unfold binary64
  rw [he, roundHalfEven_of_lt _ 7205759403792794]
  · norm_num
  · norm_num
  · norm_num

theorem binary64Mul_oneFifth_three :
    binary64Mul (binary64 0.2) 3 = 5404319552844596 / 9007199254740992 := by
  rw [binary64_oneFifth]
  have he : binary64Exponent (3602879701896397 / 18014398509481984 * 3) = -53 := by
    apply binary64Exponent_of_le
    · norm_num [abs_of_pos]
    · norm_num [abs_of_pos]
    · norm_num
  unfold binary64Mul binary64
  rw [he, roundHalfEven_of_tie _ 5404319552844595]
  · norm_num
  · norm_num

theorem binary64Mul_oneFifth_error (r : ℚ) :
    |binary64Mul (binary64 0.2) r - r / 5| ≤ |r / 5| / 2 ^ 52 + 1 / 2 ^ 1075 := by
  rw [binary64_oneFifth]
  unfold binary64Mul
  have herror := binary64_error (3602879701896397 / 18014398509481984 * r)
  have hexact : |3602879701896397 / 18014398509481984 * r - r / 5| =
      |r| / 90071992547409920 := by
    have : 3602879701896397 / 18014398509481984 * r - r / 5 = r / 90071992547409920 := by
      ring
    rw [this, abs_div]
    norm_num
  have hproduct : |3602879701896397 / 18014398509481984 * r| =
      3602879701896397 / 18014398509481984 * |r| := by
    rw [abs_mul]
    norm_num
  have hfifth : |r / 5| = |r| / 5 := by
    rw [abs_div]
    norm_num
  have hsplit : binary64 (3602879701896397 / 18014398509481984 * r) - r / 5 =
      (binary64 (3602879701896397 / 18014398509481984 * r) -
        3602879701896397 / 18014398509481984 * r) +
      (3602879701896397 / 18014398509481984 * r - r / 5) := by ring
  have hnonneg : 0 ≤ |r| := abs_nonneg r
  rw [hsplit, hfifth]
  refine (abs_add _ _).trans ?_
  rw [hexact]
  rw [hproduct] at herror
  norm_num at herror ⊢
  linarith

theorem binary64Mul_oneFifth_le (r : ℚ) (h : r = 0 ∨ 1 / 2 ^ 1074 ≤ |r|) :
    |binary64Mul (binary64 0.2) r| ≤ |r| := by
  rcases h with h | h
  · subst h
    simp [binary64Mul, binary64_zero]
  · have herror := binary64Mul_oneFifth_error r
    have hfifth : |r / 5| = |r| / 5 := by
      rw [abs_div]
      norm_num
    have hsplit : binary64Mul (binary64 0.2) r =
        (binary64Mul (binary64 0.2) r - r / 5) + r / 5 := by ring
    rw [hsplit]
    refine (abs_add _ _).trans ?_
    rw [hfifth] at herror ⊢
    norm_num at herror h ⊢
    linarith

theorem Seat.setNextResearchPending_skips_null (cfg : ResearchConfig) (this : SeatPtr)
    (renderables : List RenderedMovableEntity) (researchedType : ResearchType)
    (pending : List ResearchType) :
    Seat.setNextResearchPending cfg this renderables researchedType pending
        cfg.nullResearchType =
      (nextPendingResearch cfg.nullResearchType this renderables researchedType pending).getD
        cfg.nullResearchType := by
  induction pending with
  | nil => simp [Seat.setNextResearchPending, nextPendingResearch]
  | cons head rest ih =>
    unfold nextPendingResearch at ih ⊢
    unfold Seat.setNextResearchPending
    rw [Seat.setNextResearchEntities_eq]
    by_cases hr : head = researchedType
    · simp [hr, List.find?_cons]
      simpa [hr] using ih
    · by_cases hown : ownsResearchEntity this renderables head = true
      · simp [hr, hown, List.find?_cons, ih]
      · by_cases hhead : head = cfg.nullResearchType
        · simp [hr, hown, List.find?_cons, hhead, ih]
        · simp [hr, hown, List.find?_cons, hhead]

theorem Seat.setNextResearch_skips_null (s : Seat) (cfg : ResearchConfig) (this : SeatPtr)
    (renderables : List RenderedMovableEntity) (researchedType : ResearchType) :
    s.setNextResearch cfg this renderables researchedType =
      { s with
        mCurrentResearch :=
          (nextPendingResearch cfg.nullResearchType this renderables researchedType
            s.mResearchPending).bind (Seat.findResearch cfg.researches) } := by
  unfold Seat.setNextResearch
  rw [Seat.setNextResearchPending_skips_null cfg this renderables researchedType]
  cases hp : s.mResearchPending with
  | nil => simp [nextPendingResearch]
  | cons head rest =>
    rw [← hp]
    have hne : s.mResearchPending.isEmpty = false := by simp [hp]
    simp only [hne, Bool.false_eq_true, if_false]
    cases hfirst : nextPendingResearch cfg.nullResearchType this renderables researchedType
        s.mResearchPending with
    | none => simp
    | some type =>
      have htype : type ≠ cfg.nullResearchType := by
        unfold nextPendingResearch at hfirst
        have := List.find?_some hfirst
        simp only [Bool.and_eq_true, decide_eq_true_eq] at this
        exact this.1.2
      simp [htype]

theorem nextPendingResearch_of_not_mem (null : ResearchType) (this : SeatPtr)
    (renderables : List RenderedMovableEntity) (researchedType : ResearchType)
    (pending : List ResearchType) (hnull : null ∉ pending) :
    nextPendingResearch null this renderables researchedType pending =
      firstPendingToResearch this renderables researchedType pending := by
  unfold nextPendingResearch firstPendingToResearch
  induction pending with
  | nil => rfl
  | cons head rest ih =>
    have hhead : head ≠ null := fun h => hnull (by simp [h])
    have hrest : null ∉ rest := fun h => hnull (List.mem_cons_of_mem _ h)
    simp only [List.find?_cons, ih hrest, hhead, ne_eq, not_false_eq_true, decide_True,
      Bool.and_true]

/-- A seat just constructed has pairwise disjoint research lists and no
research twice in its pending list, and this is kept by `initSeat`,
`addResearchPoints` and `setNextResearch` with any arguments, by
`setResearchesDone` with a list that holds no research of the not allowed
list, by `addResearch` of a research that is not in the not allowed list, by
`setResearchTree` with a list without duplicates that holds no research
already done and, on a client map, no research of the not allowed list, and
it holds after `importSeatFromStream` on any stream, whatever it returns,
when the not allowed and pending lists of the seat were empty before. -/
theorem Seat.researchListsConsistent_kept (lib : StreamLibrary) (cfg : ResearchConfig)
    (this : SeatPtr) (renderables : List RenderedMovableEntity) (s : Seat)
    (h : s.researchListsConsistent) :
    (∀ gameMap : GameMap, (Seat.construct gameMap).researchListsConsistent) ∧
    (s.initSeat cfg this renderables).1.researchListsConsistent ∧
    (∀ (points : Int) (result : Option Research × Seat),
      s.addResearchPoints cfg this renderables points = some result →
        result.2.researchListsConsistent) ∧
    (∀ researchedType : ResearchType,
      (s.setNextResearch cfg this renderables researchedType).researchListsConsistent) ∧
    (∀ researches : List ResearchType,
      (∀ type ∈ researches, type ∉ s.mResearchNotAllowed) →
        (s.setResearchesDone researches).1.researchListsConsistent) ∧
    (∀ type : ResearchType, type ∉ s.mResearchNotAllowed →
      (s.addResearch type).2.1.researchListsConsistent) ∧
    (∀ researches : List ResearchType, researches.Nodup →
      (∀ type ∈ researches, type ∉ s.mResearchDone) →
      (s.mGameMap.isServerGameMap = false →
        ∀ type ∈ researches, type ∉ s.mResearchNotAllowed) →
        (s.setResearchTree cfg this renderables researches).1.researchListsConsistent) ∧
    (∀ (fuel : Nat) (is : IStream) (result : Bool × Seat × IStream),
      s.mResearchNotAllowed = [] → s.mResearchPending = [] →
      Seat.importSeatFromStream lib cfg fuel s is = some result →
        result.2.1.researchListsConsistent ∧ result.2.1.researchListsDisjoint) := by
  refine ⟨?_, Seat.initSeat_consistent s cfg this renderables h, ?_, ?_, ?_, ?_, ?_, ?_⟩
  · intro gameMap
    exact Seat.researchListsConsistent_of_empty _ rfl rfl
  · intro points result hcall
    exact Seat.addResearchPoints_consistent s cfg this renderables points result h hcall
  · intro researchedType
    have hlists := Seat.setNextResearch_lists s cfg this renderables researchedType
    exact Seat.researchListsConsistent_of_lists hlists.1 hlists.2.1 hlists.2.2.1 h
  · intro researches hallowed
    exact Seat.setResearchesDone_consistent s researches h hallowed
  · intro type hallowed
    exact Seat.addResearch_consistent s type h hallowed
  · intro researches hnodup hdone hclient
    exact Seat.setResearchTree_consistent s cfg this renderables researches h hnodup hdone
      hclient
  · intro fuel is result hnotAllowed hpending hcall
    have hresult := Seat.importSeatFromStream_consistent lib cfg fuel s is hnotAllowed hpending
      result hcall
    exact ⟨hresult, hresult.1⟩

/-! ## Claims -/

/-- C1: after the constructor, and after any call to `computeTileVisual`, the
visual of a tile equals the reference function `computeVisual` applied to its
type, its fullness and its claim status. A freshly constructed tile is
unclaimed and so never shows a claimed visual; `computeTileVisual` changes no
member other than the visual. This holds on the server map and on client maps
alike. -/
theorem C1_visual_is_computeVisual :
    (∀ (gameMap : GameMap) (x y : Int) (type : TileType) (fullness : ℚ),
      (Tile.construct gameMap x y type fullness).mTileVisual
          = computeVisual (Tile.construct gameMap x y type fullness).mType
              (Tile.construct gameMap x y type fullness).mFullness
              (Tile.construct gameMap x y type fullness).isClaimed
        ∧ (Tile.construct gameMap x y type fullness).mType = type
        ∧ (Tile.construct gameMap x y type fullness).mFullness = fullness
        ∧ (Tile.construct gameMap x y type fullness).isClaimed = false
        ∧ (Tile.construct gameMap x y type fullness).mTileVisual ≠ TileVisual.claimedGround
        ∧ (Tile.construct gameMap x y type fullness).mTileVisual ≠ TileVisual.claimedFull)
    ∧ (∀ t : Tile,
        t.computeTileVisual.mTileVisual
          = computeVisual t.computeTileVisual.mType t.computeTileVisual.mFullness
              t.computeTileVisual.isClaimed
        ∧ t.computeTileVisual.isClaimed = t.isClaimed
        ∧ t.computeTileVisual = { t with mTileVisual := t.computeTileVisual.mTileVisual }) := by
  have hpost : ∀ t : Tile,
      t.computeTileVisual.mTileVisual
          = computeVisual t.computeTileVisual.mType t.computeTileVisual.mFullness
              t.computeTileVisual.isClaimed
        ∧ t.computeTileVisual.isClaimed = t.isClaimed
        ∧ t.computeTileVisual = { t with mTileVisual := t.computeTileVisual.mTileVisual } := by
    intro t
    refine ⟨?_, Tile.isClaimed_computeTileVisual t, ?_⟩
    · rw [Tile.isClaimed_computeTileVisual, Tile.computeTileVisual_eq]
    · rw [Tile.computeTileVisual_eq]
  refine ⟨?_, hpost⟩
  intro gameMap x y type fullness
  obtain ⟨-, hty, hfu, -, -, hcl⟩ := Tile.construct_fields gameMap x y type fullness
  have hv : (Tile.construct gameMap x y type fullness).mTileVisual
      = computeVisual (Tile.construct gameMap x y type fullness).mType
          (Tile.construct gameMap x y type fullness).mFullness
          (Tile.construct gameMap x y type fullness).isClaimed := by
    unfold Tile.construct
    exact (hpost _).1
  have hne := computeVisual_claimed_iff type fullness false
  refine ⟨hv, hty, hfu, hcl, ?_, ?_⟩
  · rw [hv, hty, hfu, hcl]
    intro h
    simpa using hne.mp (Or.inl h)
  · rw [hv, hty, hfu, hcl]
    intro h
    simpa using hne.mp (Or.inr h)

/-- C2, as stated, fails: on the server map a tile can have an owning seat
while `isClaimed()` is false and the claimed percentage is not `1`, so the
three conditions do not coincide. The tile is a fresh one on which `setSeat`
has recorded an owner. -/
theorem C2_owner_without_claim :
    tileWithOwnerNotYetClaimed.mGameMap.isServerGameMap = true
      ∧ tileWithOwnerNotYetClaimed.getSeat = some seatOne
      ∧ tileWithOwnerNotYetClaimed.mClaimedPercentage = 0
      ∧ tileWithOwnerNotYetClaimed.isClaimed = false
      ∧ ¬ (tileWithOwnerNotYetClaimed.isClaimed = true
            ↔ tileWithOwnerNotYetClaimed.getSeat ≠ none) := by
  have h1 : tileWithOwnerNotYetClaimed.mGameMap.isServerGameMap = true := rfl
  have h2 : tileWithOwnerNotYetClaimed.getSeat = some seatOne := rfl
  have h3 : tileWithOwnerNotYetClaimed.mClaimedPercentage = 0 := rfl
  have h4 : tileWithOwnerNotYetClaimed.isClaimed = false := by
    cases hc : tileWithOwnerNotYetClaimed.isClaimed
    · rfl
    · have := ((Tile.isClaimed_server _ h1).mp hc).2
      rw [h3] at this
      exact absurd this (by norm_num)
  refine ⟨h1, h2, h3, h4, ?_⟩
  rw [h4, h2]
  simp

/-- C2, amended: on the server map `isClaimed()` is true iff the tile has an
owning seat and its claimed percentage is at least `1`. Hence a claimed tile
always has an owner, and with a claimed percentage of at most `1` a tile is
claimed iff it has an owner and the percentage equals `1`. The constructor
leaves percentage `0`, no owner, and a tile that is not claimed. -/
theorem C2_isClaimed_on_server (t : Tile) (hserver : t.mGameMap.isServerGameMap = true) :
    (t.isClaimed = true ↔ t.getSeat ≠ none ∧ 1 ≤ t.mClaimedPercentage)
      ∧ (t.isClaimed = true → t.getSeat ≠ none)
      ∧ (t.mClaimedPercentage ≤ 1 →
          (t.isClaimed = true ↔ t.getSeat ≠ none ∧ t.mClaimedPercentage = 1))
      ∧ (∀ (x y : Int) (type : TileType) (fullness : ℚ),
          (Tile.construct t.mGameMap x y type fullness).mClaimedPercentage = 0
            ∧ (Tile.construct t.mGameMap x y type fullness).getSeat = none
            ∧ (Tile.construct t.mGameMap x y type fullness).isClaimed = false) := by
  have hiff := Tile.isClaimed_server t hserver
  refine ⟨hiff, fun h => (hiff.mp h).1, ?_, ?_⟩
  · intro hle
    rw [hiff]
    constructor
    · rintro ⟨hs, hp⟩
      exact ⟨hs, le_antisymm hle hp⟩
    · rintro ⟨hs, hp⟩
      exact ⟨hs, hp.ge⟩
  · intro x y type fullness
    obtain ⟨-, -, -, hp, hs, hc⟩ := Tile.construct_fields t.mGameMap x y type fullness
    exact ⟨hp, hs, hc⟩

/-- Witness for C2: a server tile fully claimed by `seatOne`. -/
theorem C2_isClaimed_on_server_witness :
    claimedRockWall.mGameMap.isServerGameMap = true
      ∧ (claimedRockWall.isClaimed = true
          ↔ claimedRockWall.getSeat ≠ none ∧ 1 ≤ claimedRockWall.mClaimedPercentage) :=
  ⟨rfl, (C2_isClaimed_on_server claimedRockWall rfl).1⟩

/-- C3, evaluated where it fails: a solid rock tile of the server map that is
fully claimed by `seatOne` has an up-to-date visual (`claimedFull`), and
`isDiggable` answers `true` for `seatOne`, although the tile is rock. A
hostile seat gets `false`. -/
theorem C3_claimed_rock_wall_is_diggable :
    claimedRockWall.mType = TileType.rock
      ∧ claimedRockWall.mFullness = 100
      ∧ claimedRockWall.isClaimed = true
      ∧ claimedRockWall.mTileVisual
          = computeVisual claimedRockWall.mType claimedRockWall.mFullness claimedRockWall.isClaimed
      ∧ claimedRockWall.mTileVisual = TileVisual.claimedFull
      ∧ claimedRockWall.isDiggable seatOne = some true
      ∧ claimedRockWall.isDiggable seatTwo = some false := by
  refine ⟨rfl, rfl, rfl, rfl, rfl, rfl, rfl⟩

/-- C4: for a dirt or gold tile with `fullness > 0` whose visual is up to date
and for every seat `S`, `isDiggable(S)` is true iff the tile is unclaimed or
its owner's team id equals the team id of `S`; put with the compatibility rule,
iff the tile is unclaimed or `owner.canOwnedTileBeClaimedBy(S)` is false. On
the server map the call always returns a value. -/
theorem C4_isDiggable_full_dirt_gold (t : Tile) (S : Seat)
    (htype : t.mType = TileType.dirt ∨ t.mType = TileType.gold)
    (hfull : t.mFullness > 0)
    (hvisual : t.mTileVisual = computeVisual t.mType t.mFullness t.isClaimed) :
    (t.isDiggable S = some true ↔
        (t.isClaimed = false ∨ ∃ owner, t.getSeat = some owner ∧ owner.mTeamId = S.mTeamId))
      ∧ (t.isDiggable S = some true ↔
        (t.isClaimed = false
          ∨ ∃ owner, t.getSeat = some owner ∧ owner.canOwnedTileBeClaimedBy S = false))
      ∧ (t.mGameMap.isServerGameMap = true →
          t.isDiggable S = some true ∨ t.isDiggable S = some false) := by
  have hcompat : ∀ owner : Seat,
      owner.canOwnedTileBeClaimedBy S = false ↔ owner.mTeamId = S.mTeamId := by
    intro owner
    simp [Seat.canOwnedTileBeClaimedBy, Seat.getTeamId]
  cases hc : t.isClaimed
  · -- unclaimed: the visual is dirtFull or goldFull
    have hv : t.mTileVisual = TileVisual.dirtFull ∨ t.mTileVisual = TileVisual.goldFull := by
      rw [hvisual, hc]
      rcases htype with h | h <;> simp [computeVisual, h, hfull]
    have hd : t.isDiggable S = some true := by
      rcases hv with h | h <;> simp [Tile.isDiggable, h]
    simp [hd]
  · -- claimed: the visual is claimedFull and the owner decides
    have hv : t.mTileVisual = TileVisual.claimedFull := by
      rw [hvisual, hc]
      simp [computeVisual, hfull]
    cases hs : t.getSeat with
    | none =>
      have hd : t.isDiggable S = none := by
        simp [Tile.isDiggable, hv, hc, Tile.isClaimedForSeat, hs]
      refine ⟨by simp [hd], by simp [hd], ?_⟩
      intro hsrv
      exact absurd hs ((Tile.isClaimed_server t hsrv).mp hc).1
    | some owner =>
      by_cases hteam : owner.mTeamId = S.mTeamId
      · have hd : t.isDiggable S = some true := by
          simp [Tile.isDiggable, hv, hc, Tile.isClaimedForSeat, hs,
            Seat.canOwnedTileBeClaimedBy, Seat.getTeamId, hteam]
        refine ⟨by simp [hd, hteam], by simp [hd, hcompat, hteam], fun _ => Or.inl hd⟩
      · have hd : t.isDiggable S = some false := by
          simp [Tile.isDiggable, hv, hc, Tile.isClaimedForSeat, hs,
            Seat.canOwnedTileBeClaimedBy, Seat.getTeamId, hteam]
        refine ⟨by simp [hd, hteam], by simp [hd, hcompat, hteam], fun _ => Or.inr hd⟩

/-- Witness for C4: the claimed dirt wall of `seatOne`, asked about by the
hostile `seatTwo`. -/
theorem C4_isDiggable_full_dirt_gold_witness :
    (claimedDirtWall.mType = TileType.dirt ∨ claimedDirtWall.mType = TileType.gold)
      ∧ claimedDirtWall.mFullness > 0
      ∧ claimedDirtWall.mTileVisual
          = computeVisual claimedDirtWall.mType claimedDirtWall.mFullness claimedDirtWall.isClaimed
      ∧ claimedDirtWall.isDiggable seatOne = some true
      ∧ claimedDirtWall.isDiggable seatTwo = some false
      ∧ (claimedDirtWall.isDiggable seatTwo = some true ↔
          (claimedDirtWall.isClaimed = false
            ∨ ∃ owner, claimedDirtWall.getSeat = some owner ∧ owner.mTeamId = seatTwo.mTeamId)) :=
  ⟨Or.inl rfl, by decide, rfl, rfl, rfl,
    (C4_isDiggable_full_dirt_gold claimedDirtWall seatTwo (Or.inl rfl) (by decide) rfl).1⟩

/-- C5 (scenario 1): a dirt tile constructed at (2,3) with fullness 100 is
unclaimed and diggable for every seat; once its fullness is 0 and the visual
has been recomputed, it is diggable for no seat and shows `dirtGround`. -/
theorem C5_scenario_dig_out_dirt (gameMap : GameMap) (seat : Seat) :
    (Tile.construct gameMap 2 3 TileType.dirt 100).mX = 2
      ∧ (Tile.construct gameMap 2 3 TileType.dirt 100).mY = 3
      ∧ (Tile.construct gameMap 2 3 TileType.dirt 100).isClaimed = false
      ∧ (Tile.construct gameMap 2 3 TileType.dirt 100).isDiggable seat = some true
      ∧ (Tile.computeTileVisual
          { Tile.construct gameMap 2 3 TileType.dirt 100 with mFullness := 0 }).isDiggable seat
          = some false
      ∧ (Tile.computeTileVisual
          { Tile.construct gameMap 2 3 TileType.dirt 100 with mFullness := 0 }).mTileVisual
          = TileVisual.dirtGround := by
  cases gameMap with
  | mk isServer =>
    cases isServer <;> refine ⟨rfl, rfl, rfl, rfl, rfl, rfl⟩

/-- C6: `isWallClaimable(seat)` is true iff (1) the fullness is not 0, (2) the
type is dirt, (3) some neighbour with fullness 0 is claimed for the seat's team
and (4) the tile is unclaimed, or it is claimed by a team other than the seat's
and no neighbour with fullness 0 is claimed for the owner's team. The call
always returns a value, and a wall already claimed for the requesting seat's
team is reported not claimable. The tiles are those of the data model: the
type is one of the five terrain kinds, the neighbours have a fullness of at
least 0, and a claimed tile has an owner (on the server map the last one holds
of every tile). -/
theorem C6_isWallClaimable_iff (t : Tile) (mNeighbors : List Tile) (seat : Seat)
    (htype : t.mType ≠ TileType.other)
    (howner : ∀ n ∈ t :: mNeighbors, n.isClaimed = true → n.getSeat ≠ none)
    (hrange : ∀ n ∈ mNeighbors, 0 ≤ n.mFullness) :
    (t.isWallClaimable mNeighbors seat = some true ↔
        t.mFullness ≠ 0
        ∧ t.mType = TileType.dirt
        ∧ (∃ n ∈ mNeighbors, n.mFullness = 0 ∧ n.claimedForTeam seat.mTeamId = true)
        ∧ (t.isClaimed = false
            ∨ ∃ owner, t.isClaimed = true ∧ t.getSeat = some owner
                ∧ owner.mTeamId ≠ seat.mTeamId
                ∧ ¬ ∃ n ∈ mNeighbors, n.mFullness = 0 ∧ n.claimedForTeam owner.mTeamId = true))
      ∧ (t.isWallClaimable mNeighbors seat = some true
          ∨ t.isWallClaimable mNeighbors seat = some false)
      ∧ (t.claimedForTeam seat.mTeamId = true → t.isWallClaimable mNeighbors seat = some false) := by
  have hn : ∀ n ∈ mNeighbors, n.isClaimed = true → n.getSeat ≠ none :=
    fun n hn => howner n (List.mem_cons_of_mem _ hn)
  have hground : ∀ n ∈ mNeighbors, (¬ n.mFullness > 0) ↔ n.mFullness = 0 := by
    intro n hmem
    constructor
    · intro h
      exact le_antisymm (not_lt.mp h) (hrange n hmem)
    · intro h
      simp [h]
  have hany : ∀ team : Int,
      Tile.anyClaimedGround mNeighbors team = true
        ↔ ∃ n ∈ mNeighbors, n.mFullness = 0 ∧ n.claimedForTeam team = true := by
    intro team
    unfold Tile.anyClaimedGround
    rw [List.any_eq_true]
    constructor
    · rintro ⟨n, hmem, h⟩
      rw [Bool.and_eq_true, decide_eq_true_eq] at h
      exact ⟨n, hmem, (hground n hmem).mp h.1, h.2⟩
    · rintro ⟨n, hmem, h0, hc⟩
      refine ⟨n, hmem, ?_⟩
      rw [Bool.and_eq_true, decide_eq_true_eq]
      exact ⟨(hground n hmem).mpr h0, hc⟩
  have hself := Tile.isClaimedForSeat_eq t seat (howner t (List.mem_cons_self _ _))
  have hloop := fun s => Tile.foundClaimedGroundTile_eq mNeighbors s hn
  have hval : t.isWallClaimable mNeighbors seat
      = some (decide (t.mFullness ≠ 0) && decide (t.mType = TileType.dirt)
          && Tile.anyClaimedGround mNeighbors seat.mTeamId
          && (!t.isClaimed
              || (!t.claimedForTeam seat.mTeamId
                  && (match t.getSeat with
                      | none => true
                      | some owner => !Tile.anyClaimedGround mNeighbors owner.mTeamId)))) := by
    unfold Tile.isWallClaimable
    rw [hloop seat, hself]
    by_cases hf0 : t.mFullness = 0
    · simp [Tile.getFullness, hf0]
    · by_cases hdirt : t.mType = TileType.dirt
      · cases hfound : Tile.anyClaimedGround mNeighbors seat.mTeamId
        · simp [Tile.getFullness, hf0, hdirt]
        · cases hc : t.isClaimed
          · simp [Tile.getFullness, hf0, hdirt]
          · cases hcf : t.claimedForTeam seat.mTeamId
            · cases hs : t.getSeat with
              | none => simp [Tile.getFullness, hf0, hdirt]
              | some owner =>
                have hlo := hloop owner
                cases hfo : Tile.anyClaimedGround mNeighbors owner.mTeamId <;>
                  rw [hfo] at hlo <;>
                  simp [Tile.getFullness, hf0, hdirt, hlo, hfo]
            · simp [Tile.getFullness, hf0, hdirt]
      · have hexcl : t.mType = TileType.lava ∨ t.mType = TileType.water
            ∨ t.mType = TileType.rock ∨ t.mType = TileType.gold := by
          cases hty : t.mType <;> simp_all
        simp [Tile.getFullness, hf0, hdirt, hexcl]
  refine ⟨?_, ?_, ?_⟩
  · rw [hval]
    simp only [Option.some.injEq, Bool.and_eq_true, decide_eq_true_eq, Bool.or_eq_true,
      Bool.not_eq_true', hany]
    constructor
    · rintro ⟨⟨⟨h1, h2⟩, h3⟩, h4⟩
      refine ⟨h1, h2, h3, ?_⟩
      rcases h4 with h4 | ⟨h4, h5⟩
      · exact Or.inl h4
      · cases hc : t.isClaimed
        · exact Or.inl rfl
        · right
          cases hs : t.getSeat with
          | none => exact absurd hs (howner t (List.mem_cons_self _ _) hc)
          | some owner =>
            refine ⟨owner, rfl, rfl, ?_, ?_⟩
            · intro hteam
              simp [Tile.claimedForTeam, hc, hs, hteam] at h4
            · rw [hs] at h5
              simp only [Bool.not_eq_true'] at h5
              rw [← hany, h5]
              simp
    · rintro ⟨h1, h2, h3, h4⟩
      refine ⟨⟨⟨h1, h2⟩, h3⟩, ?_⟩
      rcases h4 with h4 | ⟨owner, hc, hs, hteam, hno⟩
      · exact Or.inl h4
      · right
        constructor
        · simp [Tile.claimedForTeam, hc, hs, hteam]
        · rw [hs]
          simp only [Bool.not_eq_true']
          rw [← hany] at hno
          simpa using hno
  · rw [hval]
    cases (decide (t.mFullness ≠ 0) && decide (t.mType = TileType.dirt)
          && Tile.anyClaimedGround mNeighbors seat.mTeamId
          && (!t.isClaimed
              || (!t.claimedForTeam seat.mTeamId
                  && (match t.getSeat with
                      | none => true
                      | some owner => !Tile.anyClaimedGround mNeighbors owner.mTeamId))))
    · exact Or.inr rfl
    · exact Or.inl rfl
  · intro hcf
    rw [hval]
    have hc : t.isClaimed = true := by
      unfold Tile.claimedForTeam at hcf
      rw [Bool.and_eq_true] at hcf
      exact hcf.1
    simp [hcf, hc]

/-- Witness for C6: the wall at (5,5) claimed by `seatTwo`, next to open floor
claimed by `seatOne` only, is claimable for `seatOne`. -/
theorem C6_isWallClaimable_iff_witness :
    wallOfSeatTwo.mType ≠ TileType.other
      ∧ (∀ n ∈ [wallOfSeatTwo, groundOfSeatOne], n.isClaimed = true → n.getSeat ≠ none)
      ∧ (∀ n ∈ [groundOfSeatOne], 0 ≤ n.mFullness)
      ∧ wallOfSeatTwo.isWallClaimable [groundOfSeatOne] seatOne = some true
      ∧ (wallOfSeatTwo.mFullness ≠ 0
          ∧ wallOfSeatTwo.mType = TileType.dirt
          ∧ (∃ n ∈ [groundOfSeatOne], n.mFullness = 0 ∧ n.claimedForTeam seatOne.mTeamId = true)
          ∧ (wallOfSeatTwo.isClaimed = false
              ∨ ∃ owner, wallOfSeatTwo.isClaimed = true ∧ wallOfSeatTwo.getSeat = some owner
                  ∧ owner.mTeamId ≠ seatOne.mTeamId
                  ∧ ¬ ∃ n ∈ [groundOfSeatOne],
                      n.mFullness = 0 ∧ n.claimedForTeam owner.mTeamId = true)) :=
  have htype : wallOfSeatTwo.mType ≠ TileType.other := by decide
  have howner : ∀ n ∈ [wallOfSeatTwo, groundOfSeatOne],
      n.isClaimed = true → n.getSeat ≠ none := by
    intro n hn
    simp only [List.mem_cons, List.mem_singleton, List.not_mem_nil, or_false] at hn
    rcases hn with rfl | rfl <;> intro _ <;> decide
  have hrange : ∀ n ∈ [groundOfSeatOne], 0 ≤ n.mFullness := by
    intro n hn
    simp only [List.mem_singleton] at hn
    subst hn
    decide
  ⟨htype, howner, hrange, rfl,
    (C6_isWallClaimable_iff wallOfSeatTwo [groundOfSeatOne] seatOne htype howner hrange).1.mp rfl⟩

/-- C7: `isWallClaimable(seat)` returns false when the tile is open floor
(fullness 0) and when its type is rock, gold, water or lava, whatever the
claims on the tile and on its neighbours. -/
theorem C7_isWallClaimable_rejects (t : Tile) (mNeighbors : List Tile) (seat : Seat)
    (h : t.mFullness = 0 ∨ t.mType = TileType.rock ∨ t.mType = TileType.gold
        ∨ t.mType = TileType.water ∨ t.mType = TileType.lava) :
    t.isWallClaimable mNeighbors seat = some false := by
  unfold Tile.isWallClaimable
  by_cases hf : t.getFullness = 0
  · simp [hf]
  · have hty : t.mType = TileType.lava ∨ t.mType = TileType.water ∨ t.mType = TileType.rock
        ∨ t.mType = TileType.gold := by
      rcases h with h | h | h | h | h
      · exact absurd h hf
      · exact Or.inr (Or.inr (Or.inl h))
      · exact Or.inr (Or.inr (Or.inr h))
      · exact Or.inr (Or.inl h)
      · exact Or.inl h
    simp [hf, hty]

/-- Witness for C7: the claimed rock wall, with open floor of its owner's team
next to it. -/
theorem C7_isWallClaimable_rejects_witness :
    claimedRockWall.mType = TileType.rock
      ∧ claimedRockWall.isWallClaimable [groundOfSeatOne] seatOne = some false :=
  ⟨rfl,
    C7_isWallClaimable_rejects claimedRockWall [groundOfSeatOne] seatOne (Or.inr (Or.inl rfl))⟩

/-- C8 (scenario 2): the dirt wall constructed at (5,5) is unclaimed. While
every claimed open-floor neighbour is claimed by seat 1, whose team differs
from the team of seat 2, `isWallClaimable(seat 2)` is false. In every
neighbour configuration in which claimed tiles have an owner and some
neighbour with fullness 0 is claimed for the team of seat 2,
`isWallClaimable(seat 2)` is true. -/
theorem C8_scenario_contested_wall (gameMap : GameMap) (fullness : ℚ) (seat1 seat2 : Seat)
    (mNeighbors : List Tile)
    (hwall : fullness ≠ 0)
    (hteams : seat1.mTeamId ≠ seat2.mTeamId)
    (honly : ∀ n ∈ mNeighbors, ¬ n.mFullness > 0 → n.isClaimed = true → n.getSeat = some seat1) :
    (Tile.construct gameMap 5 5 TileType.dirt fullness).isClaimed = false
      ∧ (Tile.construct gameMap 5 5 TileType.dirt fullness).isWallClaimable mNeighbors seat2
          = some false
      ∧ (∀ mNeighbors' : List Tile,
          (∀ n ∈ mNeighbors', n.isClaimed = true → n.getSeat ≠ none) →
          (∃ n ∈ mNeighbors', n.mFullness = 0 ∧ n.claimedForTeam seat2.mTeamId = true) →
          (Tile.construct gameMap 5 5 TileType.dirt fullness).isWallClaimable mNeighbors' seat2
            = some true) := by
  obtain ⟨-, hty, hfu, -, -, hcl⟩ := Tile.construct_fields gameMap 5 5 TileType.dirt fullness
  refine ⟨hcl, ?_, ?_⟩
  · unfold Tile.isWallClaimable
    rw [Tile.foundClaimedGroundTile_hostile mNeighbors seat1 seat2 hteams honly]
    simp [Tile.getFullness, hfu, hty, hwall]
  · intro mNeighbors' howner hfound
    have hany : Tile.anyClaimedGround mNeighbors' seat2.mTeamId = true := by
      obtain ⟨n, hmem, h0, hc⟩ := hfound
      unfold Tile.anyClaimedGround
      rw [List.any_eq_true]
      refine ⟨n, hmem, ?_⟩
      simp [h0, hc]
    unfold Tile.isWallClaimable
    rw [Tile.foundClaimedGroundTile_eq mNeighbors' seat2 howner, hany]
    simp [Tile.getFullness, hfu, hty, hwall, hcl]

/-- Witness for C8: the wall at (5,5) on the server map with seats of teams 1
and 2. Next to open floor of `seatOne` only, the wall is not claimable for
`seatTwo`; with open floor of `seatTwo` next to it as well, it is. -/
theorem C8_scenario_contested_wall_witness :
    seatOne.mTeamId ≠ seatTwo.mTeamId
      ∧ groundOfSeatOne.mFullness = 0
      ∧ groundOfSeatOne.getSeat = some seatOne
      ∧ wallTile.isWallClaimable [groundOfSeatOne] seatTwo = some false
      ∧ wallTile.isWallClaimable [groundOfSeatOne, groundOfSeatTwo] seatTwo = some true :=
  have h := C8_scenario_contested_wall { isServerGameMap := true } 100 seatOne seatTwo
    [groundOfSeatOne] (by decide) (by decide)
    (by
      intro n hn
      simp only [List.mem_singleton] at hn
      subst hn
      intro _ _
      rfl)
  ⟨by decide, rfl, rfl, h.2.1,
    h.2.2 [groundOfSeatOne, groundOfSeatTwo]
      (by
        intro n hn
        simp only [List.mem_cons, List.mem_singleton, List.not_mem_nil, or_false] at hn
        rcases hn with rfl | rfl <;> intro _ <;> decide)
      ⟨groundOfSeatTwo, by simp, rfl, rfl⟩⟩

/-- C9: `A.canOwnedTileBeClaimedBy(B)` is true iff the team ids of `A` and `B`
differ. The relation is symmetric, no seat can claim against its own tiles,
and it is the negation of `A.isAlliedSeat(B)`. -/
theorem C9_canOwnedTileBeClaimedBy (A B : Seat) :
    (A.canOwnedTileBeClaimedBy B = true ↔ A.mTeamId ≠ B.mTeamId)
      ∧ A.canOwnedTileBeClaimedBy B = B.canOwnedTileBeClaimedBy A
      ∧ A.canOwnedTileBeClaimedBy A = false
      ∧ A.canOwnedTileBeClaimedBy B = !A.isAlliedSeat B := by
  unfold Seat.canOwnedTileBeClaimedBy Seat.isAlliedSeat Seat.getTeamId
  by_cases h : A.mTeamId = B.mTeamId
  · simp [h]
  · have h' : ¬ B.mTeamId = A.mTeamId := fun e => h e.symm
    simp [h, h']

/-- C10: `isWallClaimedForSeat(S)` is true iff the tile is a wall (fullness
not 0), its claimed percentage is at least 1, it has an owner, and
`owner.canOwnedTileBeClaimedBy(S)` is false. It is false in every other case:
open floor, a percentage below 1, no owner (also when fully claimed), or an
owner whose team can claim against `S`. -/
theorem C10_isWallClaimedForSeat (t : Tile) (S : Seat) :
    (t.isWallClaimedForSeat S = true ↔
        t.mFullness ≠ 0 ∧ 1 ≤ t.mClaimedPercentage
          ∧ ∃ owner, t.getSeat = some owner ∧ owner.canOwnedTileBeClaimedBy S = false)
      ∧ (t.isWallClaimedForSeat S = false ↔
        t.mFullness = 0 ∨ t.mClaimedPercentage < 1 ∨ t.getSeat = none
          ∨ ∃ owner, t.getSeat = some owner ∧ owner.canOwnedTileBeClaimedBy S = true)
      ∧ (t.getSeat = none → t.isWallClaimedForSeat S = false) := by
  unfold Tile.isWallClaimedForSeat
  by_cases hf : t.mFullness = 0
  · simp [Tile.getFullness, hf]
  · by_cases hp : t.mClaimedPercentage < 1
    · simp [Tile.getFullness, hf, hp]
    · cases hs : t.getSeat with
      | none => simp [Tile.getFullness, hf, hp]
      | some owner =>
        cases hc : owner.canOwnedTileBeClaimedBy S <;>
          simp [Tile.getFullness, hf, hp, hc, not_lt.mp hp]

/-- C11 counterexample: on the claimed ground tile of seat one the nominal dig
rate 3 is scaled to 5404319552844596 / 2^53, the `double` printed as
0.6000000000000001, which is not one fifth of 3. -/
theorem C11_one_fifth_is_inexact :
    groundOfSeatOne.isClaimed = true ∧ groundOfSeatOne.mFullness = 0 ∧
    groundOfSeatOne.scaleDigRate 3 = 5404319552844596 / 9007199254740992 ∧
    groundOfSeatOne.scaleDigRate 3 ≠ 3 / 5 := by
  have hclaimed : groundOfSeatOne.isClaimed = true := by decide
  have hscaled : groundOfSeatOne.scaleDigRate 3 = 5404319552844596 / 9007199254740992 := by
    unfold Tile.scaleDigRate
    rw [hclaimed]
    exact binary64Mul_oneFifth_three
  refine ⟨hclaimed, rfl, hscaled, ?_⟩
  rw [hscaled]
  norm_num

/-- C11: `scaleDigRate(r)` returns `r` unchanged on an unclaimed tile. On a
claimed tile, open floor or not, it returns the product of the type `double`
of the constant `0.2`, which is 3602879701896397 / 2^54, and `r`: the nearest
`double` to that product, which differs from one fifth of `r` by at most
`|r / 5| / 2^52 + 1 / 2^1075` and, for `r` zero or of magnitude 2^-1074 or
more as every `double` is, is not larger in magnitude than `r`. -/
theorem C11_scaleDigRate (t : Tile) (r : ℚ) :
    (t.isClaimed = false → t.scaleDigRate r = r) ∧
    (t.isClaimed = true →
      t.scaleDigRate r = binary64 (3602879701896397 / 18014398509481984 * r) ∧
      |t.scaleDigRate r - r / 5| ≤ |r / 5| / 2 ^ 52 + 1 / 2 ^ 1075 ∧
      (r = 0 ∨ 1 / 2 ^ 1074 ≤ |r| → |t.scaleDigRate r| ≤ |r|)) ∧
    (t.isClaimed = true → t.mFullness = 0 →
      |t.scaleDigRate r - r / 5| ≤ |r / 5| / 2 ^ 52 + 1 / 2 ^ 1075) := by
  unfold Tile.scaleDigRate
  cases hc : t.isClaimed
  · simp
  · simp only [Bool.not_true, Bool.false_eq_true, if_false, true_implies]
    refine ⟨by simp, ⟨?_, binary64Mul_oneFifth_error r, binary64Mul_oneFifth_le r⟩,
      fun _ => binary64Mul_oneFifth_error r⟩
    rw [binary64_oneFifth]
    rfl

/-- C12: `nextTileFullness` follows the ladder 0, 25, 50, 75, 100, 0. On the
ladder the result is the next value and five applications give the input back;
every integer input gives a ladder value, and every input off the ladder gives
0. -/
theorem C12_nextTileFullness_ladder :
    Tile.nextTileFullness 0 = 25
      ∧ Tile.nextTileFullness 25 = 50
      ∧ Tile.nextTileFullness 50 = 75
      ∧ Tile.nextTileFullness 75 = 100
      ∧ Tile.nextTileFullness 100 = 0
      ∧ (∀ f : Int, f = 0 ∨ f = 25 ∨ f = 50 ∨ f = 75 ∨ f = 100 →
          Tile.nextTileFullness (Tile.nextTileFullness (Tile.nextTileFullness
            (Tile.nextTileFullness (Tile.nextTileFullness f)))) = f)
      ∧ (∀ f : Int, Tile.nextTileFullness f = 0 ∨ Tile.nextTileFullness f = 25
          ∨ Tile.nextTileFullness f = 50 ∨ Tile.nextTileFullness f = 75
          ∨ Tile.nextTileFullness f = 100)
      ∧ (∀ f : Int, f ≠ 0 → f ≠ 25 → f ≠ 50 → f ≠ 75 → f ≠ 100 →
          Tile.nextTileFullness f = 0) := by
  refine ⟨rfl, rfl, rfl, rfl, rfl, ?_, ?_, ?_⟩
  · intro f hf
    rcases hf with h | h | h | h | h <;> subst h <;> rfl
  · intro f
    unfold Tile.nextTileFullness
    split_ifs <;> simp
  · intro f h0 h25 h50 h75 h100
    simp [Tile.nextTileFullness, h0, h25, h50, h75, h100]

/-- C13: `isFloodFillFilled()` is true iff the fullness is above 0; or the type
is dirt, gold or rock and the colours of all four categories differ from -1;
or the type is water and the colours of groundWater and groundWaterLava differ
from -1; or the type is lava and the colours of groundLava and groundWaterLava
differ from -1; or the type is none of these five. With one colour per
category the call always returns a value. -/
theorem C13_isFloodFillFilled_iff (t : Tile) :
    (t.isFloodFillFilled = some true ↔
        t.mFullness > 0
        ∨ ((t.mType = TileType.dirt ∨ t.mType = TileType.gold ∨ t.mType = TileType.rock)
            ∧ t.floodFillValue FloodFillType.ground ≠ -1
            ∧ t.floodFillValue FloodFillType.groundWater ≠ -1
            ∧ t.floodFillValue FloodFillType.groundLava ≠ -1
            ∧ t.floodFillValue FloodFillType.groundWaterLava ≠ -1)
        ∨ (t.mType = TileType.water
            ∧ t.floodFillValue FloodFillType.groundWater ≠ -1
            ∧ t.floodFillValue FloodFillType.groundWaterLava ≠ -1)
        ∨ (t.mType = TileType.lava
            ∧ t.floodFillValue FloodFillType.groundLava ≠ -1
            ∧ t.floodFillValue FloodFillType.groundWaterLava ≠ -1)
        ∨ (t.mType ≠ TileType.dirt ∧ t.mType ≠ TileType.gold ∧ t.mType ≠ TileType.rock
            ∧ t.mType ≠ TileType.water ∧ t.mType ≠ TileType.lava))
      ∧ (t.mFloodFillColor.length = floodFillNbValues →
          t.isFloodFillFilled = some true ∨ t.isFloodFillFilled = some false) := by
  constructor
  · unfold Tile.isFloodFillFilled Tile.getFullness Tile.getType
    by_cases hf : t.mFullness > 0
    · simp [hf]
    · cases hty : t.mType <;>
        simp [hf, Tile.allColored_eq_true_iff, Tile.floodFillValue_ne_iff]
  · intro hlen
    unfold Tile.isFloodFillFilled Tile.getFullness Tile.getType
    by_cases hf : t.mFullness > 0
    · simp [hf]
    · have hall : ∀ types : List FloodFillType, (∀ ty ∈ types, ty ≠ FloodFillType.nbValues) →
          Tile.allColored t.mFloodFillColor types = some true
            ∨ Tile.allColored t.mFloodFillColor types = some false := by
        intro types hne
        apply Tile.allColored_defined
        intro ty hty
        rw [hlen]
        have := hne ty hty
        cases ty <;> simp_all [toUInt32, floodFillNbValues]
      cases hty : t.mType <;> simp only [hf, if_false] <;>
        first
          | exact Or.inl trivial
          | (apply hall; simp)

/-- C14 (merge rule): `B.updateFloodFillFromTile(C, A)` returns true iff the
colour of `A` for `C` is not -1 and the colour of `B` for `C` is -1. When it
returns true, the colour of `B` for `C` becomes the colour of `A` for `C` and
the colours of `B` for the other categories stay; when it returns false, `B`
is unchanged. Nothing but the colour vector of `B` is written, and `A` is only
read. Both tiles carry one colour per category. -/
theorem C14_updateFloodFillFromTile_merge (C : FloodFillType) (B A : Tile)
    (hB : B.mFloodFillColor.length = floodFillNbValues)
    (hA : A.mFloodFillColor.length = floodFillNbValues) :
    ∃ flag receiver, B.updateFloodFillFromTile C A = some (flag, receiver)
      ∧ (flag = true ↔ A.floodFillValue C ≠ -1 ∧ B.floodFillValue C = -1)
      ∧ (flag = true → receiver.floodFillValue C = A.floodFillValue C)
      ∧ (flag = true → ∀ other, other ≠ C → receiver.floodFillValue other = B.floodFillValue other)
      ∧ (flag = false → receiver = B)
      ∧ receiver = { B with mFloodFillColor := receiver.mFloodFillColor }
      ∧ receiver.mFloodFillColor.length = floodFillNbValues := by
  obtain ⟨flag, receiver, hcall, hlen, hflag, hfalse, htrue, hother, -, hframe⟩ :=
    Tile.updateFloodFillFromTile_colors B C A hB hA
  exact ⟨flag, receiver, hcall, hflag, htrue, fun _ => hother, hfalse, hframe, hlen⟩

/-- Witness for C14: the fresh floor takes the ground colour 7 of the coloured
floor, and nothing for groundLava, which the coloured floor lacks. -/
theorem C14_updateFloodFillFromTile_merge_witness :
    freshFloor.mFloodFillColor.length = floodFillNbValues
      ∧ colouredFloor.mFloodFillColor.length = floodFillNbValues
      ∧ (freshFloor.updateFloodFillFromTile FloodFillType.ground colouredFloor).map
          (fun r => (r.1, r.2.mFloodFillColor)) = some (true, [7, -1, -1, -1])
      ∧ (freshFloor.updateFloodFillFromTile FloodFillType.groundLava colouredFloor).map
          (fun r => (r.1, r.2.mFloodFillColor)) = some (false, [-1, -1, -1, -1])
      ∧ ∃ flag receiver,
          freshFloor.updateFloodFillFromTile FloodFillType.ground colouredFloor
            = some (flag, receiver)
          ∧ (flag = true ↔ colouredFloor.floodFillValue FloodFillType.ground ≠ -1
              ∧ freshFloor.floodFillValue FloodFillType.ground = -1) :=
  ⟨rfl, rfl, rfl, rfl,
    match C14_updateFloodFillFromTile_merge FloodFillType.ground freshFloor colouredFloor rfl rfl
    with
    | ⟨flag, receiver, hcall, hflag, _⟩ => ⟨flag, receiver, hcall, hflag⟩⟩

/-- C15 (flood-fill idempotence): among the tiles of a map, each with one
colour per category, a call of `updateFloodFillFromTile` applied a second time
returns false and leaves the colouring of the first application; and after any
sequence of calls every colour that was not -1 is still the same colour, so
none went back to -1 and none was replaced. Every sequence of calls runs to
its end. -/
theorem C15_floodFill_idempotent (grid : Nat → Tile)
    (hgrid : ∀ k, (grid k).mFloodFillColor.length = floodFillNbValues) :
    (∀ call : FloodFillCall, ∃ grid1, applyFloodFillCall grid call = some grid1
        ∧ applyFloodFillCall grid1 call = some grid1
        ∧ (grid1 call.receiver).updateFloodFillFromTile call.type (grid1 call.source)
            = some (false, grid1 call.receiver))
      ∧ (∀ calls : List FloodFillCall, ∃ grid2, applyFloodFillCalls grid calls = some grid2
          ∧ (∀ k, (grid2 k).mFloodFillColor.length = floodFillNbValues)
          ∧ (∀ k type, (grid k).floodFillValue type ≠ -1 →
              (grid2 k).floodFillValue type = (grid k).floodFillValue type)) := by
  constructor
  · intro call
    obtain ⟨grid1, h1, -, -, hsecond, hagain⟩ := applyFloodFillCall_spec grid hgrid call
    exact ⟨grid1, h1, hagain, hsecond⟩
  · intro calls
    induction calls generalizing grid with
    | nil => exact ⟨grid, rfl, hgrid, fun _ _ _ => rfl⟩
    | cons call rest ih =>
      obtain ⟨grid1, h1, hlen1, hkeep1, -, -⟩ := applyFloodFillCall_spec grid hgrid call
      obtain ⟨grid2, h2, hlen2, hkeep2⟩ := ih grid1 hlen1
      refine ⟨grid2, ?_, hlen2, ?_⟩
      · simp [applyFloodFillCalls, h1, h2]
      · intro k type hset
        have hstep := hkeep1 k type hset
        rw [hkeep2 k type (by rw [hstep]; exact hset), hstep]

/-- Witness for C15: on `floorGrid`, colouring tile 0 from tile 1 for the
ground category, then trying the same call again and a call in the other
direction, leaves tile 0 with the colour 7 and tile 1 as it was. -/
theorem C15_floodFill_idempotent_witness :
    (∀ k, (floorGrid k).mFloodFillColor.length = floodFillNbValues)
      ∧ (∃ grid2,
          applyFloodFillCalls floorGrid
              [{ type := FloodFillType.ground, receiver := 0, source := 1 },
               { type := FloodFillType.ground, receiver := 0, source := 1 },
               { type := FloodFillType.ground, receiver := 1, source := 0 }] = some grid2
          ∧ (∀ k type, (floorGrid k).floodFillValue type ≠ -1 →
              (grid2 k).floodFillValue type = (floorGrid k).floodFillValue type)) :=
  have hgrid : ∀ k, (floorGrid k).mFloodFillColor.length = floodFillNbValues := by
    intro k
    unfold floorGrid
    by_cases hk : k = 0
    · rw [if_pos hk]
      rfl
    · rw [if_neg hk]
      rfl
  ⟨hgrid,
    match (C15_floodFill_idempotent floorGrid hgrid).2
      [{ type := FloodFillType.ground, receiver := 0, source := 1 },
       { type := FloodFillType.ground, receiver := 0, source := 1 },
       { type := FloodFillType.ground, receiver := 1, source := 0 }] with
    | ⟨grid2, hrun, _, hkeep⟩ => ⟨grid2, hrun, hkeep⟩⟩

/-- C16: after `resetFloodFill()` every entry of the colour vector is -1, as
after construction, so `floodFillValue(C)` is -1 for every category `C`, and
nothing else of the tile has changed. With one colour per category, an
open-floor tile of type dirt, gold, rock, water or lava is then not
`isFloodFillFilled`. -/
theorem C16_resetFloodFill (t : Tile) :
    (∀ C : FloodFillType, t.resetFloodFill.floodFillValue C = -1)
      ∧ t.resetFloodFill.mFloodFillColor = List.replicate t.mFloodFillColor.length (-1)
      ∧ t.resetFloodFill = { t with mFloodFillColor := t.resetFloodFill.mFloodFillColor }
      ∧ (∀ (gameMap : GameMap) (x y : Int) (type : TileType) (fullness : ℚ),
          (Tile.construct gameMap x y type fullness).mFloodFillColor
            = List.replicate floodFillNbValues (-1))
      ∧ (t.mFloodFillColor.length = floodFillNbValues → t.mFullness = 0 →
          t.mType ≠ TileType.other → t.resetFloodFill.isFloodFillFilled = some false) := by
  have hcolors : t.resetFloodFill.mFloodFillColor
      = List.replicate t.mFloodFillColor.length (-1) := by
    unfold Tile.resetFloodFill
    simp only
    induction t.mFloodFillColor with
    | nil => rfl
    | cons c rest ih => simp [List.replicate_succ, ih]
  have hread : ∀ i : Nat, (List.replicate t.mFloodFillColor.length (-1 : Int))[i]?.getD (-1)
      = -1 := by
    intro i
    by_cases hi : i < t.mFloodFillColor.length
    · simp [List.getElem?_replicate, hi]
    · simp [List.getElem?_replicate, hi]
  refine ⟨?_, hcolors, rfl, ?_, ?_⟩
  · intro C
    rw [Tile.floodFillValue_eq, hcolors]
    exact hread _
  · intro gameMap x y type fullness
    unfold Tile.construct
    rw [Tile.computeTileVisual_eq]
    rfl
  · intro hlen hfull hty
    have hfalse : ∀ (C : FloodFillType) (rest : List FloodFillType),
        C ≠ FloodFillType.nbValues →
        Tile.allColored t.resetFloodFill.mFloodFillColor (C :: rest) = some false := by
      intro C rest hC
      have hlt : toUInt32 C < t.mFloodFillColor.length := by
        rw [hlen]
        cases C <;> simp_all [toUInt32, floodFillNbValues]
      unfold Tile.allColored
      rw [hcolors]
      simp [List.getElem?_replicate, hlt]
    have hf : ¬ t.resetFloodFill.getFullness > 0 := by
      simp [Tile.resetFloodFill, Tile.getFullness, hfull]
    have hty' : t.resetFloodFill.getType = t.mType := rfl
    unfold Tile.isFloodFillFilled
    rw [if_neg hf, hty']
    cases htype : t.mType
    · exact hfalse _ _ (by simp)
    · exact hfalse _ _ (by simp)
    · exact hfalse _ _ (by simp)
    · exact hfalse _ _ (by simp)
    · exact hfalse _ _ (by simp)
    · exact absurd htype hty

/-- C17, as stated, fails: for a seat with a human player on a client map
`sendVisibleTiles` returns at its first test and queues no notification, so
there is no gained list, although the tile at (0,0) has current true and
previous false. -/
theorem C17_client_seat_sends_nothing :
    clientHumanSeat.mPlayer = some { mIsHuman := true }
      ∧ clientHumanSeat.mGameMap.isServerGameMap = false
      ∧ clientHumanSeat.visionAt 0 0 = some (false, true)
      ∧ (clientHumanSeat.sendVisibleTiles coordinateTile).2.isNone = true := by
  refine ⟨rfl, rfl, rfl, rfl⟩

/-- C17, amended: for a seat with a human player on the server map,
`sendVisibleTiles` queues a notification whose gained list contains a tile iff
its pair has current true and previous false, and whose lost list contains a
tile iff its pair has current false and previous true. Both lists hold tiles
of the table only, the two lists are disjoint, neither has a tile twice, and a
tile with previous equal to current is in neither. `getTile` gives distinct
tiles at distinct coordinates. -/
theorem C17_sendVisibleTiles_diff {τ : Type} (s : Seat) (getTile : Nat → Nat → τ)
    (player : Player)
    (hserver : s.mGameMap.isServerGameMap = true)
    (hplayer : s.mPlayer = some player)
    (hhuman : player.mIsHuman = true)
    (hinj : ∀ x y x' y', getTile x y = getTile x' y' → x = x' ∧ y = y') :
    ∃ gained lost,
      s.sendVisibleTiles getTile
          = (s, some { tilesVisionGained := gained, tilesVisionLost := lost })
      ∧ (∀ x y previous current, s.visionAt x y = some (previous, current) →
          (getTile x y ∈ gained ↔ current = true ∧ previous = false)
            ∧ (getTile x y ∈ lost ↔ current = false ∧ previous = true))
      ∧ (∀ t, t ∈ gained ∨ t ∈ lost → ∃ x y p, s.visionAt x y = some p ∧ t = getTile x y)
      ∧ gained.Nodup
      ∧ lost.Nodup
      ∧ (∀ t, t ∈ gained → t ∉ lost)
      ∧ (∀ x y previous current, s.visionAt x y = some (previous, current) →
          previous = current → getTile x y ∉ gained ∧ getTile x y ∉ lost) := by
  have hmem : ∀ (cur : Bool) x y previous current,
      s.visionAt x y = some (previous, current) →
      (getTile x y ∈ changedInTable cur getTile s.mTilesVision 0
        ↔ current = cur ∧ previous = !cur) := by
    intro cur x y previous current hat
    rw [mem_changedInTable]
    unfold Seat.visionAt at hat
    constructor
    · rintro ⟨i, vec, j, hi, hj, ht⟩
      obtain ⟨hx, hy⟩ := hinj _ _ _ _ ht
      have hx' : x = i := by omega
      subst hx' hy
      rw [hi] at hat
      simp only at hat
      rw [hj] at hat
      have := Option.some.inj hat
      simp only [Prod.mk.injEq] at this
      exact ⟨this.2.symm, this.1.symm⟩
    · rintro ⟨hc, hp⟩
      subst hc hp
      cases htab : s.mTilesVision[x]? with
      | none => simp [htab] at hat
      | some vec =>
        rw [htab] at hat
        exact ⟨x, vec, y, htab, hat, by simp⟩
  have hfrom : ∀ (cur : Bool) t, t ∈ changedInTable cur getTile s.mTilesVision 0 →
      ∃ x y p, s.visionAt x y = some p ∧ t = getTile x y := by
    intro cur t ht
    obtain ⟨i, vec, j, hi, hj, hte⟩ := (mem_changedInTable cur getTile _ 0 t).mp ht
    refine ⟨i, j, (!cur, cur), ?_, by simpa using hte⟩
    unfold Seat.visionAt
    rw [hi]
    exact hj
  refine ⟨changedInTable true getTile s.mTilesVision 0,
    changedInTable false getTile s.mTilesVision 0, ?_, ?_, ?_, ?_, ?_, ?_, ?_⟩
  · unfold Seat.sendVisibleTiles
    simp [hserver, hplayer, hhuman, Seat.sendVisibleTilesRows_eq]
  · intro x y previous current hat
    refine ⟨?_, ?_⟩
    · simpa using hmem true x y previous current hat
    · simpa using hmem false x y previous current hat
  · rintro t (ht | ht)
    · exact hfrom true t ht
    · exact hfrom false t ht
  · exact nodup_changedInTable true getTile hinj _ 0
  · exact nodup_changedInTable false getTile hinj _ 0
  · intro t hg hl
    obtain ⟨x, y, p, hat, hte⟩ := hfrom true t hg
    obtain ⟨previous, current⟩ := p
    rw [hte] at hg hl
    have h1 := (hmem true x y previous current hat).mp hg
    have h2 := (hmem false x y previous current hat).mp hl
    rw [h1.1] at h2
    exact absurd h2.1 (by simp)
  · intro x y previous current hat heq
    subst heq
    constructor
    · intro hg
      have h := (hmem true x y previous previous hat).mp hg
      rw [h.1] at h
      exact absurd h.2 (by simp)
    · intro hl
      have h := (hmem false x y previous previous hat).mp hl
      rw [h.1] at h
      exact absurd h.2 (by simp)

/-- Witness for C17: the human seat of the server map gains (0,0) and loses
(1,0). -/
theorem C17_sendVisibleTiles_diff_witness :
    humanSeat.mGameMap.isServerGameMap = true
      ∧ humanSeat.mPlayer = some { mIsHuman := true }
      ∧ (humanSeat.sendVisibleTiles coordinateTile).2.map
          (fun n => (n.tilesVisionGained, n.tilesVisionLost)) = some ([(0, 0)], [(1, 0)])
      ∧ ∃ gained lost,
          humanSeat.sendVisibleTiles coordinateTile
            = (humanSeat, some { tilesVisionGained := gained, tilesVisionLost := lost })
          ∧ gained.Nodup ∧ lost.Nodup :=
  ⟨rfl, rfl, rfl,
    match C17_sendVisibleTiles_diff humanSeat coordinateTile { mIsHuman := true } rfl rfl rfl
      (by
        intro x y x' y' h
        simpa [coordinateTile] using h) with
    | ⟨gained, lost, hsend, _, _, hg, hl, _⟩ => ⟨gained, lost, hsend, hg, hl⟩⟩

/-- C18, as stated, fails: after `sendVisibleTiles` has returned, the tile at
(0,0) of the human seat still has previous false and current true. -/
theorem C18_previous_differs_after_send :
    humanSeat.mPlayer = some { mIsHuman := true }
      ∧ (humanSeat.sendVisibleTiles coordinateTile).2.isSome = true
      ∧ (humanSeat.sendVisibleTiles coordinateTile).1.visionAt 0 0 = some (false, true) := by
  refine ⟨rfl, rfl, rfl⟩

/-- C18, amended: `sendVisibleTiles` leaves the seat, and so both flags of
every tile, as they were. For a human seat it is the following
`clearTilesWithVision` that gives the previous flag of every tile the value
its current flag had when the diff was computed, and sets the current flag to
false. -/
theorem C18_previous_set_by_next_clear {τ : Type} (s : Seat) (getTile : Nat → Nat → τ)
    (player : Player)
    (hplayer : s.mPlayer = some player)
    (hhuman : player.mIsHuman = true) :
    (s.sendVisibleTiles getTile).1 = s
      ∧ (∀ x y previous current, s.visionAt x y = some (previous, current) →
          (s.sendVisibleTiles getTile).1.visionAt x y = some (previous, current)
            ∧ (s.sendVisibleTiles getTile).1.clearTilesWithVision.visionAt x y
                = some (current, false)) := by
  have hsame : (s.sendVisibleTiles getTile).1 = s := by
    unfold Seat.sendVisibleTiles
    cases s.mGameMap.isServerGameMap
    · simp
    · simp [hplayer, hhuman]
  refine ⟨hsame, ?_⟩
  intro x y previous current hat
  rw [hsame]
  refine ⟨hat, ?_⟩
  have hclear : s.clearTilesWithVision
      = { s with mTilesVision := s.mTilesVision.map fun vec => vec.map fun p => (p.2, false) } := by
    unfold Seat.clearTilesWithVision
    simp [hplayer, hhuman]
  rw [hclear, Seat.visionAt_map, hat]
  rfl

/-- Witness for C18: the human seat of the server map. -/
theorem C18_previous_set_by_next_clear_witness :
    humanSeat.mPlayer = some { mIsHuman := true }
      ∧ (humanSeat.sendVisibleTiles coordinateTile).1 = humanSeat
      ∧ (humanSeat.sendVisibleTiles coordinateTile).1.clearTilesWithVision.visionAt 0 0
          = some (true, false) :=
  ⟨rfl,
    (C18_previous_set_by_next_clear humanSeat coordinateTile { mIsHuman := true } rfl rfl).1,
    ((C18_previous_set_by_next_clear humanSeat coordinateTile { mIsHuman := true } rfl rfl).2
      0 0 false true rfl).2⟩

/-- C19: for a seat with a human player, `clearTilesWithVision` leaves every
tile of the table with current false and previous equal to the value current
had before the call, and keeps the shape of the table. A following
`notifyVisionOnTile(t)` on a tile `t` of the table returns, sets current to
true for `t`, and changes no previous flag, no flag of another tile and no
other member of the seat. -/
theorem C19_clear_then_notify (s : Seat) (player : Player)
    (hplayer : s.mPlayer = some player)
    (hhuman : player.mIsHuman = true) :
    (∀ x y, s.clearTilesWithVision.visionAt x y
        = (s.visionAt x y).map fun p => (p.2, false))
      ∧ (∀ x y previous current, s.visionAt x y = some (previous, current) →
          s.clearTilesWithVision.visionAt x y = some (current, false))
      ∧ (∀ (tile : Tile) (x y : Nat) (p : Bool × Bool),
          tile.mX = (x : Int) → tile.mY = (y : Int) →
          s.clearTilesWithVision.visionAt x y = some p →
          ∃ s', s.clearTilesWithVision.notifyVisionOnTile tile = some s'
            ∧ s'.visionAt x y = some (p.1, true)
            ∧ (∀ x' y', ¬ (x' = x ∧ y' = y) →
                s'.visionAt x' y' = s.clearTilesWithVision.visionAt x' y')
            ∧ (∀ x' y', (s'.visionAt x' y').map Prod.fst
                = (s.clearTilesWithVision.visionAt x' y').map Prod.fst)
            ∧ s' = { s.clearTilesWithVision with mTilesVision := s'.mTilesVision }) := by
  have hclear : s.clearTilesWithVision
      = { s with mTilesVision := s.mTilesVision.map fun vec => vec.map fun p => (p.2, false) } := by
    unfold Seat.clearTilesWithVision
    simp [hplayer, hhuman]
  have hmap : ∀ x y, s.clearTilesWithVision.visionAt x y
      = (s.visionAt x y).map fun p => (p.2, false) := by
    intro x y
    rw [hclear, Seat.visionAt_map]
  have hplayer' : s.clearTilesWithVision.mPlayer = some player := by
    rw [hclear]
    exact hplayer
  refine ⟨hmap, ?_, ?_⟩
  · intro x y previous current hat
    rw [hmap, hat]
    rfl
  · intro tile x y p hx hy hat
    generalize s.clearTilesWithVision = c at hat hplayer'
    have hat' := hat
    unfold Seat.visionAt at hat'
    cases hrow : c.mTilesVision[x]? with
    | none => simp [hrow] at hat'
    | some vec =>
      rw [hrow] at hat'
      simp only at hat'
      have hnonneg : ¬ (tile.mX < 0 ∨ tile.mY < 0) := by
        rw [hx, hy]
        omega
      have hxn : tile.mX.toNat = x := by
        rw [hx]
        exact Int.toNat_natCast x
      have hyn : tile.mY.toNat = y := by
        rw [hy]
        exact Int.toNat_natCast y
      have hset := Seat.visionAt_set c x y vec p (p.1, true) hrow hat'
      refine ⟨{ c with mTilesVision := c.mTilesVision.set x (vec.set y (p.1, true)) },
        ?_, ?_, ?_, ?_, rfl⟩
      · unfold Seat.notifyVisionOnTile
        simp [hplayer', hhuman, hnonneg, hxn, hyn, hrow, hat']
      · rw [hset]
        simp
      · intro x' y' hne
        rw [hset, if_neg hne]
      · intro x' y'
        rw [hset]
        by_cases h : x' = x ∧ y' = y
        · rw [if_pos h, h.1, h.2, hat]
          rfl
        · rw [if_neg h]

/-- Witness for C19: the human seat of the server map, cleared and then
notified of vision on the tile at (1,0). -/
theorem C19_clear_then_notify_witness :
    humanSeat.mPlayer = some { mIsHuman := true }
      ∧ humanSeat.clearTilesWithVision.visionAt 0 0 = some (true, false)
      ∧ (humanSeat.clearTilesWithVision.notifyVisionOnTile
          (Tile.construct { isServerGameMap := true } 1 0 TileType.dirt 0)).map
            (fun s => s.mTilesVision)
          = some [[(true, false), (true, false)], [(false, true), (false, false)]] :=
  ⟨rfl,
    (C19_clear_then_notify humanSeat { mIsHuman := true } rfl rfl).2.1 0 0 false true rfl,
    rfl⟩

/-- C20: on a finite set of seats closed under the allied-seat links, whatever
the links (cycles and one-way links included), `notifyVision(S)` on a tile
whose vision list was cleared terminates: with a call stack deeper than the
number of seats it returns, and always the same. Afterwards the vision list of
the tile holds exactly the seats reachable from `S` along allied-seat links,
`S` included, each once, nothing else of the tile has changed, and
`notifyVisionOnTile` was called on exactly these seats, once each. -/
theorem C20_notifyVision_reaches_allies (getAlliedSeats : SeatPtr → List SeatPtr)
    (seats : Finset SeatPtr) (S : SeatPtr) (t : Tile)
    (hclosed : ∀ s ∈ seats, ∀ a ∈ getAlliedSeats s, a ∈ seats)
    (hS : S ∈ seats) :
    ∃ visible : List SeatPtr,
      (∀ fuel, seats.card < fuel →
          Tile.notifyVision getAlliedSeats fuel (t.clearVision, []) S
            = some ({ t with mSeatsWithVision := visible }, visible))
        ∧ visible.Nodup
        ∧ (∀ x, x ∈ visible ↔ Relation.ReflTransGen (fun a b => b ∈ getAlliedSeats a) S x)
        ∧ (∀ x, x ∈ visible → visible.count x = 1)
        ∧ (∀ x, x ∈ visible → x ∈ seats) := by
  obtain ⟨new, hrun, hnodup, hsub, hroot, hreach, hall⟩ :=
    Tile.notifyVision_call getAlliedSeats seats hclosed (seats.card + 1) t.clearVision [] S hS
      (by simp [Tile.clearVision]) (by simp [Tile.clearVision]) (by omega)
  have hvis : t.clearVision.mSeatsWithVision = [] := rfl
  simp only [hvis, List.nil_append] at hrun hnodup hroot hall
  have hstate : ({ t.clearVision with mSeatsWithVision := new } : Tile)
      = { t with mSeatsWithVision := new } := rfl
  rw [hstate] at hrun
  refine ⟨new, ?_, hnodup, ?_, ?_, hsub⟩
  · intro fuel hfuel
    exact Tile.notifyVision_fuel_le getAlliedSeats (seats.card + 1) fuel (by omega) _ S _ hrun
  · intro x
    constructor
    · exact hreach x
    · intro hr
      induction hr with
      | refl => exact hroot
      | tail _ hstep ih => exact hall _ ih _ hstep
  · intro x hx
    exact List.count_eq_one_of_mem hnodup hx

/-- Witness for C20: with the links of `cyclicAllies` on the seats 0 to 3,
`notifyVision(0)` on a cleared tile lists the seats 0, 1, 2 and 3 and notifies
each of them once. -/
theorem C20_notifyVision_reaches_allies_witness :
    (∀ s ∈ ({0, 1, 2, 3} : Finset SeatPtr), ∀ a ∈ cyclicAllies s,
        a ∈ ({0, 1, 2, 3} : Finset SeatPtr))
      ∧ (Tile.notifyVision cyclicAllies 5 (freshFloor.clearVision, []) 0).map
          (fun r => (r.1.mSeatsWithVision, r.2)) = some ([0, 1, 2, 3], [0, 1, 2, 3])
      ∧ ∃ visible : List SeatPtr,
          Tile.notifyVision cyclicAllies 5 (freshFloor.clearVision, []) 0
            = some ({ freshFloor with mSeatsWithVision := visible }, visible)
          ∧ visible.Nodup :=
  have hclosed : ∀ s ∈ ({0, 1, 2, 3} : Finset SeatPtr), ∀ a ∈ cyclicAllies s,
      a ∈ ({0, 1, 2, 3} : Finset SeatPtr) := by decide
  ⟨hclosed, rfl,
    match C20_notifyVision_reaches_allies cyclicAllies {0, 1, 2, 3} 0 freshFloor hclosed
      (by decide) with
    | ⟨visible, hrun, hnodup, _⟩ => ⟨visible, hrun 5 (by decide), hnodup⟩⟩

/-- C21: on the server map, for a seat with no player or with a non-human
player, `hasVisionOnTile` returns true for every tile; `setMapSize` leaves the
seat as it is, so the vision table of a fresh seat stays empty;
`clearTilesWithVision` and `notifyVisionOnTile` change nothing. -/
theorem C21_seat_without_human (s : Seat)
    (hserver : s.mGameMap.isServerGameMap = true)
    (hplayer : s.mPlayer = none ∨ ∃ player, s.mPlayer = some player ∧ player.mIsHuman = false) :
    (∀ (thisIsLocalSeat : Bool) (tile : Tile),
        s.hasVisionOnTile thisIsLocalSeat tile = some true)
      ∧ (∀ x y : Int, s.setMapSize x y = some s)
      ∧ (s.mTilesVision = [] → ∀ x y : Int,
          (s.setMapSize x y).map (fun s' => s'.mTilesVision) = some [])
      ∧ s.clearTilesWithVision = s
      ∧ (∀ tile : Tile, s.notifyVisionOnTile tile = some s) := by
  rcases hplayer with hnone | ⟨player, hsome, hai⟩
  · refine ⟨?_, ?_, ?_, ?_, ?_⟩
    · intro local' tile
      simp [Seat.hasVisionOnTile, hserver, hnone]
    · intro x y
      simp [Seat.setMapSize, hnone]
    · intro hempty x y
      simp [Seat.setMapSize, hnone, hempty]
    · simp [Seat.clearTilesWithVision, hnone]
    · intro tile
      simp [Seat.notifyVisionOnTile, hnone]
  · refine ⟨?_, ?_, ?_, ?_, ?_⟩
    · intro local' tile
      simp [Seat.hasVisionOnTile, hserver, hsome, hai]
    · intro x y
      simp [Seat.setMapSize, hsome, hai]
    · intro hempty x y
      simp [Seat.setMapSize, hsome, hai, hempty]
    · simp [Seat.clearTilesWithVision, hsome, hai]
    · intro tile
      simp [Seat.notifyVisionOnTile, hsome, hai]

/-- Witness for C21: the seat of a non-human player on the server map. -/
theorem C21_seat_without_human_witness :
    aiSeat.mGameMap.isServerGameMap = true
      ∧ aiSeat.mPlayer = some { mIsHuman := false }
      ∧ aiSeat.hasVisionOnTile false freshFloor = some true
      ∧ aiSeat.setMapSize 3 2 = some aiSeat
      ∧ aiSeat.mTilesVision = [] :=
  have h := C21_seat_without_human aiSeat rfl (Or.inr ⟨{ mIsHuman := false }, rfl, rfl⟩)
  ⟨rfl, rfl, h.1 false freshFloor, h.2.1 3 2, rfl⟩

/-- C22: for a human seat `A`, `notifyChangedVisibleTiles` sends exactly the
tiles that `A` sees and that are marked changed for `A`, each once, and queues
no message when there is none. It clears the changed flag of `A` on exactly
these tiles and leaves every other tile as it was. So a tile that is changed
for `A` and not visible is not sent and stays changed, and a later call made
while `A` sees the tile sends it and clears its flag (scenario 4). -/
theorem C22_notifyChangedVisibleTiles (s : Seat) (A : SeatPtr) (tiles : Nat × Nat → Tile)
    (player : Player)
    (hplayer : s.mPlayer = some player)
    (hhuman : player.mIsHuman = true) :
    ∃ sent : List (Nat × Nat),
      (s.notifyChangedVisibleTiles A tiles).2 = (if sent = [] then none else some sent)
      ∧ sent.Nodup
      ∧ (∀ c : Nat × Nat, c ∈ sent ↔
          (∃ previous, s.visionAt c.1 c.2 = some (previous, true))
            ∧ (tiles c).hasChangedForSeat A = true)
      ∧ (∀ c, c ∈ sent →
          (s.notifyChangedVisibleTiles A tiles).1 c = (tiles c).changeNotifiedForSeat A
            ∧ ((s.notifyChangedVisibleTiles A tiles).1 c).hasChangedForSeat A = false)
      ∧ (∀ c, c ∉ sent → (s.notifyChangedVisibleTiles A tiles).1 c = tiles c)
      ∧ (∀ c : Nat × Nat, (tiles c).hasChangedForSeat A = true →
          (¬ ∃ previous, s.visionAt c.1 c.2 = some (previous, true)) →
          c ∉ sent
            ∧ ((s.notifyChangedVisibleTiles A tiles).1 c).hasChangedForSeat A = true
            ∧ ∀ (later : Seat) (previous : Bool), later.mPlayer = some player →
                later.visionAt c.1 c.2 = some (previous, true) →
                (∃ sent', (later.notifyChangedVisibleTiles A
                      (s.notifyChangedVisibleTiles A tiles).1).2 = some sent' ∧ c ∈ sent')
                  ∧ ((later.notifyChangedVisibleTiles A
                      (s.notifyChangedVisibleTiles A tiles).1).1 c).hasChangedForSeat A
                        = false) := by
  have hrun : ∀ (seat : Seat) (map : Nat × Nat → Tile), seat.mPlayer = some player →
      seat.notifyChangedVisibleTiles A map
        = ((fun c => if c ∈ changedVisibleInTable A map seat.mTilesVision 0
              then (map c).changeNotifiedForSeat A else map c),
            if changedVisibleInTable A map seat.mTilesVision 0 = [] then none
            else some (changedVisibleInTable A map seat.mTilesVision 0)) := by
    intro seat map hp
    unfold Seat.notifyChangedVisibleTiles
    simp only [hp, hhuman, Bool.not_true, Bool.false_eq_true, if_false,
      Seat.notifyChangedVisibleTilesRows_eq, List.nil_append, List.isEmpty_iff]
    split <;> rfl
  have hmem : ∀ (seat : Seat) (map : Nat × Nat → Tile) (c : Nat × Nat),
      c ∈ changedVisibleInTable A map seat.mTilesVision 0 ↔
        (∃ previous, seat.visionAt c.1 c.2 = some (previous, true))
          ∧ (map c).hasChangedForSeat A = true := by
    intro seat map c
    rw [mem_changedVisibleInTable]
    unfold Seat.visionAt
    constructor
    · rintro ⟨⟨i, vec, j, q, hi, hj, hc1, hc2⟩, hch⟩
      refine ⟨⟨q, ?_⟩, hch⟩
      have hc1' : c.1 = i := by omega
      rw [hc1', hc2, hi]
      exact hj
    · rintro ⟨⟨q, hat⟩, hch⟩
      refine ⟨?_, hch⟩
      cases hrow : seat.mTilesVision[c.1]? with
      | none => simp [hrow] at hat
      | some vec =>
        rw [hrow] at hat
        exact ⟨c.1, vec, c.2, q, hrow, hat, by omega, rfl⟩
  refine ⟨changedVisibleInTable A tiles s.mTilesVision 0, ?_, ?_, ?_, ?_, ?_, ?_⟩
  · rw [hrun s tiles hplayer]
  · exact nodup_changedVisibleInTable A tiles _ 0
  · exact hmem s tiles
  · intro c hc
    rw [hrun s tiles hplayer]
    simp only [hc, if_true]
    exact ⟨trivial, Tile.hasChangedForSeat_changeNotifiedForSeat _ _⟩
  · intro c hc
    rw [hrun s tiles hplayer]
    simp only [hc, if_false]
  · intro c hdirty hunseen
    have hnot : c ∉ changedVisibleInTable A tiles s.mTilesVision 0 := by
      intro hin
      exact hunseen ((hmem s tiles c).mp hin).1
    have hkeep : (s.notifyChangedVisibleTiles A tiles).1 c = tiles c := by
      rw [hrun s tiles hplayer]
      simp only [hnot, if_false]
    refine ⟨hnot, by rw [hkeep]; exact hdirty, ?_⟩
    intro later previous hlater hsees
    have hin : c ∈ changedVisibleInTable A (s.notifyChangedVisibleTiles A tiles).1
        later.mTilesVision 0 := by
      rw [hmem later]
      exact ⟨⟨previous, hsees⟩, by rw [hkeep]; exact hdirty⟩
    rw [hrun later _ hlater]
    have hne : changedVisibleInTable A (s.notifyChangedVisibleTiles A tiles).1
        later.mTilesVision 0 ≠ [] := List.ne_nil_of_mem hin
    simp only [hne, if_false, hin, if_true]
    exact ⟨⟨_, rfl, hin⟩, Tile.hasChangedForSeat_changeNotifiedForSeat _ _⟩

/-- Witness for C22 (scenario 4): every tile is changed for seat 7; the human
seat sees (0,0) and (0,1) but not (1,0). The first call sends (0,0) and (0,1)
and leaves (1,0) changed; one tick later the seat sees (1,0) and the call sends
it. -/
theorem C22_notifyChangedVisibleTiles_witness :
    humanSeat.mPlayer = some { mIsHuman := true }
      ∧ (humanSeat.notifyChangedVisibleTiles 7 dirtyTiles).2 = some [(0, 0), (0, 1)]
      ∧ ((humanSeat.notifyChangedVisibleTiles 7 dirtyTiles).1 (1, 0)).hasChangedForSeat 7 = true
      ∧ (humanSeatLater.notifyChangedVisibleTiles 7
          (humanSeat.notifyChangedVisibleTiles 7 dirtyTiles).1).2 = some [(1, 0)]
      ∧ ∃ sent : List (Nat × Nat),
          (humanSeat.notifyChangedVisibleTiles 7 dirtyTiles).2
            = (if sent = [] then none else some sent)
          ∧ sent.Nodup :=
  ⟨rfl, rfl, rfl, rfl,
    match C22_notifyChangedVisibleTiles humanSeat 7 dirtyTiles { mIsHuman := true } rfl rfl with
    | ⟨sent, hsent, hnodup, _⟩ => ⟨sent, hsent, hnodup⟩⟩

/-- C24: on a server map, when some item of the proposed list is in the not
allowed list, is missing from the catalog, or cannot be researched with the
done list extended by the items before it, `setResearchTree` leaves the seat
exactly as it was (pending, done and not allowed lists, current research and
research points included) and queues no notification. -/
theorem C24_setResearchTree_aborts (s : Seat) (cfg : ResearchConfig) (this : SeatPtr)
    (renderables : List RenderedMovableEntity) (researches : List ResearchType)
    (i : Nat) (hi : i < researches.length)
    (hserver : s.mGameMap.isServerGameMap = true)
    (hbad : researches[i] ∈ s.mResearchNotAllowed ∨
      (∀ research ∈ cfg.researches, research.mType ≠ researches[i]) ∨
      ∃ research, Seat.findResearch cfg.researches researches[i] = some research ∧
        research.canBeResearched (s.mResearchDone ++ researches.take i) = false) :
    s.setResearchTree cfg this renderables researches = (s, []) := by
  unfold Seat.setResearchTree
  rw [if_pos hserver]
  cases hallowed : Seat.researchTreeAllowed cfg s.mResearchNotAllowed researches
      s.mResearchDone with
  | false => simp
  | true =>
    exfalso
    obtain ⟨hna, research, hfind, hcan⟩ :=
      (Seat.researchTreeAllowed_iff cfg _ _ _).1 hallowed i hi
    rcases hbad with h | h | ⟨other, hfind2, hcannot⟩
    · exact hna h
    · have := (Seat.findResearch_eq_none_iff _ _).2 h
      rw [this] at hfind
      exact Option.noConfusion hfind
    · rw [hfind] at hfind2
      cases hfind2
      rw [hcan] at hcannot
      exact Bool.noConfusion hcannot

/-- C24 witness: the list treasury, cannon trap is refused as a whole for a
seat that may not research the cannon trap. -/
theorem C24_setResearchTree_aborts_witness :
    seatWithoutCannon.setResearchTree smallCatalog 7 [] [1, 3] = (seatWithoutCannon, []) :=
  C24_setResearchTree_aborts seatWithoutCannon smallCatalog 7 [] [1, 3] 1 (by decide) rfl
    (Or.inl (by decide))

/-- C25: on a server map the validation of `setResearchTree` succeeds exactly
when every item of the list is not in the not allowed list, has an entry in
the catalog, and can be researched with the done list extended by the items
before it. On success the pending list becomes the list given, the current
research is selected again by `setNextResearch` and a human player is
notified of the list; otherwise the seat is unchanged. -/
theorem C25_setResearchTree_accepts (s : Seat) (cfg : ResearchConfig) (this : SeatPtr)
    (renderables : List RenderedMovableEntity) (researches : List ResearchType)
    (hserver : s.mGameMap.isServerGameMap = true) :
    (Seat.researchTreeAllowed cfg s.mResearchNotAllowed researches s.mResearchDone = true ↔
      ∀ (i : Nat) (h : i < researches.length),
        researches[i] ∉ s.mResearchNotAllowed ∧
        ∃ research, research ∈ cfg.researches ∧ research.mType = researches[i] ∧
          Seat.findResearch cfg.researches researches[i] = some research ∧
          research.canBeResearched (s.mResearchDone ++ researches.take i) = true) ∧
    (Seat.researchTreeAllowed cfg s.mResearchNotAllowed researches s.mResearchDone = true →
      (s.setResearchTree cfg this renderables researches).1 =
        Seat.setNextResearch { s with mResearchPending := researches } cfg this renderables
          cfg.nullResearchType ∧
      (s.setResearchTree cfg this renderables researches).1.mResearchPending = researches ∧
      (s.setResearchTree cfg this renderables researches).2 =
        (if s.mPlayer.any (fun player => player.mIsHuman) then
          [ServerNotification.researchTree researches] else [])) ∧
    (Seat.researchTreeAllowed cfg s.mResearchNotAllowed researches s.mResearchDone = false →
      s.setResearchTree cfg this renderables researches = (s, [])) := by
  refine ⟨?_, ?_, ?_⟩
  · rw [Seat.researchTreeAllowed_iff]
    constructor
    · intro h i hi
      obtain ⟨hna, research, hfind, hcan⟩ := h i hi
      exact ⟨hna, research, (Seat.findResearch_eq_some hfind).1,
        (Seat.findResearch_eq_some hfind).2, hfind, hcan⟩
    · intro h i hi
      obtain ⟨hna, research, _, _, hfind, hcan⟩ := h i hi
      exact ⟨hna, research, hfind, hcan⟩
  · intro hallowed
    unfold Seat.setResearchTree
    rw [if_pos hserver, hallowed]
    refine ⟨rfl, ?_, ?_⟩
    · exact (Seat.setNextResearch_lists _ cfg this renderables _).2.1
    · cases hp : s.mPlayer with
      | none => simp
      | some player => cases hh : player.mIsHuman <;> simp [hh]
  · intro hrefused
    unfold Seat.setResearchTree
    rw [if_pos hserver, hrefused]
    rfl

/-- C25 witness: the dormitory is accepted after the treasury it depends on,
and refused before it. -/
theorem C25_setResearchTree_accepts_witness :
    (humanSeat.setResearchTree smallCatalog 7 [] [1, 2, 3]).1.mResearchPending = [1, 2, 3] ∧
    (humanSeat.setResearchTree smallCatalog 7 [] [1, 2, 3]).1.mCurrentResearch =
      some { mType := 1, mNeededResearchPoints := 100 } ∧
    humanSeat.setResearchTree smallCatalog 7 [] [2, 1, 3] = (humanSeat, []) :=
  ⟨((C25_setResearchTree_accepts humanSeat smallCatalog 7 [] [1, 2, 3] rfl).2.1 rfl).2.1,
    by rfl,
    (C25_setResearchTree_accepts humanSeat smallCatalog 7 [] [2, 1, 3] rfl).2.2 rfl⟩

/-- C26: for a seat whose current research needs `N` points (`N` not
negative) and that holds `p` points, with `p + n` in the range of `int32_t`,
`addResearchPoints n` returns no research and leaves `p + n` points and the
current research, and every other member, unchanged when `p + n < N`; when
`N ≤ p + n` it returns the current research and leaves `p + n - N` points,
the remaining state being that of `setNextResearch` for the type
completed. -/
theorem C26_addResearchPoints (s : Seat) (cfg : ResearchConfig) (this : SeatPtr)
    (renderables : List RenderedMovableEntity) (current : Research) (n : Int)
    (hcurrent : s.mCurrentResearch = some current)
    (hneeded : 0 ≤ current.mNeededResearchPoints)
    (hrange : -2147483648 ≤ s.mResearchPoints + n ∧ s.mResearchPoints + n ≤ 2147483647) :
    (s.mResearchPoints + n < current.mNeededResearchPoints →
      s.addResearchPoints cfg this renderables n =
        some (none, { s with mResearchPoints := s.mResearchPoints + n })) ∧
    (current.mNeededResearchPoints ≤ s.mResearchPoints + n →
      ∃ after, s.addResearchPoints cfg this renderables n = some (some current, after) ∧
        after.mResearchPoints = s.mResearchPoints + n - current.mNeededResearchPoints ∧
        after = Seat.setNextResearch
          { s with
            mResearchPoints := s.mResearchPoints + n - current.mNeededResearchPoints }
          cfg this renderables current.mType) := by
  have hsum : int32 (s.mResearchPoints + n) = some (s.mResearchPoints + n) := by
    unfold int32
    rw [if_pos hrange]
  constructor
  · intro hlt
    unfold Seat.addResearchPoints
    rw [hcurrent]
    simp only [hsum, if_pos hlt]
  · intro hge
    have hleft : int32 (s.mResearchPoints + n - current.mNeededResearchPoints) =
        some (s.mResearchPoints + n - current.mNeededResearchPoints) := by
      unfold int32
      rw [if_pos]
      constructor <;> omega
    refine ⟨_, ?_, ?_, rfl⟩
    · unfold Seat.addResearchPoints
      rw [hcurrent]
      simp only [hsum, if_neg (not_lt.mpr hge), hleft]
    · exact (Seat.setNextResearch_lists _ cfg this renderables _).2.2.2

/-- C26 witness (scenario 3): with a research of 100 points and no point
yet, adding 60 returns nothing and leaves 60 points; adding 50 more returns
the research and leaves 10 points. -/
theorem C26_addResearchPoints_witness :
    researchingSeat.addResearchPoints smallCatalog 7 [] 60 =
      some (none, { researchingSeat with mResearchPoints := 60 }) ∧
    ∃ after,
      Seat.addResearchPoints { researchingSeat with mResearchPoints := 60 } smallCatalog 7 []
        50 = some (some { mType := 1, mNeededResearchPoints := 100 }, after) ∧
      after.mResearchPoints = 10 :=
  ⟨(C26_addResearchPoints researchingSeat smallCatalog 7 []
      { mType := 1, mNeededResearchPoints := 100 } 60 rfl (by decide) (by decide)).1
      (by decide),
    match (C26_addResearchPoints { researchingSeat with mResearchPoints := 60 } smallCatalog 7
      [] { mType := 1, mNeededResearchPoints := 100 } 50 rfl (by decide) (by decide)).2
      (by decide) with
    | ⟨after, hcall, hpoints, _⟩ => ⟨after, hcall, hpoints⟩⟩

/-- C27 counterexample: with the null research type ahead of the dormitory in
the pending list, the first pending research that is not the treasury and has
no research entity in flight is the null research type, which has no catalog
entry; yet `setNextResearch` of the treasury, and the completion of the
treasury by `addResearchPoints`, make the dormitory the current research. -/
theorem C27_null_pending_is_skipped :
    firstPendingToResearch 7 [] 1 seatWithNullPending.mResearchPending =
      some smallCatalog.nullResearchType ∧
    (firstPendingToResearch 7 [] 1 seatWithNullPending.mResearchPending).bind
      (Seat.findResearch smallCatalog.researches) = none ∧
    (seatWithNullPending.setNextResearch smallCatalog 7 [] 1).mCurrentResearch =
      some { mType := 2, mNeededResearchPoints := 50, mDependencies := [1] } ∧
    (seatWithNullPending.addResearchPoints smallCatalog 7 [] 50).map
        (fun result => (result.1, result.2.mCurrentResearch)) =
      some (some { mType := 1, mNeededResearchPoints := 100 },
        some { mType := 2, mNeededResearchPoints := 50, mDependencies := [1] }) :=
  ⟨by decide, by decide, by decide, by decide⟩

/-- C27: `setNextResearch r` sets the current research to the catalog entry
of the first pending research, in list order, that is not `r`, is not the null
research type, and of which the seat owns no research entity in flight, and to
null when there is no such research or it has no catalog entry; every other
member, the done, pending and not allowed lists among them, is unchanged. When
the null research type is not in the pending list this is the first pending
research that is not `r` and has no research entity in flight. A call of
`addResearchPoints` that brings the points of the current research to the
points it needs, within the range of `int32_t`, completes it: it returns that
research and makes the same selection, with `r` the type completed, and the
three lists are unchanged. -/
theorem C27_setNextResearch (s : Seat) (cfg : ResearchConfig) (this : SeatPtr)
    (renderables : List RenderedMovableEntity) (r : ResearchType) :
    s.setNextResearch cfg this renderables r =
      { s with
        mCurrentResearch :=
          (nextPendingResearch cfg.nullResearchType this renderables r
            s.mResearchPending).bind (Seat.findResearch cfg.researches) } ∧
    (∀ type,
      nextPendingResearch cfg.nullResearchType this renderables r s.mResearchPending =
          some type ↔
        ∃ (i : Nat) (h : i < s.mResearchPending.length), s.mResearchPending[i] = type ∧
          (type ≠ r ∧ type ≠ cfg.nullResearchType ∧
            ownsResearchEntity this renderables type = false) ∧
          ∀ (j : Nat) (hj : j < i),
            ¬ (s.mResearchPending[j] ≠ r ∧ s.mResearchPending[j] ≠ cfg.nullResearchType ∧
              ownsResearchEntity this renderables s.mResearchPending[j] = false)) ∧
    (cfg.nullResearchType ∉ s.mResearchPending →
      nextPendingResearch cfg.nullResearchType this renderables r s.mResearchPending =
        firstPendingToResearch this renderables r s.mResearchPending) ∧
    (∀ (points : Int) (current : Research),
      s.mCurrentResearch = some current →
      current.mNeededResearchPoints ≤ s.mResearchPoints + points →
      0 ≤ current.mNeededResearchPoints →
      -2147483648 ≤ s.mResearchPoints + points ∧ s.mResearchPoints + points ≤ 2147483647 →
        ∃ after, s.addResearchPoints cfg this renderables points = some (some current, after) ∧
          after.mCurrentResearch =
            (nextPendingResearch cfg.nullResearchType this renderables current.mType
              s.mResearchPending).bind (Seat.findResearch cfg.researches) ∧
          after.mResearchDone = s.mResearchDone ∧
          after.mResearchPending = s.mResearchPending ∧
          after.mResearchNotAllowed = s.mResearchNotAllowed) := by
  refine ⟨Seat.setNextResearch_skips_null s cfg this renderables r, ?_,
    nextPendingResearch_of_not_mem _ this renderables r _, ?_⟩
  · intro type
    unfold nextPendingResearch
    rw [List.find?_eq_some_iff_getElem]
    simp only [Bool.and_eq_true, decide_eq_true_eq, Bool.not_eq_true', ne_eq,
      Bool.not_eq_true, Bool.and_eq_false_imp]
    constructor
    · rintro ⟨⟨⟨hr, hnull⟩, hown⟩, i, hi, hget, hbefore⟩
      refine ⟨i, hi, hget, ⟨hr, hnull, hown⟩, ?_⟩
      intro j hj hcontra
      have := hbefore j hj
      simp only [Bool.not_eq_eq_eq_not, Bool.not_true, Bool.and_eq_false_imp,
        decide_eq_true_eq, Bool.not_eq_false', Bool.and_eq_true, and_imp] at this
      have h2 := this hcontra.1 hcontra.2.1
      rw [hcontra.2.2] at h2
      exact Bool.noConfusion h2
    · rintro ⟨i, hi, hget, ⟨hr, hnull, hown⟩, hbefore⟩
      refine ⟨⟨⟨hr, hnull⟩, hown⟩, i, hi, hget, ?_⟩
      intro j hj
      have := hbefore j hj
      simp only [Bool.not_eq_eq_eq_not, Bool.not_true, Bool.and_eq_false_imp,
        decide_eq_true_eq, Bool.not_eq_false', Bool.and_eq_true, and_imp]
      intro hne hnotnull
      by_contra hown
      exact this ⟨hne, hnotnull, by simpa using hown⟩
  · intro points current hcurrent hneeded hnonneg hrange
    have hsum : int32 (s.mResearchPoints + points) = some (s.mResearchPoints + points) := by
      unfold int32
      rw [if_pos hrange]
    have hleft : int32 (s.mResearchPoints + points - current.mNeededResearchPoints) =
        some (s.mResearchPoints + points - current.mNeededResearchPoints) := by
      unfold int32
      rw [if_pos]
      constructor <;> omega
    have hlists := Seat.setNextResearch_lists
      { s with mResearchPoints := s.mResearchPoints + points - current.mNeededResearchPoints }
      cfg this renderables current.mType
    have hnext := Seat.setNextResearch_skips_null
      { s with mResearchPoints := s.mResearchPoints + points - current.mNeededResearchPoints }
      cfg this renderables current.mType
    refine ⟨_, ?_, ?_, hlists.1, hlists.2.1, hlists.2.2.1⟩
    · unfold Seat.addResearchPoints
      rw [hcurrent]
      simp only [hsum, if_neg (not_lt.mpr hneeded), hleft]
    · rw [hnext]

/-- C27 witness: with the treasury and the dormitory pending,
`setNextResearch` of the treasury selects the dormitory, and so does a
treasury entity in flight; and on the seat that has 60 of the 100 points of
the treasury, adding 50 points completes the treasury and makes the dormitory
the current research, the pending list unchanged. -/
theorem C27_setNextResearch_witness :
    (researchingSeat.setNextResearch smallCatalog 7 [] 1).mCurrentResearch =
      some { mType := 2, mNeededResearchPoints := 50, mDependencies := [1] } ∧
    (researchingSeat.setNextResearch smallCatalog 7 [treasuryEntity] 0).mCurrentResearch =
      some { mType := 2, mNeededResearchPoints := 50, mDependencies := [1] } ∧
    ∃ after,
      Seat.addResearchPoints { researchingSeat with mResearchPoints := 60 } smallCatalog 7 []
        50 = some (some { mType := 1, mNeededResearchPoints := 100 }, after) ∧
      after.mCurrentResearch =
        some { mType := 2, mNeededResearchPoints := 50, mDependencies := [1] } ∧
      after.mResearchPending = [1, 2] :=
  ⟨by rw [(C27_setNextResearch researchingSeat smallCatalog 7 [] 1).1]; rfl,
    by rw [(C27_setNextResearch researchingSeat smallCatalog 7 [treasuryEntity] 0).1]; rfl,
    match (C27_setNextResearch { researchingSeat with mResearchPoints := 60 } smallCatalog 7
      [] 0).2.2.2 50 { mType := 1, mNeededResearchPoints := 100 } rfl (by decide) (by decide)
      (by decide) with
    | ⟨after, hcall, hcurrent, _, hpending, _⟩ =>
      ⟨after, hcall, hcurrent.trans (by rfl), hpending.trans (by rfl)⟩⟩

/-- C28: `addResearch` only looks at the done list. For a research that is
not done it returns true, appends it to the done list and erases it from the
pending list, also when the research is in the not allowed list; the not
allowed list is unchanged, so the research ends in both lists. -/
theorem C28_addResearch_notAllowed (s : Seat) (type : ResearchType)
    (hdone : type ∉ s.mResearchDone) (hnotAllowed : type ∈ s.mResearchNotAllowed) :
    (s.addResearch type).1 = true ∧
    (s.addResearch type).2.1.mResearchDone = s.mResearchDone ++ [type] ∧
    (s.addResearch type).2.1.mResearchNotAllowed = s.mResearchNotAllowed ∧
    type ∈ (s.addResearch type).2.1.mResearchDone ∧
    type ∈ (s.addResearch type).2.1.mResearchNotAllowed := by
  have hdoneList : (s.addResearch type).2.1.mResearchDone = s.mResearchDone ++ [type] := by
    unfold Seat.addResearch Seat.setResearchesDone
    rw [if_neg hdone]
    simp only []
    split
    · split
      · rfl
      · split <;> rfl
    · rfl
  have hnotAllowedList :
      (s.addResearch type).2.1.mResearchNotAllowed = s.mResearchNotAllowed := by
    unfold Seat.addResearch Seat.setResearchesDone
    rw [if_neg hdone]
    simp only []
    split
    · split
      · rfl
      · split <;> rfl
    · rfl
  refine ⟨?_, hdoneList, hnotAllowedList, ?_, ?_⟩
  · unfold Seat.addResearch
    rw [if_neg hdone]
  · rw [hdoneList]
    simp
  · rw [hnotAllowedList]
    exact hnotAllowed

/-- C28 witness: the cannon trap, not allowed for the seat, is added to its
done list. -/
theorem C28_addResearch_notAllowed_witness :
    (seatWithoutCannon.addResearch 3).1 = true ∧
    (seatWithoutCannon.addResearch 3).2.1.mResearchDone = [3] ∧
    (seatWithoutCannon.addResearch 3).2.1.mResearchNotAllowed = [3] :=
  ⟨(C28_addResearch_notAllowed seatWithoutCannon 3 (by decide) (by decide)).1, by rfl, by rfl⟩

/-- C29: for a seat `s` with fewer than 2^32 available team ids,
`operator<<` appends to the packet, in this order, id, team id, player type,
faction, starting x, starting y, colour id, gold, mana, mana delta, number of
claimed tiles, goals changed flag, number of treasuries, the count of
available team ids and each of them; `operator>>` applied to a packet that
starts with these fields succeeds, leaves exactly what follows them, and sets
each of these members of the seat read into to the value of `s`, the team
ids read being pushed after those the seat already had, which are none for a
seat just constructed. -/
theorem C29_wire_round_trip (s target : Seat) (os : ODPacket) (rest : List PacketField)
    (hcount : s.mAvailableTeamIds.length < 4294967296) :
    (Seat.writeToPacket os s).fields =
      os.fields ++
        ([PacketField.int32 s.mId, PacketField.int32 s.mTeamId,
          PacketField.string s.mPlayerType, PacketField.string s.mFaction,
          PacketField.int32 s.mStartingX, PacketField.int32 s.mStartingY,
          PacketField.string s.mColorId, PacketField.int32 s.mGold,
          PacketField.double s.mMana, PacketField.double s.mManaDelta,
          PacketField.uint32 s.mNumClaimedTiles, PacketField.bool s.mHasGoalsChanged,
          PacketField.int32 s.mNbTreasuries,
          PacketField.uint32 s.mAvailableTeamIds.length] ++
          s.mAvailableTeamIds.map PacketField.int32) ∧
    Seat.readFromPacket { fields := (Seat.writeToPacket { fields := [] } s).fields ++ rest }
        target =
      some ({ fields := rest },
        { target with
          mId := s.mId
          mTeamId := s.mTeamId
          mPlayerType := s.mPlayerType
          mFaction := s.mFaction
          mStartingX := s.mStartingX
          mStartingY := s.mStartingY
          mColorId := s.mColorId
          mGold := s.mGold
          mMana := s.mMana
          mManaDelta := s.mManaDelta
          mNumClaimedTiles := s.mNumClaimedTiles
          mHasGoalsChanged := s.mHasGoalsChanged
          mNbTreasuries := s.mNbTreasuries
          mAvailableTeamIds := target.mAvailableTeamIds ++ s.mAvailableTeamIds }) ∧
    ∀ gameMap : GameMap,
      ∃ read, Seat.readFromPacket
          { fields := (Seat.writeToPacket { fields := [] } s).fields ++ rest }
          (Seat.construct gameMap) = some ({ fields := rest }, read) ∧
        read.mId = s.mId ∧ read.mTeamId = s.mTeamId ∧ read.mPlayerType = s.mPlayerType ∧
        read.mFaction = s.mFaction ∧ read.mStartingX = s.mStartingX ∧
        read.mStartingY = s.mStartingY ∧ read.mColorId = s.mColorId ∧
        read.mGold = s.mGold ∧ read.mMana = s.mMana ∧ read.mManaDelta = s.mManaDelta ∧
        read.mNumClaimedTiles = s.mNumClaimedTiles ∧
        read.mHasGoalsChanged = s.mHasGoalsChanged ∧
        read.mNbTreasuries = s.mNbTreasuries ∧
        read.mAvailableTeamIds = s.mAvailableTeamIds := by
  have hmod : s.mAvailableTeamIds.length % 4294967296 = s.mAvailableTeamIds.length :=
    Nat.mod_eq_of_lt hcount
  have hread : ∀ target : Seat,
      Seat.readFromPacket { fields := (Seat.writeToPacket { fields := [] } s).fields ++ rest }
          target =
        some ({ fields := rest },
          { target with
            mId := s.mId
            mTeamId := s.mTeamId
            mPlayerType := s.mPlayerType
            mFaction := s.mFaction
            mStartingX := s.mStartingX
            mStartingY := s.mStartingY
            mColorId := s.mColorId
            mGold := s.mGold
            mMana := s.mMana
            mManaDelta := s.mManaDelta
            mNumClaimedTiles := s.mNumClaimedTiles
            mHasGoalsChanged := s.mHasGoalsChanged
            mNbTreasuries := s.mNbTreasuries
            mAvailableTeamIds := target.mAvailableTeamIds ++ s.mAvailableTeamIds }) := by
    intro target
    rw [Seat.writeToPacket_fields, hmod]
    simp only [List.nil_append, List.cons_append]
    rw [Seat.readFromPacket_fields, Seat.readTeamIds_map]
  refine ⟨?_, hread target, ?_⟩
  · rw [Seat.writeToPacket_fields, hmod]
  · intro gameMap
    refine ⟨_, hread (Seat.construct gameMap), rfl, rfl, rfl, rfl, rfl, rfl, rfl, rfl, rfl, rfl,
      rfl, rfl, rfl, ?_⟩
    simp [Seat.construct]

/-- C29 witness: the packet written for a seat with two available team ids
is read back into a seat just constructed, up to the fields that follow. -/
theorem C29_wire_round_trip_witness :
    ∃ read, Seat.readFromPacket
        { fields := (Seat.writeToPacket { fields := [] } savedSeat).fields ++
            [PacketField.bool true] }
        (Seat.construct { isServerGameMap := false }) =
          some ({ fields := [PacketField.bool true] }, read) ∧
      read.mGold = 250 ∧ read.mMana = 500 ∧ read.mNumClaimedTiles = 17 ∧
      read.mAvailableTeamIds = [2, 3] :=
  match (C29_wire_round_trip savedSeat savedSeat { fields := [] } [PacketField.bool true]
    (by decide)).2.2 { isServerGameMap := false } with
  | ⟨read, hread, _, _, _, _, _, _, _, hgold, hmana, _, hclaimed, _, _, hteams⟩ =>
    ⟨read, hread, hgold, hmana, hclaimed, hteams⟩

/-- C30 counterexample: a seat with an id, a player type and a faction, and
with empty research lists, that has no team id and no available team id is
written with an empty team field; reading the text back takes the keyword
`player` for the team ids and returns false. -/
theorem C30_seat_without_team_not_read_back :
    seatWithoutTeam.mId ≠ 0 ∧ seatWithoutTeam.mPlayerType ≠ "" ∧
    seatWithoutTeam.mFaction ≠ "" ∧
    ∀ fuel : Nat,
      (Seat.importSeatFromStream decimalStreams smallCatalog fuel
        (Seat.construct { isServerGameMap := true })
        { text := (seatWithoutTeam.exportSeatToStream decimalStreams smallCatalog []).2 }).map
          (fun result => result.1) = some false :=
  ⟨by decide, by decide, by decide, fun _ => rfl⟩

/-- C30: for a seat with a non-zero id whose team text, player type, faction
and colour id are words (not empty, without white space), whose numbers are
read back from their text, and whose research lists are pairwise disjoint,
free of duplicates and made of researches saved by a name that identifies
them, `exportSeatToStream` returns true and `importSeatFromStream` applied to
the text written, on a seat just constructed and with more rounds than any
list has researches, returns true, reads the whole text but its last line
end, and recovers the id, the gold, the mined gold and the mana and the done,
not allowed and pending lists in their order. -/
theorem C30_text_round_trip (lib : StreamLibrary) (cfg : ResearchConfig) (s : Seat)
    (gameMap : GameMap) (fuel : Nat)
    (hid : s.mId ≠ 0) (hidText : lib.intRoundTrips s.mId)
    (hteam : isWord (Seat.teamText lib s) = true)
    (hplayer : isWord (Seat.playerText s) = true)
    (hfaction : isWord s.mFaction.toList = true)
    (hx : lib.intRoundTrips s.mStartingX) (hy : lib.intRoundTrips s.mStartingY)
    (hcolor : isWord s.mColorId.toList = true)
    (hgold : lib.intRoundTrips s.mGold) (hgoldMined : lib.intRoundTrips s.mGoldMined)
    (hmana : lib.doubleRoundTrips s.mMana)
    (hfuel : s.mResearchDone.length < fuel ∧ s.mResearchNotAllowed.length < fuel ∧
      s.mResearchPending.length < fuel)
    (hnamed : ∀ type ∈ s.mResearchDone ++ s.mResearchNotAllowed ++ s.mResearchPending,
      cfg.savesByName type = true)
    (hnodup : s.mResearchDone.Nodup ∧ s.mResearchNotAllowed.Nodup ∧ s.mResearchPending.Nodup)
    (hdisjoint : (∀ type ∈ s.mResearchNotAllowed, type ∉ s.mResearchDone) ∧
      (∀ type ∈ s.mResearchPending, type ∉ s.mResearchDone) ∧
      (∀ type ∈ s.mResearchPending, type ∉ s.mResearchNotAllowed)) :
    (s.exportSeatToStream lib cfg []).1 = true ∧
    ∃ read : Seat,
      Seat.importSeatFromStream lib cfg fuel (Seat.construct gameMap)
          { text := (s.exportSeatToStream lib cfg []).2 } =
        some (true, read, { text := [endlChar] }) ∧
      read.mId = s.mId ∧ read.mGold = s.mGold ∧ read.mGoldMined = s.mGoldMined ∧
      read.mMana = s.mMana ∧ read.mResearchDone = s.mResearchDone ∧
      read.mResearchNotAllowed = s.mResearchNotAllowed ∧
      read.mResearchPending = s.mResearchPending := by
  rw [Seat.exportSeatToStream_eq]
  simp only [List.nil_append]
  have hread := Seat.importSeatFromStream_seatText lib cfg fuel s (Seat.construct gameMap) hid
    hidText hteam hplayer hfaction hx hy hcolor hgold hgoldMined hmana hfuel.1 hfuel.2.1
    hfuel.2.2 (fun type h => hnamed type (by simp [h])) (fun type h => hnamed type (by simp [h]))
    (fun type h => hnamed type (by simp [h])) hnodup.1 hnodup.2.1 hnodup.2.2 hdisjoint.1
    hdisjoint.2.1 hdisjoint.2.2 rfl rfl rfl
  exact ⟨trivial, _, hread, rfl, rfl, rfl, rfl, rfl, rfl, rfl⟩

/-- C30 witness: the seat of team 2 with 250 gold, 500 mana and one research
in each list is read back from its text. -/
theorem C30_text_round_trip_witness :
    ∃ read : Seat,
      Seat.importSeatFromStream decimalStreams smallCatalog 2
          (Seat.construct { isServerGameMap := true })
          { text := (savedSeat.exportSeatToStream decimalStreams smallCatalog []).2 } =
        some (true, read, { text := [endlChar] }) ∧
      read.mGold = 250 ∧ read.mMana = 500 ∧ read.mResearchDone = [1] ∧
      read.mResearchNotAllowed = [3] ∧ read.mResearchPending = [2] :=
  match (C30_text_round_trip decimalStreams smallCatalog savedSeat { isServerGameMap := true } 2
    (by decide) (fun _ _ => rfl) rfl rfl rfl (fun _ _ => rfl) (fun _ _ => rfl) rfl
    (fun _ _ => rfl) (fun _ _ => rfl) (fun _ _ => rfl) (by decide) (by decide) (by decide)
    (by decide)).2 with
  | ⟨read, hread, _, hgold, _, hmana, hdone, hnotAllowed, hpending⟩ =>
    ⟨read, hread, hgold, hmana, hdone, hnotAllowed, hpending⟩

/-- C31 counterexample: for the seat with 17 claimed tiles and one research in
each list, the wire round trip into a seat just constructed leaves the three
research lists empty, and the text round trip leaves the number of claimed
tiles at 0. -/
theorem C31_round_trips_drop_members :
    (∃ read : Seat,
      Seat.readFromPacket { fields := (Seat.writeToPacket { fields := [] } savedSeat).fields }
          (Seat.construct { isServerGameMap := true }) = some ({ fields := [] }, read) ∧
      read.mResearchDone = [] ∧ read.mResearchNotAllowed = [] ∧ read.mResearchPending = [] ∧
      savedSeat.mResearchDone = [1]) ∧
    ∃ read : Seat,
      Seat.importSeatFromStream decimalStreams smallCatalog 2
          (Seat.construct { isServerGameMap := true })
          { text := (savedSeat.exportSeatToStream decimalStreams smallCatalog []).2 } =
        some (true, read, { text := [endlChar] }) ∧
      read.mNumClaimedTiles = 0 ∧ savedSeat.mNumClaimedTiles = 17 :=
  ⟨⟨_, rfl, rfl, rfl, rfl, rfl⟩, ⟨_, rfl, rfl, rfl⟩⟩

/-- C31: into a seat just constructed, the wire round trip of a seat with
fewer than 2^32 available team ids recovers the gold, the mana and the number
of claimed tiles and leaves the three research lists empty; the text round
trip of a seat that meets the conditions of the text format recovers the
gold, the mana and the three research lists and leaves the number of claimed
tiles at 0. -/
theorem C31_round_trip_members (lib : StreamLibrary) (cfg : ResearchConfig) (s : Seat)
    (gameMap : GameMap) (fuel : Nat)
    (hcount : s.mAvailableTeamIds.length < 4294967296)
    (hid : s.mId ≠ 0) (hidText : lib.intRoundTrips s.mId)
    (hteam : isWord (Seat.teamText lib s) = true)
    (hplayer : isWord (Seat.playerText s) = true)
    (hfaction : isWord s.mFaction.toList = true)
    (hx : lib.intRoundTrips s.mStartingX) (hy : lib.intRoundTrips s.mStartingY)
    (hcolor : isWord s.mColorId.toList = true)
    (hgold : lib.intRoundTrips s.mGold) (hgoldMined : lib.intRoundTrips s.mGoldMined)
    (hmana : lib.doubleRoundTrips s.mMana)
    (hfuel : s.mResearchDone.length < fuel ∧ s.mResearchNotAllowed.length < fuel ∧
      s.mResearchPending.length < fuel)
    (hnamed : ∀ type ∈ s.mResearchDone ++ s.mResearchNotAllowed ++ s.mResearchPending,
      cfg.savesByName type = true)
    (hnodup : s.mResearchDone.Nodup ∧ s.mResearchNotAllowed.Nodup ∧ s.mResearchPending.Nodup)
    (hdisjoint : (∀ type ∈ s.mResearchNotAllowed, type ∉ s.mResearchDone) ∧
      (∀ type ∈ s.mResearchPending, type ∉ s.mResearchDone) ∧
      (∀ type ∈ s.mResearchPending, type ∉ s.mResearchNotAllowed)) :
    (∃ read : Seat,
      Seat.readFromPacket { fields := (Seat.writeToPacket { fields := [] } s).fields }
          (Seat.construct gameMap) = some ({ fields := [] }, read) ∧
      read.mGold = s.mGold ∧ read.mMana = s.mMana ∧
      read.mNumClaimedTiles = s.mNumClaimedTiles ∧
      read.mResearchDone = [] ∧ read.mResearchNotAllowed = [] ∧ read.mResearchPending = []) ∧
    ∃ read : Seat,
      Seat.importSeatFromStream lib cfg fuel (Seat.construct gameMap)
          { text := (s.exportSeatToStream lib cfg []).2 } =
        some (true, read, { text := [endlChar] }) ∧
      read.mGold = s.mGold ∧ read.mMana = s.mMana ∧ read.mNumClaimedTiles = 0 ∧
      read.mResearchDone = s.mResearchDone ∧
      read.mResearchNotAllowed = s.mResearchNotAllowed ∧
      read.mResearchPending = s.mResearchPending := by
  constructor
  · have hread := Seat.readFromPacket_writeToPacket s (Seat.construct gameMap) [] hcount
    rw [List.append_nil] at hread
    exact ⟨_, hread, rfl, rfl, rfl, rfl, rfl, rfl⟩
  · rw [Seat.exportSeatToStream_eq]
    simp only [List.nil_append]
    have hread := Seat.importSeatFromStream_seatText lib cfg fuel s (Seat.construct gameMap) hid
      hidText hteam hplayer hfaction hx hy hcolor hgold hgoldMined hmana hfuel.1 hfuel.2.1
      hfuel.2.2 (fun type h => hnamed type (by simp [h]))
      (fun type h => hnamed type (by simp [h])) (fun type h => hnamed type (by simp [h]))
      hnodup.1 hnodup.2.1 hnodup.2.2 hdisjoint.1 hdisjoint.2.1 hdisjoint.2.2 rfl rfl rfl
    exact ⟨_, hread, rfl, rfl, rfl, rfl, rfl, rfl⟩

/-- C31 witness: both round trips of the seat with 250 gold, 500 mana and 17
claimed tiles. -/
theorem C31_round_trip_members_witness :
    (∃ read : Seat,
      Seat.readFromPacket { fields := (Seat.writeToPacket { fields := [] } savedSeat).fields }
          (Seat.construct { isServerGameMap := false }) = some ({ fields := [] }, read) ∧
      read.mGold = 250 ∧ read.mMana = 500 ∧ read.mNumClaimedTiles = 17) ∧
    ∃ read : Seat,
      Seat.importSeatFromStream decimalStreams smallCatalog 3
          (Seat.construct { isServerGameMap := false })
          { text := (savedSeat.exportSeatToStream decimalStreams smallCatalog []).2 } =
        some (true, read, { text := [endlChar] }) ∧
      read.mGold = 250 ∧ read.mMana = 500 ∧ read.mResearchDone = [1] :=
  match C31_round_trip_members decimalStreams smallCatalog savedSeat { isServerGameMap := false }
    3 (by decide) (by decide) (fun _ _ => rfl) rfl rfl rfl (fun _ _ => rfl) (fun _ _ => rfl) rfl
    (fun _ _ => rfl) (fun _ _ => rfl) (fun _ _ => rfl) (by decide) (by decide) (by decide)
    (by decide) with
  | ⟨⟨wire, hwire, hwireGold, hwireMana, hwireTiles, _⟩,
      ⟨text, htext, htextGold, htextMana, _, htextDone, _⟩⟩ =>
    ⟨⟨wire, hwire, hwireGold, hwireMana, hwireTiles⟩, ⟨text, htext, htextGold, htextMana,
      htextDone⟩⟩

/-- C35: `importSeatFromStream` does not return on a text that ends inside a
research section. For a seat whose header is read back, on the text of the
header followed by the research sections cut right after the tag
`[ResearchDone]`, after the tag `[ResearchNotAllowed]` or after the tag
`[ResearchPending]`, the `while(true)` loop of that section is still running
after any number of rounds: the read of the next token fails, leaves `str`
as it was, and the closing tag never comes. -/
theorem C35_import_never_returns (lib : StreamLibrary) (cfg : ResearchConfig) (s : Seat)
    (gameMap : GameMap)
    (hid : s.mId ≠ 0) (hidText : lib.intRoundTrips s.mId)
    (hteam : isWord (Seat.teamText lib s) = true)
    (hplayer : isWord (Seat.playerText s) = true)
    (hfaction : isWord s.mFaction.toList = true)
    (hx : lib.intRoundTrips s.mStartingX) (hy : lib.intRoundTrips s.mStartingY)
    (hcolor : isWord s.mColorId.toList = true)
    (hgold : lib.intRoundTrips s.mGold) (hgoldMined : lib.intRoundTrips s.mGoldMined)
    (hmana : lib.doubleRoundTrips s.mMana)
    (hnamed : ∀ type ∈ s.mResearchDone ++ s.mResearchNotAllowed, cfg.savesByName type = true)
    (hnodup : s.mResearchDone.Nodup ∧ s.mResearchNotAllowed.Nodup)
    (hdisjoint : ∀ type ∈ s.mResearchNotAllowed, type ∉ s.mResearchDone) :
    (∀ fuel : Nat,
      Seat.importSeatFromStream lib cfg fuel (Seat.construct gameMap)
        { text := seatHeaderText lib s ("[ResearchDone]".toList ++ [endlChar]) } = none) ∧
    (∀ fuel : Nat, s.mResearchDone.length < fuel →
      Seat.importSeatFromStream lib cfg fuel (Seat.construct gameMap)
        { text := seatHeaderText lib s ("[ResearchDone]".toList ++ endlChar ::
            researchText cfg s.mResearchDone ("[/ResearchDone]".toList ++ endlChar ::
              ("[ResearchNotAllowed]".toList ++ [endlChar]))) } = none) ∧
    (∀ fuel : Nat, s.mResearchDone.length < fuel → s.mResearchNotAllowed.length < fuel →
      Seat.importSeatFromStream lib cfg fuel (Seat.construct gameMap)
        { text := seatHeaderText lib s ("[ResearchDone]".toList ++ endlChar ::
            researchText cfg s.mResearchDone ("[/ResearchDone]".toList ++ endlChar ::
              ("[ResearchNotAllowed]".toList ++ endlChar ::
                researchText cfg s.mResearchNotAllowed
                  ("[/ResearchNotAllowed]".toList ++ endlChar ::
                    ("[ResearchPending]".toList ++ [endlChar]))))) } = none) := by
  refine ⟨?_, ?_, ?_⟩
  · intro fuel
    rw [Seat.importSeatFromStream_header lib cfg fuel s _ _ hid hidText hteam hplayer hfaction
      hx hy hcolor hgold hgoldMined hmana]
    exact Seat.importResearchSections_endsInDone cfg fuel _ _
  · intro fuel hfuel
    rw [Seat.importSeatFromStream_header lib cfg fuel s _ _ hid hidText hteam hplayer hfaction
      hx hy hcolor hgold hgoldMined hmana]
    exact Seat.importResearchSections_endsInNotAllowed cfg fuel _ _ s.mResearchDone hfuel
      (fun type h => hnamed type (by simp [h])) hnodup.1 (by simp [Seat.construct])
  · intro fuel hdoneFuel hnotAllowedFuel
    rw [Seat.importSeatFromStream_header lib cfg fuel s _ _ hid hidText hteam hplayer hfaction
      hx hy hcolor hgold hgoldMined hmana]
    exact Seat.importResearchSections_endsInPending cfg fuel _ _ s.mResearchDone
      s.mResearchNotAllowed hdoneFuel hnotAllowedFuel (fun type h => hnamed type (by simp [h]))
      (fun type h => hnamed type (by simp [h])) hnodup.1 hnodup.2 hdisjoint rfl rfl

/-- C35 witness: the text of the seat with 250 gold, cut after the line
`[ResearchDone]`, keeps `importSeatFromStream` in its first loop: after 1000
rounds it has not returned. -/
theorem C35_import_never_returns_witness :
    Seat.importSeatFromStream decimalStreams smallCatalog 1000
      (Seat.construct { isServerGameMap := true })
      { text := seatHeaderText decimalStreams savedSeat
          ("[ResearchDone]".toList ++ [endlChar]) } = none :=
  (C35_import_never_returns decimalStreams smallCatalog savedSeat { isServerGameMap := true }
    (by decide) (fun _ _ => rfl) rfl rfl rfl (fun _ _ => rfl) (fun _ _ => rfl) rfl
    (fun _ _ => rfl) (fun _ _ => rfl) (fun _ _ => rfl) (by decide) (by decide)
    (by decide)).1 1000

/-- C32: take the text of a seat in the save format with the thirteen
expected tokens replaced, each at its position, by any words, for a seat whose
values are read back from their text. `importSeatFromStream` returns true if
all thirteen tokens are the expected ones and the seat id is not 0, and
returns false otherwise: when one of the tokens differs from the expected one,
or when the id read is 0. The text with the expected tokens is the one
`exportSeatToStream` writes. -/
theorem C32_import_reports_format_violation (lib : StreamLibrary) (cfg : ResearchConfig)
    (keys : SeatKeywords) (s : Seat) (gameMap : GameMap) (fuel : Nat)
    (hwords : keys.areWords = true) (hidText : lib.intRoundTrips s.mId)
    (hteam : isWord (Seat.teamText lib s) = true)
    (hplayer : isWord (Seat.playerText s) = true)
    (hfaction : isWord s.mFaction.toList = true)
    (hx : lib.intRoundTrips s.mStartingX) (hy : lib.intRoundTrips s.mStartingY)
    (hcolor : isWord s.mColorId.toList = true)
    (hgold : lib.intRoundTrips s.mGold) (hgoldMined : lib.intRoundTrips s.mGoldMined)
    (hmana : lib.doubleRoundTrips s.mMana)
    (hfuel : s.mResearchDone.length < fuel ∧ s.mResearchNotAllowed.length < fuel ∧
      s.mResearchPending.length < fuel)
    (hnamed : ∀ type ∈ s.mResearchDone ++ s.mResearchNotAllowed ++ s.mResearchPending,
      cfg.savesByName type = true)
    (hnodup : s.mResearchDone.Nodup ∧ s.mResearchNotAllowed.Nodup ∧ s.mResearchPending.Nodup)
    (hdisjoint : (∀ type ∈ s.mResearchNotAllowed, type ∉ s.mResearchDone) ∧
      (∀ type ∈ s.mResearchPending, type ∉ s.mResearchDone) ∧
      (∀ type ∈ s.mResearchPending, type ∉ s.mResearchNotAllowed)) :
    (Seat.importSeatFromStream lib cfg fuel (Seat.construct gameMap)
        { text := seatTextWith keys lib cfg s }).map (fun result => result.1) =
      some (decide (keys = SeatKeywords.expected ∧ s.mId ≠ 0)) ∧
    (s.exportSeatToStream lib cfg []).2 = seatTextWith SeatKeywords.expected lib cfg s := by
  constructor
  · by_cases hall : keys = SeatKeywords.expected ∧ s.mId ≠ 0
    · obtain ⟨hkeys, hid⟩ := hall
      subst hkeys
      rw [seatTextWith_expected,
        Seat.importSeatFromStream_seatText lib cfg fuel s (Seat.construct gameMap) hid hidText
          hteam hplayer hfaction hx hy hcolor hgold hgoldMined hmana hfuel.1 hfuel.2.1 hfuel.2.2
          (fun type h => hnamed type (by simp [h])) (fun type h => hnamed type (by simp [h]))
          (fun type h => hnamed type (by simp [h])) hnodup.1 hnodup.2.1 hnodup.2.2 hdisjoint.1
          hdisjoint.2.1 hdisjoint.2.2 rfl rfl rfl]
      simp [hid]
    · rw [Seat.importSeatFromStream_keys lib cfg fuel keys s (Seat.construct gameMap) hwords
        hidText hteam hplayer hfaction hx hy hcolor hgold hgoldMined hmana hfuel.1 hfuel.2.1
        (fun type h => hnamed type (by simp [h])) (fun type h => hnamed type (by simp [h]))
        hnodup.1 hnodup.2.1 hdisjoint.1 rfl rfl hall]
      simp [hall]
  · rw [Seat.exportSeatToStream_eq, seatTextWith_expected]
    rfl

/-- C32 witness: the text of the seat with 250 gold is accepted with the
expected tokens and refused when `faction` is replaced by `Faction`. -/
theorem C32_import_reports_format_violation_witness :
    (Seat.importSeatFromStream decimalStreams smallCatalog 2
        (Seat.construct { isServerGameMap := true })
        { text := seatTextWith keywordsWithoutFaction decimalStreams smallCatalog
            savedSeat }).map (fun result => result.1) = some false ∧
    (Seat.importSeatFromStream decimalStreams smallCatalog 2
        (Seat.construct { isServerGameMap := true })
        { text := seatTextWith SeatKeywords.expected decimalStreams smallCatalog
            savedSeat }).map (fun result => result.1) = some true :=
  ⟨(C32_import_reports_format_violation decimalStreams smallCatalog keywordsWithoutFaction
      savedSeat { isServerGameMap := true } 2 rfl (fun _ _ => rfl) rfl rfl rfl (fun _ _ => rfl)
      (fun _ _ => rfl) rfl (fun _ _ => rfl) (fun _ _ => rfl) (fun _ _ => rfl) (by decide)
      (by decide) (by decide) (by decide)).1.trans rfl,
    (C32_import_reports_format_violation decimalStreams smallCatalog SeatKeywords.expected
      savedSeat { isServerGameMap := true } 2 rfl (fun _ _ => rfl) rfl rfl rfl (fun _ _ => rfl)
      (fun _ _ => rfl) rfl (fun _ _ => rfl) (fun _ _ => rfl) (fun _ _ => rfl) (by decide)
      (by decide) (by decide) (by decide)).1.trans rfl⟩

/-- C23: the research lists do not stay pairwise disjoint. On a seat just
constructed on the server map, `setResearchesDone` with the cannon trap
followed by `setResearchTree` with the same research leaves it both done and
pending; and on the seat read from the text of a seat for which the cannon
trap is not allowed, `addResearch` of the cannon trap returns true and leaves
it both done and not allowed. The import of a seat keeps the lists apart: from
the text of a seat with the cannon trap both done and not allowed, and the
treasury both done and pending, it reads the two researches into the done list
only. -/
theorem C23_lists_not_disjoint :
    ((((Seat.construct { isServerGameMap := true }).setResearchesDone [3]).1.setResearchTree
        smallCatalog 7 [] [3]).1.mResearchDone = [3] ∧
      (((Seat.construct { isServerGameMap := true }).setResearchesDone [3]).1.setResearchTree
        smallCatalog 7 [] [3]).1.mResearchPending = [3]) ∧
    (∃ read : Seat,
      Seat.importSeatFromStream decimalStreams smallCatalog 2
          (Seat.construct { isServerGameMap := true })
          { text := (savedSeat.exportSeatToStream decimalStreams smallCatalog []).2 } =
        some (true, read, { text := [endlChar] }) ∧
      (read.addResearch 3).1 = true ∧ (read.addResearch 3).2.1.mResearchDone = [1, 3] ∧
      (read.addResearch 3).2.1.mResearchNotAllowed = [3]) ∧
    ∃ read : Seat,
      Seat.importSeatFromStream decimalStreams smallCatalog 3
          (Seat.construct { isServerGameMap := true })
          { text := (savedSeatWithOverlap.exportSeatToStream decimalStreams smallCatalog
              []).2 } =
        some (true, read, { text := [endlChar] }) ∧
      read.mResearchDone = [1, 3] ∧ read.mResearchNotAllowed = [] ∧
      read.mResearchPending = [2] :=
  ⟨⟨rfl, rfl⟩, ⟨_, rfl, rfl, rfl, rfl⟩, ⟨_, rfl, rfl, rfl, rfl⟩⟩

/-- C33 counterexample: with the enumerators numbered in a row, the value
4294967295 is the ordinal of no enumerator of `TileType` and of none of
`TileVisual`; a packet that holds it is decoded without error, to a value of
the enum that is none of the named enumerators. -/
theorem C33_unknown_ordinal_is_cast :
    TileType.readFromPacket tileTypeOrdinal { fields := [PacketField.uint32 4294967295] } =
      some (TileType.other, { fields := [] }) ∧
    4294967295 ∉
      [TileType.dirt, TileType.rock, TileType.gold, TileType.water, TileType.lava].map
        tileTypeOrdinal ∧
    TileVisual.readFromPacket tileVisualOrdinal
        { fields := [PacketField.uint32 4294967295] } =
      some (TileVisual.other, { fields := [] }) ∧
    4294967295 ∉
      [TileVisual.nullTileVisual, TileVisual.dirtGround, TileVisual.dirtFull,
        TileVisual.rockGround, TileVisual.rockFull, TileVisual.goldGround,
        TileVisual.goldFull, TileVisual.waterGround, TileVisual.lavaGround,
        TileVisual.claimedGround, TileVisual.claimedFull].map tileVisualOrdinal :=
  ⟨rfl, by decide, rfl, by decide⟩

/-- C33: when the named enumerators of `TileType` and of `TileVisual` have
pairwise different ordinals below 2^32, decoding the ordinal written by
`operator<<` for a named enumerator yields that enumerator and leaves what
follows in the packet; decoding succeeds for every 32-bit value in the
packet, and a value that is the ordinal of no named enumerator is cast to a
further value of the enum, without error. Such a value exists below 2^32
whatever the ordinals are. -/
theorem C33_enum_decoding (ordinal : TileType → Nat) (visualOrdinal : TileVisual → Nat)
    (hinj : ∀ a b, a ≠ TileType.other → b ≠ TileType.other → ordinal a = ordinal b →
      a = b)
    (hrange : ∀ type, ordinal type < 4294967296)
    (hvisualInj : ∀ a b, a ≠ TileVisual.other → b ≠ TileVisual.other →
      visualOrdinal a = visualOrdinal b → a = b)
    (hvisualRange : ∀ visual, visualOrdinal visual < 4294967296) :
    (∀ (type : TileType) (rest : List PacketField), type ≠ TileType.other →
      TileType.readFromPacket ordinal
          { fields := (TileType.writeToPacket ordinal { fields := [] } type).fields ++ rest } =
        some (type, { fields := rest })) ∧
    (∀ (n : Nat) (rest : List PacketField),
      TileType.readFromPacket ordinal { fields := PacketField.uint32 n :: rest } =
        some (TileType.ofUInt32 ordinal n, { fields := rest })) ∧
    (∀ n : Nat, (∀ type, type ≠ TileType.other → ordinal type ≠ n) →
      TileType.ofUInt32 ordinal n = TileType.other) ∧
    (∀ (visual : TileVisual) (rest : List PacketField), visual ≠ TileVisual.other →
      TileVisual.readFromPacket visualOrdinal
          { fields :=
              (TileVisual.writeToPacket visualOrdinal { fields := [] } visual).fields ++ rest } =
        some (visual, { fields := rest })) ∧
    (∀ (n : Nat) (rest : List PacketField),
      TileVisual.readFromPacket visualOrdinal { fields := PacketField.uint32 n :: rest } =
        some (TileVisual.ofUInt32 visualOrdinal n, { fields := rest })) ∧
    (∀ n : Nat, (∀ visual, visual ≠ TileVisual.other → visualOrdinal visual ≠ n) →
      TileVisual.ofUInt32 visualOrdinal n = TileVisual.other) ∧
    (∀ rest : List PacketField,
      (∃ n, n < 4294967296 ∧ (∀ type, ordinal type ≠ n) ∧
        TileType.readFromPacket ordinal { fields := PacketField.uint32 n :: rest } =
          some (TileType.other, { fields := rest })) ∧
      ∃ n, n < 4294967296 ∧ (∀ visual, visualOrdinal visual ≠ n) ∧
        TileVisual.readFromPacket visualOrdinal { fields := PacketField.uint32 n :: rest } =
          some (TileVisual.other, { fields := rest })) := by
  refine ⟨?_, fun n rest => rfl, TileType.ofUInt32_other ordinal, ?_, fun n rest => rfl,
    TileVisual.visualOfUInt32_other visualOrdinal,
    TileType.readFromPacket_unknown ordinal visualOrdinal⟩
  · intro type rest htype
    unfold TileType.writeToPacket TileType.readFromPacket ODPacket.writeUInt32
      ODPacket.readUInt32
    simp only [List.nil_append, List.singleton_append, Nat.mod_eq_of_lt (hrange type)]
    rw [TileType.ofUInt32_ordinal ordinal type hinj htype]
  · intro visual rest hvisual
    unfold TileVisual.writeToPacket TileVisual.readFromPacket ODPacket.writeUInt32
      ODPacket.readUInt32
    simp only [List.nil_append, List.singleton_append, Nat.mod_eq_of_lt (hvisualRange visual)]
    rw [TileVisual.visualOfUInt32_ordinal visualOrdinal visual hvisualInj hvisual]

/-- C33 witness: with the enumerators numbered in a row, gold is read back
from its ordinal and the value 4294967295 is cast to a further value of the
enum. -/
theorem C33_enum_decoding_witness :
    TileType.readFromPacket tileTypeOrdinal
        { fields := (TileType.writeToPacket tileTypeOrdinal { fields := [] }
            TileType.gold).fields ++ [PacketField.bool true] } =
      some (TileType.gold, { fields := [PacketField.bool true] }) ∧
    TileType.readFromPacket tileTypeOrdinal { fields := [PacketField.uint32 4294967295] } =
      some (TileType.other, { fields := [] }) :=
  ⟨(C33_enum_decoding tileTypeOrdinal tileVisualOrdinal
      (by intro a b; cases a <;> cases b <;> simp [tileTypeOrdinal])
      (by intro type; cases type <;> decide)
      (by intro a b; cases a <;> cases b <;> simp [tileVisualOrdinal])
      (by intro visual; cases visual <;> decide)).1 TileType.gold [PacketField.bool true]
      (by decide), by rfl⟩

/-- C34: after `setSeats seats` the flag of a seat is true exactly when the
seat is in the list, so it is true for every seat of the list and false for
any other; `changeNotifiedForSeat s` makes the flag of `s` false and leaves
the flag of every other seat as it was; and on a tile that has no pair for
`s`, `hasChangedForSeat s` is false and `changeNotifiedForSeat s` leaves the
tile as it was. -/
theorem C34_dirty_flags_independent (t : Tile) (seats : List SeatPtr) (s : SeatPtr) :
    (∀ seat, (t.setSeats seats).hasChangedForSeat seat = decide (seat ∈ seats)) ∧
    (t.changeNotifiedForSeat s).hasChangedForSeat s = false ∧
    (∀ other, other ≠ s →
      (t.changeNotifiedForSeat s).hasChangedForSeat other = t.hasChangedForSeat other) ∧
    ((∀ p ∈ t.mTileChangedForSeats, p.1 ≠ s) →
      t.hasChangedForSeat s = false ∧ t.changeNotifiedForSeat s = t) ∧
    (s ∉ seats →
      (t.setSeats seats).hasChangedForSeat s = false ∧
      (t.setSeats seats).changeNotifiedForSeat s = t.setSeats seats) := by
  have habsent : ∀ tile : Tile, (∀ p ∈ tile.mTileChangedForSeats, p.1 ≠ s) →
      tile.hasChangedForSeat s = false ∧ tile.changeNotifiedForSeat s = tile := by
    intro tile h
    obtain ⟨hsame, hflag⟩ := Tile.changeNotifiedForSeatLoop_absent _ s h
    refine ⟨hflag, ?_⟩
    unfold Tile.changeNotifiedForSeat
    rw [hsame]
  refine ⟨?_, Tile.hasChangedForSeat_changeNotifiedForSeat t s, ?_, habsent t, ?_⟩
  · intro seat
    exact Tile.hasChangedForSeatLoop_map seats seat
  · intro other hother
    exact Tile.hasChangedForSeatLoop_changeNotified_other _ s other hother
  · intro hnot
    apply habsent
    intro p hp
    simp only [Tile.setSeats, List.mem_map] at hp
    obtain ⟨seat, hseat, rfl⟩ := hp
    exact fun e => hnot (e ▸ hseat)

/-- C36: on a tile of the server map a claimed tile has an owner, so
`isClaimedForSeat` and `isDiggable` return a value for every seat,
`isWallClaimable` returns a value when the neighbours are tiles of the server
map too, and the test `tileSeat == nullptr` of `isWallClaimable`, which comes
after the tile was found claimed, never finds a null owner. -/
theorem C36_claim_queries_defined (t : Tile) (mNeighbors : List Tile) (seat : Seat)
    (hserver : t.mGameMap.isServerGameMap = true)
    (hneighbors : ∀ n ∈ mNeighbors, n.mGameMap.isServerGameMap = true) :
    (t.isClaimed = true → t.getSeat ≠ none) ∧
    (t.isClaimedForSeat seat).isSome = true ∧
    (t.isDiggable seat).isSome = true ∧
    (t.isWallClaimable mNeighbors seat).isSome = true ∧
    ¬ (t.isClaimed = true ∧ t.getSeat = none) := by
  have howner : t.isClaimed = true → t.getSeat ≠ none :=
    fun h => ((Tile.isClaimed_server t hserver).1 h).1
  have hnowner : ∀ n ∈ mNeighbors, n.isClaimed = true → n.getSeat ≠ none :=
    fun n hn h => ((Tile.isClaimed_server n (hneighbors n hn)).1 h).1
  have hclaimedFor : ∀ other : Seat, ∃ b, t.isClaimedForSeat other = some b :=
    fun other => ⟨_, Tile.isClaimedForSeat_eq t other howner⟩
  have hfound : ∀ other : Seat, ∃ b, Tile.foundClaimedGroundTile mNeighbors other = some b :=
    fun other => ⟨_, Tile.foundClaimedGroundTile_eq mNeighbors other hnowner⟩
  refine ⟨howner, ?_, ?_, ?_, fun h => howner h.1 h.2⟩
  · obtain ⟨b, hb⟩ := hclaimedFor seat
    rw [hb]
    rfl
  · obtain ⟨b, hb⟩ := hclaimedFor seat
    unfold Tile.isDiggable
    rw [hb]
    cases t.mTileVisual <;> cases t.isClaimed <;> cases b <;> rfl
  · obtain ⟨b, hb⟩ := hclaimedFor seat
    obtain ⟨f, hf⟩ := hfound seat
    unfold Tile.isWallClaimable
    rw [hb, hf]
    split
    · rfl
    · split
      · rfl
      · cases f
        · rfl
        · cases hclaimed : t.isClaimed
          · rfl
          · cases b
            · cases hseat : t.getSeat with
              | none => exact absurd hseat (howner hclaimed)
              | some tileSeat =>
                obtain ⟨g, hg⟩ := hfound tileSeat
                simp only [Bool.not_true, Bool.false_eq_true, if_false, hg]
                cases g <;> rfl
            · rfl

/-- C36 witness: the claimed ground tile of seat one, a tile of the server
map, answers the three queries for seat two. -/
theorem C36_claim_queries_defined_witness :
    (groundOfSeatOne.isClaimedForSeat seatTwo).isSome = true ∧
    (groundOfSeatOne.isDiggable seatTwo).isSome = true ∧
    (groundOfSeatOne.isWallClaimable [groundOfSeatTwo] seatTwo).isSome = true :=
  match C36_claim_queries_defined groundOfSeatOne [groundOfSeatTwo] seatTwo rfl
    (by decide) with
  | ⟨_, h1, h2, h3, _⟩ => ⟨h1, h2, h3⟩

/-- C37: `computeTileVisual` applied twice gives the tile it gives applied
once, on the server map and on a client map. On a client map a tile whose
visual is `claimedGround` or `claimedFull` gets `claimedFull` when its
fullness is above 0 and `claimedGround` otherwise, whatever its type. -/
theorem C37_computeTileVisual_idempotent (t : Tile) :
    t.computeTileVisual.computeTileVisual = t.computeTileVisual ∧
    (t.mGameMap.isServerGameMap = false →
      t.mTileVisual = TileVisual.claimedGround ∨ t.mTileVisual = TileVisual.claimedFull →
      t.computeTileVisual.mTileVisual =
        (if t.mFullness > 0 then TileVisual.claimedFull else TileVisual.claimedGround)) := by
  constructor
  · rw [Tile.computeTileVisual_eq t.computeTileVisual, Tile.isClaimed_computeTileVisual,
      Tile.computeTileVisual_eq t]
  · intro hclient hvisual
    have hclaimed : t.isClaimed = true := by
      unfold Tile.isClaimed
      rcases hvisual with h | h <;> simp [hclient, h]
    rw [Tile.computeTileVisual_eq]
    simp only [computeVisual, hclaimed, if_true]

/-- C38: for two tiles whose colour vectors hold the category, `isSameFloodFill`
returns a value, which is true exactly when the two colours stored are equal;
the relation it decides is reflexive, symmetric and transitive, and it holds
between two tiles that are both uncoloured for the category, as any two tiles
are after `resetFloodFill`. -/
theorem C38_isSameFloodFill_equivalence (a b c : Tile) (type : FloodFillType)
    (ha : toUInt32 type < a.mFloodFillColor.length)
    (hb : toUInt32 type < b.mFloodFillColor.length)
    (hc : toUInt32 type < c.mFloodFillColor.length) :
    a.isSameFloodFill type b = some (decide (a.floodFillValue type = b.floodFillValue type)) ∧
    a.isSameFloodFill type a = some true ∧
    (a.isSameFloodFill type b = some true → b.isSameFloodFill type a = some true) ∧
    (a.isSameFloodFill type b = some true → b.isSameFloodFill type c = some true →
      a.isSameFloodFill type c = some true) ∧
    (a.floodFillValue type = -1 → b.floodFillValue type = -1 →
      a.isSameFloodFill type b = some true) ∧
    a.resetFloodFill.isSameFloodFill type b.resetFloodFill = some true := by
  have hvalue : ∀ (x y : Tile), toUInt32 type < x.mFloodFillColor.length →
      toUInt32 type < y.mFloodFillColor.length →
      x.isSameFloodFill type y =
        some (decide (x.floodFillValue type = y.floodFillValue type)) := by
    intro x y hx hy
    unfold Tile.isSameFloodFill Tile.floodFillValue
    rw [List.getElem?_eq_getElem hx, List.getElem?_eq_getElem hy, dif_pos hx, dif_pos hy]
    simp only [Option.some.injEq]
    by_cases he : x.mFloodFillColor[toUInt32 type] = y.mFloodFillColor[toUInt32 type]
    · simp [he]
    · simp [he]
  have hreset : ∀ x : Tile, toUInt32 type < x.mFloodFillColor.length →
      x.resetFloodFill.floodFillValue type = -1 := by
    intro x hx
    unfold Tile.floodFillValue Tile.resetFloodFill
    simp [hx]
  have hlen : ∀ x : Tile, toUInt32 type < x.mFloodFillColor.length →
      toUInt32 type < x.resetFloodFill.mFloodFillColor.length := by
    intro x hx
    unfold Tile.resetFloodFill
    simpa using hx
  refine ⟨hvalue a b ha hb, ?_, ?_, ?_, ?_, ?_⟩
  · rw [hvalue a a ha ha]
    simp
  · rw [hvalue a b ha hb, hvalue b a hb ha]
    intro h
    simp only [Option.some.injEq, decide_eq_true_eq] at h ⊢
    exact h.symm
  · rw [hvalue a b ha hb, hvalue b c hb hc, hvalue a c ha hc]
    intro h1 h2
    simp only [Option.some.injEq, decide_eq_true_eq] at h1 h2 ⊢
    exact h1.trans h2
  · intro h1 h2
    rw [hvalue a b ha hb, h1, h2]
    simp
  · rw [hvalue _ _ (hlen a ha) (hlen b hb), hreset a ha, hreset b hb]
    simp

/-- C38 witness: a coloured floor and a fresh floor differ for the ground
category, and are the same flood fill once both are reset. -/
theorem C38_isSameFloodFill_equivalence_witness :
    colouredFloor.isSameFloodFill FloodFillType.ground colouredFloor = some true ∧
    colouredFloor.resetFloodFill.isSameFloodFill FloodFillType.ground
      freshFloor.resetFloodFill = some true :=
  match C38_isSameFloodFill_equivalence colouredFloor freshFloor colouredFloor
    FloodFillType.ground (by decide) (by decide) (by decide) with
  | ⟨_, hrefl, _, _, _, hreset⟩ => ⟨hrefl, hreset⟩

/-- C39 counterexample: on a tile whose list of marking players holds the
player 5 twice, `setMarkedForDigging(false, 5)` erases one entry and leaves
the player marked. -/
theorem C39_unmark_leaves_player_marked :
    (tileMarkedTwice.setMarkedForDigging (fun _ => seatOne) false 5).map
        (fun after => (after.mPlayersMarkingTile, after.getMarkedForDigging 5)) =
      some ([5], true) :=
  rfl

/-- C39: when `isDiggable` for the seat of `p` answers `diggable`,
`setMarkedForDigging(true, p)` leaves `p` marked exactly when `p` was marked
before or the tile is diggable; `setMarkedForDigging(false, p)` erases the
first entry of `p` from the list of marking players, which leaves `p`
unmarked when `p` was in the list at most once; neither call changes whether
another player is marked, and a list without duplicates stays without
duplicates. -/
theorem C39_setMarkedForDigging (t : Tile) (getSeat : PlayerPtr → Seat) (p : PlayerPtr) :
    (∀ diggable : Bool, t.isDiggable (getSeat p) = some diggable →
      ∃ after, t.setMarkedForDigging getSeat true p = some after ∧
        after.getMarkedForDigging p = (t.getMarkedForDigging p || diggable) ∧
        (∀ q, q ≠ p → after.getMarkedForDigging q = t.getMarkedForDigging q) ∧
        (t.mPlayersMarkingTile.Nodup → after.mPlayersMarkingTile.Nodup)) ∧
    ∃ after, t.setMarkedForDigging getSeat false p = some after ∧
      after.mPlayersMarkingTile = t.mPlayersMarkingTile.erase p ∧
      (t.mPlayersMarkingTile.count p ≤ 1 → after.getMarkedForDigging p = false) ∧
      (∀ q, q ≠ p → after.getMarkedForDigging q = t.getMarkedForDigging q) ∧
      (t.mPlayersMarkingTile.Nodup → after.mPlayersMarkingTile.Nodup) := by
  constructor
  · intro diggable hdiggable
    unfold Tile.setMarkedForDigging
    simp only [if_true, hdiggable]
    cases diggable with
    | false =>
      refine ⟨t, by simp, by simp, fun q _ => rfl, fun h => h⟩
    | true =>
      by_cases hmarked : p ∈ t.mPlayersMarkingTile
      · refine ⟨t, by simp [Tile.getMarkedForDigging, hmarked], ?_, fun q _ => rfl, fun h => h⟩
        simp [Tile.getMarkedForDigging, hmarked]
      · refine ⟨t.addPlayerMarkingTile p, by simp [Tile.getMarkedForDigging, hmarked], ?_, ?_,
          ?_⟩
        · simp [Tile.getMarkedForDigging, Tile.addPlayerMarkingTile]
        · intro q hq
          simp [Tile.getMarkedForDigging, Tile.addPlayerMarkingTile, hq]
        · intro hnodup
          simp only [Tile.addPlayerMarkingTile]
          rw [List.nodup_append]
          refine ⟨hnodup, List.nodup_singleton p, ?_⟩
          intro a ha hb
          have : a = p := by simpa using hb
          exact hmarked (this ▸ ha)
  · unfold Tile.setMarkedForDigging
    simp only [Bool.false_eq_true, if_false]
    by_cases hmarked : p ∈ t.mPlayersMarkingTile
    · refine ⟨t.removePlayerMarkingTile p, by simp [Tile.getMarkedForDigging, hmarked], ?_, ?_,
        ?_, ?_⟩
      · simp [Tile.removePlayerMarkingTile, hmarked]
      · intro hcount
        have hzero : (t.mPlayersMarkingTile.erase p).count p = 0 := by
          rw [List.count_erase_self]
          omega
        have hnot : p ∉ t.mPlayersMarkingTile.erase p := List.count_eq_zero.1 hzero
        simp [Tile.getMarkedForDigging, Tile.removePlayerMarkingTile, hmarked, hnot]
      · intro q hq
        have hiff : q ∈ t.mPlayersMarkingTile.erase p ↔ q ∈ t.mPlayersMarkingTile :=
          List.mem_erase_of_ne hq
        simp [Tile.getMarkedForDigging, Tile.removePlayerMarkingTile, hmarked, hiff]
      · intro hnodup
        simp only [Tile.removePlayerMarkingTile, hmarked, not_true_eq_false, if_false]
        exact hnodup.erase p
    · refine ⟨t, by simp [Tile.getMarkedForDigging, hmarked], ?_, ?_, fun q _ => rfl,
        fun h => h⟩
      · rw [List.erase_of_not_mem hmarked]
      · intro _
        simp [Tile.getMarkedForDigging, hmarked]

/-- C40: `checkAllGoals` appends to the completed goals the outstanding goals
that are met, appends to the failed goals those that are not met and are
failed, and keeps the others outstanding, each in the order the goals had; the
sub-goals released by the goals moved follow the goals kept. Each entry of the
outstanding list goes to exactly one of the three. The value returned is the
length of the new outstanding list as an `unsigned int`, which is the length
itself below 2^32. -/
theorem C40_checkAllGoals_partitions (s : Seat) (goals : GoalOracle) :
    (s.checkAllGoals goals).2.mCompletedGoals =
      s.mCompletedGoals ++ s.mUncompleteGoals.filter goals.isMet ∧
    (s.checkAllGoals goals).2.mFailedGoals =
      s.mFailedGoals ++
        s.mUncompleteGoals.filter (fun goal => !goals.isMet goal && goals.isFailed goal) ∧
    (s.checkAllGoals goals).2.mUncompleteGoals =
      s.mUncompleteGoals.filter (fun goal => !goals.isMet goal && !goals.isFailed goal) ++
        (s.mUncompleteGoals.map goals.released).join ∧
    (∀ goal : GoalPtr,
      s.mUncompleteGoals.count goal =
        (s.mUncompleteGoals.filter goals.isMet).count goal +
          (s.mUncompleteGoals.filter
            (fun g => !goals.isMet g && goals.isFailed g)).count goal +
          (s.mUncompleteGoals.filter
            (fun g => !goals.isMet g && !goals.isFailed g)).count goal) ∧
    (s.checkAllGoals goals).1 =
      (s.checkAllGoals goals).2.mUncompleteGoals.length % 4294967296 ∧
    ((s.checkAllGoals goals).2.mUncompleteGoals.length < 4294967296 →
      (s.checkAllGoals goals).1 = (s.checkAllGoals goals).2.mUncompleteGoals.length) ∧
    (s.checkAllGoals goals).2 =
      { s with
        mUncompleteGoals := (s.checkAllGoals goals).2.mUncompleteGoals
        mCompletedGoals := (s.checkAllGoals goals).2.mCompletedGoals
        mFailedGoals := (s.checkAllGoals goals).2.mFailedGoals } := by
  have hloop := Seat.checkAllGoalsLoop_eq goals s.mUncompleteGoals [] s.mCompletedGoals
    s.mFailedGoals []
  refine ⟨?_, ?_, ?_, count_three_filters goals s.mUncompleteGoals, rfl, ?_, rfl⟩
  · simp only [Seat.checkAllGoals, hloop]
  · simp only [Seat.checkAllGoals, hloop]
  · simp only [Seat.checkAllGoals, hloop, List.nil_append]
  · intro hlength
    exact Nat.mod_eq_of_lt hlength
